import Mathlib

/-!
A shallow embedding of `physics.js` (the resting-contact 2D rigid-body
simulator): the vector math, the rectangle body, the SAT collision
detector, the contact cache, the sequential-impulse solver passes and
the per-tick orchestration, together with theorems settling the frozen
claims about the specification.

Numbers are modelled by `ℚ`.  The three transcendental primitives the
source uses (`Math.sqrt`, `Math.cos`, `Math.sin`) are abstracted into a
`Trig` record of functions `ℚ → ℚ`; every universal theorem quantifies
over the record, so it holds in particular for the real functions.
Concrete counterexamples and witnesses use bodies whose `angle` is `0`
and instantiate the record with functions that agree with the real
`cos`/`sin` there (`cos 0 = 1`, `sin 0 = 0`), so they compute exactly
what the source computes on those inputs.
-/

/-- The abstracted numeric primitives of the source (`Math.sqrt`,
`Math.cos`, `Math.sin`). -/
structure Trig where
  sqrt : ℚ → ℚ
  cos : ℚ → ℚ
  sin : ℚ → ℚ

/-- Instantiation of `Trig` used by closed witnesses and counterexamples.
It agrees with the real functions at the only angle those concrete
inputs use: `cos 0 = 1`, `sin 0 = 0`; the `sqrt` component agrees with
the real square root at `0` (and is otherwise irrelevant to the closed
statements that use it). -/
def trig0 : Trig where
  sqrt := fun _ => 0
  cos := fun _ => 1
  sin := fun _ => 0

/-- `Vector2` of the source: an (x, y) pair of scalars. -/
structure Vector2 where
  x : ℚ
  y : ℚ
deriving DecidableEq, Repr

namespace Vector2

def add (a b : Vector2) : Vector2 := ⟨a.x + b.x, a.y + b.y⟩

def subtract (a b : Vector2) : Vector2 := ⟨a.x - b.x, a.y - b.y⟩

def multiply (v : Vector2) (scalar : ℚ) : Vector2 := ⟨v.x * scalar, v.y * scalar⟩

def dot (a b : Vector2) : ℚ := a.x * b.x + a.y * b.y

def cross (a b : Vector2) : ℚ := a.x * b.y - a.y * b.x

def perpendicular (v : Vector2) : Vector2 := ⟨-v.y, v.x⟩

def normalize (T : Trig) (v : Vector2) : Vector2 :=
  let length := T.sqrt (v.x * v.x + v.y * v.y)
  if length = 0 then ⟨0, 0⟩ else ⟨v.x / length, v.y / length⟩

def length (T : Trig) (v : Vector2) : ℚ := T.sqrt (v.x * v.x + v.y * v.y)

end Vector2

/-- `Rectangle` of the source: the rigid body.  The source also stores
`mass` and `inertia` (infinite for static bodies); they are read nowhere
after construction — only the inverse fields are — so only the inverses
are kept.  The cosmetic `color` field is omitted (it is never read by
the simulation). -/
structure Rectangle where
  position : Vector2
  velocity : Vector2
  deltaVelocity : Vector2
  angle : ℚ
  angularVelocity : ℚ
  deltaAngularVelocity : ℚ
  width : ℚ
  height : ℚ
  isStatic : Bool
  invMass : ℚ
  invInertia : ℚ
  staticFriction : ℚ
  dynamicFriction : ℚ
  id : ℕ
deriving DecidableEq, Repr

/-- The `Rectangle` constructor.  The process-global `Rectangle.nextId`
counter is threaded explicitly: the caller passes the id. -/
def mkRectangle (x y width height mass : ℚ) (isStatic : Bool) (id : ℕ) : Rectangle where
  position := ⟨x, y⟩
  velocity := ⟨0, 0⟩
  deltaVelocity := ⟨0, 0⟩
  angle := 0
  angularVelocity := 0
  deltaAngularVelocity := 0
  width := width
  height := height
  isStatic := isStatic
  invMass := if isStatic then 0 else 1 / mass
  invInertia := if isStatic then 0 else 1 / ((mass * (width * width + height * height)) / 12)
  staticFriction := if isStatic then 9/10 else 3/5
  dynamicFriction := if isStatic then 7/10 else 2/5
  id := id

/-- `Rectangle.getVertices`: the four world-space corners, rotated by
`angle` and translated by `position`. -/
def Rectangle.getVertices (T : Trig) (b : Rectangle) : List Vector2 :=
  let c := T.cos b.angle
  let s := T.sin b.angle
  let halfW := b.width / 2
  let halfH := b.height / 2
  [(⟨-halfW, -halfH⟩ : Vector2), ⟨halfW, -halfH⟩, ⟨halfW, halfH⟩, ⟨-halfW, halfH⟩].map
    (fun v => ⟨v.x * c - v.y * s + b.position.x, v.x * s + v.y * c + b.position.y⟩)

/-- `Contact` of the source.  `bodyA`/`bodyB` are object references in
the source; here they are the indices `a`/`b` of the two bodies in the
engine's body list (the list is append-only, so indices are stable
names for the referenced objects). -/
structure Contact where
  a : ℕ
  b : ℕ
  contactPoints : List Vector2
  normal : Vector2
  tangent : Vector2
  penetrations : List ℚ
  collisionMasses : List ℚ
  tangentialCollisionMasses : List ℚ
  collisionMassesCalculated : List Bool
  tangentialCollisionMassesCalculated : List Bool
  normalForceMagnitudes : List ℚ
deriving DecidableEq, Repr

/-- `ContactCache` of the source: the persistent per-pair entry.  The
source's `bodyA`/`bodyB` fields are never read after construction and
the `key` field is the map key; neither is stored here. -/
structure ContactCache where
  restingVelocityA : Vector2
  restingVelocityB : Vector2
  restingAngularVelocityA : ℚ
  restingAngularVelocityB : ℚ
  lastUpdateTime : ℕ
deriving DecidableEq, Repr

/-- A freshly constructed `ContactCache` entry (all biases zero,
`lastUpdateTime = 0`). -/
def ContactCache.fresh : ContactCache :=
  ⟨⟨0, 0⟩, ⟨0, 0⟩, 0, 0, 0⟩

/-- `ContactCache.generateKey`: the canonical unordered-pair key.  The
source formats the string `"min_max"`; the pair `(min, max)` is the same
key up to the injective formatting. -/
def generateKey (idA idB : ℕ) : ℕ × ℕ := (min idA idB, max idA idB)

/-- The contact-cache store: a JavaScript `Map` (insertion-ordered,
unique keys in every reachable state) modelled as an insertion-ordered
association list. -/
abbrev CacheStore := List ((ℕ × ℕ) × ContactCache)

/-- Lookup (`Map.get`): first entry with the given key. -/
def findEntry (k : ℕ × ℕ) : CacheStore → Option ContactCache
  | [] => none
  | (k', e) :: rest => if k' = k then some e else findEntry k rest

/-- In-place mutation of the entry under a key (the source mutates the
object returned by `Map.get`); a no-op if the key is absent (the source
would fault there — every use site is proven to find the key). -/
def setEntry (k : ℕ × ℕ) (e : ContactCache) : CacheStore → CacheStore
  | [] => []
  | (k', e') :: rest => if k' = k then (k', e) :: rest else (k', e') :: setEntry k e rest

/-- The engine state: every mutable field of the source's
`PhysicsEngine`.  `grabbedBody` stores the index of the grabbed body
(an object reference in the source). -/
structure PhysicsEngine where
  worldWidth : ℚ
  worldHeight : ℚ
  bodies : List Rectangle
  contacts : List Contact
  contactCache : CacheStore
  isPaused : Bool
  currentTime : ℕ
  mousePosition : Vector2
  grabbedBody : Option ℕ
  grabOffset : Vector2
  isMouseDown : Bool
deriving DecidableEq, Repr

/-- `this.hz`: the fixed tick rate. -/
def hz : ℕ := 60

/-- `this.gravity = new Vector2(0, 1 / this.hz)`. -/
def gravity : Vector2 := ⟨0, 1 / (hz : ℚ)⟩

/-- `this.cacheTimeout = this.hz * 0.5`: half a second of ticks. -/
def cacheTimeout : ℕ := hz / 2

namespace PhysicsEngine

/-! ### Collision detection -/

/-- `projectVertices`: the 1-D projection interval of a vertex set on an
axis.  The source reads `vertices[0]` first (vertex lists are always the
four rectangle corners); the empty case is unreachable. -/
def projectVertices (vertices : List Vector2) (axis : Vector2) : ℚ × ℚ :=
  match vertices with
  | [] => (0, 0)
  | v :: rest =>
    rest.foldl
      (fun mm w =>
        let projection := Vector2.dot w axis
        (if projection < mm.1 then projection else mm.1,
         if projection > mm.2 then projection else mm.2))
      (Vector2.dot v axis, Vector2.dot v axis)

/-- The cyclically consecutive pairs `(v[i], v[(i+1) % n])` that both
`getRectangleAxes` and `isPointInRectangle` loop over. -/
def cyclicPairs {α : Type} : List α → List (α × α)
  | [] => []
  | x :: xs => (x :: xs).zip (xs ++ [x])

/-- `getRectangleAxes`: the normalized outward edge normals. -/
def getRectangleAxes (T : Trig) (vertices : List Vector2) : List Vector2 :=
  (cyclicPairs vertices).map fun p =>
    Vector2.normalize T (Vector2.perpendicular (Vector2.subtract p.2 p.1))

/-- `getCenter`: the mean of the vertices. -/
def getCenter (vertices : List Vector2) : Vector2 :=
  Vector2.multiply (vertices.foldl Vector2.add ⟨0, 0⟩) (1 / (vertices.length : ℚ))

/-- `isPointInRectangle`: consistent-winding cross-product containment
test. -/
def isPointInRectangle (point : Vector2) (rectVertices : List Vector2) : Bool :=
  (cyclicPairs rectVertices).all fun p =>
    !(Vector2.cross (Vector2.subtract p.2 p.1) (Vector2.subtract point p.1) < 0)

/-- `findContactPoints`: the vertices of one rectangle lying inside the
other. -/
def findContactPoints (T : Trig) (vertices : List Vector2) (rect : Rectangle) : List Vector2 :=
  let rectVertices := rect.getVertices T
  vertices.filter fun vertex => isPointInRectangle vertex rectVertices

/-- The 1-D overlap `min(maxA, maxB) - max(minA, minB)` of the two
projection intervals on one axis. -/
def overlapOn (verticesA verticesB : List Vector2) (axis : Vector2) : ℚ :=
  let projA := projectVertices verticesA axis
  let projB := projectVertices verticesB axis
  min projA.2 projB.2 - max projA.1 projB.1

/-- `minOverlap` tracking: `none` plays the source's initial `Infinity`. -/
def updMin (best : Option (ℚ × Vector2)) (overlap : ℚ) (axis : Vector2) :
    Option (ℚ × Vector2) :=
  match best with
  | none => some (overlap, axis)
  | some (m, a) => if overlap < m then some (overlap, axis) else some (m, a)

/-- `minOverlapA`/`minOverlapB` tracking, also recording the projection
interval of the owning rectangle on the minimizing axis. -/
def updMinP (best : Option (ℚ × Vector2 × (ℚ × ℚ))) (overlap : ℚ) (axis : Vector2)
    (proj : ℚ × ℚ) : Option (ℚ × Vector2 × (ℚ × ℚ)) :=
  match best with
  | none => some (overlap, axis, proj)
  | some (m, a, p) => if overlap < m then some (overlap, axis, proj) else some (m, a, p)

/-- One of the two axis loops of `checkSATCollision`: scans a list of
candidate axes, returning `none` as soon as an axis has negative overlap
(the source's early `return null`), otherwise threading the global
minimum-overlap axis and the per-rectangle minimum (`keepA` selects
whether rectangle A's or B's projection interval is recorded, matching
the first and second loop respectively). -/
def satLoop (verticesA verticesB : List Vector2) (keepA : Bool) :
    List Vector2 → Option (ℚ × Vector2) → Option (ℚ × Vector2 × (ℚ × ℚ)) →
    Option (Option (ℚ × Vector2) × Option (ℚ × Vector2 × (ℚ × ℚ)))
  | [], best, bestR => some (best, bestR)
  | axis :: rest, best, bestR =>
    let projA := projectVertices verticesA axis
    let projB := projectVertices verticesB axis
    let overlap := min projA.2 projB.2 - max projA.1 projB.1
    if overlap < 0 then none
    else
      satLoop verticesA verticesB keepA rest (updMin best overlap axis)
        (updMinP bestR overlap axis (if keepA then projA else projB))

/-- `checkSATCollision`, producing the contact geometry: the contact
point list, the centroid-oriented separation normal, and the per-point
penetrations.  The final wildcard arm is unreachable (both axis lists
have four axes, so the minima are populated); the source would
dereference `null` there. -/
def checkSATCollision (T : Trig) (rectA rectB : Rectangle) :
    Option (List Vector2 × Vector2 × List ℚ) :=
  let verticesA := rectA.getVertices T
  let verticesB := rectB.getVertices T
  let axisA := getRectangleAxes T verticesA
  let axisB := getRectangleAxes T verticesB
  match satLoop verticesA verticesB true axisA none none with
  | none => none
  | some (best1, bestA) =>
    match satLoop verticesA verticesB false axisB best1 none with
    | none => none
    | some (best2, bestB) =>
      match best2, bestA, bestB with
      | some (_, sepAxis0), some (_, minAxisA, projA_minAxisA), some (_, minAxisB, projB_minAxisB) =>
        let contactPointsA := findContactPoints T verticesA rectB
        let contactPointsB := findContactPoints T verticesB rectA
        let centerA := getCenter verticesA
        let centerB := getCenter verticesB
        let centerDir := Vector2.subtract centerB centerA
        let separationAxis :=
          if Vector2.dot sepAxis0 centerDir < 0 then Vector2.multiply sepAxis0 (-1) else sepAxis0
        let contactPoints0 := contactPointsA ++ contactPointsB
        let contactPoints :=
          if contactPoints0 = [] then
            [Vector2.multiply (Vector2.add rectA.position rectB.position) (1/2)]
          else contactPoints0
        let penetration := contactPoints.map fun contactPoint =>
          let pointProjectionA := Vector2.dot contactPoint minAxisA
          let minDistToA :=
            min |pointProjectionA - projA_minAxisA.1| |pointProjectionA - projA_minAxisA.2|
          let pointProjectionB := Vector2.dot contactPoint minAxisB
          let minDistToB :=
            min |pointProjectionB - projB_minAxisB.1| |pointProjectionB - projB_minAxisB.2|
          max minDistToA minDistToB
        some (contactPoints, separationAxis, penetration)
      | _, _, _ => none

end PhysicsEngine

namespace PhysicsEngine

/-! ### Per-tick phases -/

/-- The tested axes of one `checkSATCollision` call, in test order:
rectangle A's four, then rectangle B's four. -/
def testedAxes (T : Trig) (rectA rectB : Rectangle) : List Vector2 :=
  getRectangleAxes T (rectA.getVertices T) ++ getRectangleAxes T (rectB.getVertices T)

/-- The ordered index pairs `(i, j)` with `i < j < n` visited by the
detection double loop. -/
def pairIndices (n : ℕ) : List (ℕ × ℕ) :=
  (List.range n).flatMap fun i => ((List.range n).drop (i + 1)).map fun j => (i, j)

/-- The `Contact` constructor: geometry plus per-point derived arrays
initialized to zeros/`false`. -/
def mkContact (T : Trig) (a b : ℕ) (contactPoints : List Vector2) (normal : Vector2)
    (penetrations : List ℚ) : Contact where
  a := a
  b := b
  contactPoints := contactPoints
  normal := normal
  tangent := Vector2.normalize T (Vector2.perpendicular normal)
  penetrations := penetrations
  collisionMasses := List.replicate contactPoints.length 0
  tangentialCollisionMasses := List.replicate contactPoints.length 0
  collisionMassesCalculated := List.replicate contactPoints.length false
  tangentialCollisionMassesCalculated := List.replicate contactPoints.length false
  normalForceMagnitudes := List.replicate contactPoints.length 0

/-- One step of the detection double loop: test the pair, push the
contact, and create/refresh the cache entry under the canonical key. -/
def detectStep (T : Trig) (st : PhysicsEngine) (ij : ℕ × ℕ) : PhysicsEngine :=
  match st.bodies[ij.1]?, st.bodies[ij.2]? with
  | some bodyA, some bodyB =>
    match checkSATCollision T bodyA bodyB with
    | none => st
    | some (contactPoints, normal, penetrations) =>
      let contact := mkContact T ij.1 ij.2 contactPoints normal penetrations
      let cacheKey := generateKey bodyA.id bodyB.id
      let cache1 :=
        if (findEntry cacheKey st.contactCache).isSome then st.contactCache
        else st.contactCache ++ [(cacheKey, ContactCache.fresh)]
      let cache2 :=
        match findEntry cacheKey cache1 with
        | some e => setEntry cacheKey { e with lastUpdateTime := st.currentTime } cache1
        | none => cache1
      { st with contacts := st.contacts ++ [contact], contactCache := cache2 }
  | _, _ => st

/-- `detectCollisions`: clear the contact list, then run the pairwise
SAT test over all body pairs. -/
def detectCollisions (T : Trig) (s : PhysicsEngine) : PhysicsEngine :=
  (pairIndices s.bodies.length).foldl (detectStep T) { s with contacts := [] }

/-- `resetDeltaVelocities`. -/
def resetDeltaVelocities (s : PhysicsEngine) : PhysicsEngine :=
  { s with
    bodies := s.bodies.map fun body =>
      { body with deltaVelocity := ⟨0, 0⟩, deltaAngularVelocity := 0 } }

/-- `applyForces`: gravity onto real and delta velocities of non-static
bodies. -/
def applyForces (s : PhysicsEngine) : PhysicsEngine :=
  { s with
    bodies := s.bodies.map fun body =>
      if body.isStatic then body
      else
        { body with
          velocity := Vector2.add body.velocity gravity
          deltaVelocity := Vector2.add body.deltaVelocity gravity } }

/-- `integrateMotion`: advance position by velocity and angle by angular
velocity for non-static bodies. -/
def integrateMotion (s : PhysicsEngine) : PhysicsEngine :=
  { s with
    bodies := s.bodies.map fun body =>
      if body.isStatic then body
      else
        { body with
          position := Vector2.add body.position body.velocity
          angle := body.angle + body.angularVelocity } }

/-- `calculateCollisionMass` for one contact point: memoized effective
normal and tangential collision masses. -/
def calculateCollisionMass (s : PhysicsEngine) (ci i : ℕ) : PhysicsEngine :=
  match s.contacts[ci]? with
  | none => s
  | some contact =>
    if contact.collisionMassesCalculated.getD i false then s
    else
      match s.bodies[contact.a]?, s.bodies[contact.b]? with
      | some bodyA, some bodyB =>
        let contactPoint := contact.contactPoints.getD i ⟨0, 0⟩
        let rA := Vector2.subtract contactPoint bodyA.position
        let rB := Vector2.subtract contactPoint bodyB.position
        let rAcrossN := Vector2.cross rA contact.normal
        let rBcrossN := Vector2.cross rB contact.normal
        let rotTermA := rAcrossN * rAcrossN * bodyA.invInertia
        let rotTermB := rBcrossN * rBcrossN * bodyB.invInertia
        let invEffectiveMass := bodyA.invMass + bodyB.invMass + rotTermA + rotTermB
        let rAcrossT := Vector2.cross rA contact.tangent
        let rBcrossT := Vector2.cross rB contact.tangent
        let rotTermTA := rAcrossT * rAcrossT * bodyA.invInertia
        let rotTermTB := rBcrossT * rBcrossT * bodyB.invInertia
        let invEffectiveMassT := bodyA.invMass + bodyB.invMass + rotTermTA + rotTermTB
        { s with
          contacts := s.contacts.set ci
            { contact with
              collisionMasses :=
                contact.collisionMasses.set i (if invEffectiveMass > 0 then 1 / invEffectiveMass else 0)
              collisionMassesCalculated := contact.collisionMassesCalculated.set i true
              tangentialCollisionMasses :=
                contact.tangentialCollisionMasses.set i
                  (if invEffectiveMassT > 0 then 1 / invEffectiveMassT else 0)
              tangentialCollisionMassesCalculated :=
                contact.tangentialCollisionMassesCalculated.set i true } }
      | _, _ => s

/-- The collision-mass precompute loop of `update` (step 4 of the
source's tick): `calculateCollisionMass` for every contact point of
every contact. -/
def precomputeCollisionMasses (s : PhysicsEngine) : PhysicsEngine :=
  (List.range s.contacts.length).foldl
    (fun st ci =>
      match st.contacts[ci]? with
      | none => st
      | some contact =>
        (List.range contact.contactPoints.length).foldl
          (fun st2 i => calculateCollisionMass st2 ci i) st)
    s

/-- The `if (!contact.bodyA.isStatic)` block of `separateObjects`:
displace body A against the correction and rotate it by the torque arm
measured from the already-displaced position, as in the source. -/
def separatePointA (st : PhysicsEngine) (idx : ℕ) (contactPoint displacement : Vector2) :
    PhysicsEngine :=
  match st.bodies[idx]? with
  | some bodyA =>
    if bodyA.isStatic then st
    else
      let newPosition := Vector2.subtract bodyA.position (Vector2.multiply displacement bodyA.invMass)
      let rA := Vector2.subtract contactPoint newPosition
      { st with
        bodies := st.bodies.set idx
          { bodyA with
            position := newPosition
            angle := bodyA.angle - Vector2.cross rA displacement * bodyA.invInertia } }
  | none => st

/-- The `if (!contact.bodyB.isStatic)` block of `separateObjects`:
displace body B with the correction (opposite sign to body A). -/
def separatePointB (st : PhysicsEngine) (idx : ℕ) (contactPoint displacement : Vector2) :
    PhysicsEngine :=
  match st.bodies[idx]? with
  | some bodyB =>
    if bodyB.isStatic then st
    else
      let newPosition := Vector2.add bodyB.position (Vector2.multiply displacement bodyB.invMass)
      let rB := Vector2.subtract contactPoint newPosition
      { st with
        bodies := st.bodies.set idx
          { bodyB with
            position := newPosition
            angle := bodyB.angle + Vector2.cross rB displacement * bodyB.invInertia } }
  | none => st

/-- One contact point of `separateObjects`: positional correction along
the normal, scaled by collision mass, inverse mass and β = 0.3, with
slop 2. -/
def separateStep (st : PhysicsEngine) (ci i : ℕ) : PhysicsEngine :=
  match st.contacts[ci]? with
  | none => st
  | some contact =>
    let contactPoint := contact.contactPoints.getD i ⟨0, 0⟩
    let collisionMass := contact.collisionMasses.getD i 0
    let penetration := contact.penetrations.getD i 0
    let adjustedPenetration0 := max 0 penetration - 2
    let adjustedPenetration :=
      if adjustedPenetration0 < 0 then adjustedPenetration0 * 0 else adjustedPenetration0
    let displacement := Vector2.multiply contact.normal (adjustedPenetration * collisionMass * (3/10))
    separatePointB (separatePointA st contact.a contactPoint displacement)
      contact.b contactPoint displacement

/-- `separateObjects`: the position-space pass. -/
def separateObjects (s : PhysicsEngine) : PhysicsEngine :=
  (List.range s.contacts.length).foldl
    (fun st ci =>
      match st.contacts[ci]? with
      | none => st
      | some contact =>
        (List.range contact.contactPoints.length).foldl
          (fun st2 i => separateStep st2 ci i) st)
    s

/-- The relative velocity of the two contact-point velocities projected
on a direction (the core of `calculateImpulse`). -/
def relativeVelocityAlong (posA posB contactPoint velA velB : Vector2)
    (angVelA angVelB : ℚ) (direction : Vector2) : ℚ :=
  let rA := Vector2.subtract contactPoint posA
  let rB := Vector2.subtract contactPoint posB
  let velAtContactA := Vector2.add velA ⟨-rA.y * angVelA, rA.x * angVelA⟩
  let velAtContactB := Vector2.add velB ⟨-rB.y * angVelB, rB.x * angVelB⟩
  Vector2.dot (Vector2.subtract velAtContactA velAtContactB) direction

/-- `calculateImpulse`: zero when the relative velocity along the
direction is separating (negative) and `allowNegative` is `false`;
otherwise the impulse `-(1 + restitution) · relVel · collisionMass`
along the direction.  Every caller passes `restitution = 0`, the
source's default. -/
def calculateImpulse (posA posB contactPoint velA velB : Vector2) (angVelA angVelB : ℚ)
    (collisionMass : ℚ) (direction : Vector2) (allowNegative : Bool) (restitution : ℚ) :
    Vector2 :=
  let relativeVelDirection :=
    relativeVelocityAlong posA posB contactPoint velA velB angVelA angVelB direction
  if relativeVelDirection < 0 ∧ allowNegative = false then ⟨0, 0⟩
  else Vector2.multiply direction (-(1 + restitution) * relativeVelDirection * collisionMass)

/-- The normal impulse of the resting-force pass for one contact point:
`calculateImpulse` on the combined velocities (real velocity minus the
cached resting bias) with `allowNegative = false`. -/
def restingNormalImpulse (bodyA bodyB : Rectangle) (cache : ContactCache)
    (contactPoint : Vector2) (collisionMass : ℚ) (normal : Vector2) : Vector2 :=
  calculateImpulse bodyA.position bodyB.position contactPoint
    (Vector2.subtract bodyA.velocity cache.restingVelocityA)
    (Vector2.subtract bodyB.velocity cache.restingVelocityB)
    (bodyA.angularVelocity - cache.restingAngularVelocityA)
    (bodyB.angularVelocity - cache.restingAngularVelocityB)
    collisionMass normal false 0

/-- The friction impulse of the resting-force pass for one contact
point: same combined velocities, tangential mass and direction, with
`allowNegative = true`. -/
def restingFrictionImpulse (bodyA bodyB : Rectangle) (cache : ContactCache)
    (contactPoint : Vector2) (tangentialCollisionMass : ℚ) (tangent : Vector2) : Vector2 :=
  calculateImpulse bodyA.position bodyB.position contactPoint
    (Vector2.subtract bodyA.velocity cache.restingVelocityA)
    (Vector2.subtract bodyB.velocity cache.restingVelocityB)
    (bodyA.angularVelocity - cache.restingAngularVelocityA)
    (bodyB.angularVelocity - cache.restingAngularVelocityB)
    tangentialCollisionMass tangent true 0

/-- The `applyToReal` body-A block of `applyImpulseToVelocities`. -/
def applyImpulseRealA (s : PhysicsEngine) (idx : ℕ) (contactPoint impulse : Vector2) :
    PhysicsEngine :=
  match s.bodies[idx]? with
  | some bodyA =>
    if bodyA.isStatic then s
    else
      { s with
        bodies := s.bodies.set idx
          { bodyA with
            velocity := Vector2.add bodyA.velocity (Vector2.multiply impulse bodyA.invMass)
            angularVelocity := bodyA.angularVelocity +
              Vector2.cross (Vector2.subtract contactPoint bodyA.position) impulse *
                bodyA.invInertia } }
  | none => s

/-- The `applyToReal` body-B block of `applyImpulseToVelocities`
(opposite sign). -/
def applyImpulseRealB (s : PhysicsEngine) (idx : ℕ) (contactPoint impulse : Vector2) :
    PhysicsEngine :=
  match s.bodies[idx]? with
  | some bodyB =>
    if bodyB.isStatic then s
    else
      { s with
        bodies := s.bodies.set idx
          { bodyB with
            velocity := Vector2.subtract bodyB.velocity (Vector2.multiply impulse bodyB.invMass)
            angularVelocity := bodyB.angularVelocity -
              Vector2.cross (Vector2.subtract contactPoint bodyB.position) impulse *
                bodyB.invInertia } }
  | none => s

/-- The `applyToDelta` body-A block of `applyImpulseToVelocities`. -/
def applyImpulseDeltaA (s : PhysicsEngine) (idx : ℕ) (contactPoint impulse : Vector2) :
    PhysicsEngine :=
  match s.bodies[idx]? with
  | some bodyA =>
    if bodyA.isStatic then s
    else
      { s with
        bodies := s.bodies.set idx
          { bodyA with
            deltaVelocity := Vector2.add bodyA.deltaVelocity (Vector2.multiply impulse bodyA.invMass)
            deltaAngularVelocity := bodyA.deltaAngularVelocity +
              Vector2.cross (Vector2.subtract contactPoint bodyA.position) impulse *
                bodyA.invInertia } }
  | none => s

/-- The `applyToDelta` body-B block of `applyImpulseToVelocities`
(opposite sign). -/
def applyImpulseDeltaB (s : PhysicsEngine) (idx : ℕ) (contactPoint impulse : Vector2) :
    PhysicsEngine :=
  match s.bodies[idx]? with
  | some bodyB =>
    if bodyB.isStatic then s
    else
      { s with
        bodies := s.bodies.set idx
          { bodyB with
            deltaVelocity := Vector2.subtract bodyB.deltaVelocity (Vector2.multiply impulse bodyB.invMass)
            deltaAngularVelocity := bodyB.deltaAngularVelocity -
              Vector2.cross (Vector2.subtract contactPoint bodyB.position) impulse *
                bodyB.invInertia } }
  | none => s

/-- The `applyToResting` block of `applyImpulseToVelocities`: look the
entry up under the canonical pair key and add the impulse-derived deltas
to body A's cached biases and subtract them from body B's. -/
def applyImpulseResting (s : PhysicsEngine) (contact : Contact)
    (contactPoint impulse : Vector2) : PhysicsEngine :=
  match s.bodies[contact.a]?, s.bodies[contact.b]? with
  | some bodyA, some bodyB =>
    let cacheKey := generateKey bodyA.id bodyB.id
    match findEntry cacheKey s.contactCache with
    | some cache =>
      let e1 :=
        if bodyA.isStatic then cache
        else
          { cache with
            restingVelocityA :=
              Vector2.add cache.restingVelocityA (Vector2.multiply impulse bodyA.invMass)
            restingAngularVelocityA := cache.restingAngularVelocityA +
              Vector2.cross (Vector2.subtract contactPoint bodyA.position) impulse *
                bodyA.invInertia }
      let e2 :=
        if bodyB.isStatic then e1
        else
          { e1 with
            restingVelocityB :=
              Vector2.subtract e1.restingVelocityB (Vector2.multiply impulse bodyB.invMass)
            restingAngularVelocityB := e1.restingAngularVelocityB -
              Vector2.cross (Vector2.subtract contactPoint bodyB.position) impulse *
                bodyB.invInertia }
      { s with contactCache := setEntry cacheKey e2 s.contactCache }
    | none => s
  | _, _ => s

/-- `applyImpulseToVelocities`: apply a combined impulse to the real
velocities, the per-tick delta accumulators and/or the resting cache
(opposite signs for body B throughout). -/
def applyImpulseToVelocities (s : PhysicsEngine) (contact : Contact) (i : ℕ)
    (impulse : Vector2) (applyToReal applyToDelta applyToResting : Bool) : PhysicsEngine :=
  let contactPoint := contact.contactPoints.getD i ⟨0, 0⟩
  let s1 :=
    if applyToReal then
      applyImpulseRealB (applyImpulseRealA s contact.a contactPoint impulse)
        contact.b contactPoint impulse
    else s
  let s2 :=
    if applyToDelta then
      applyImpulseDeltaB (applyImpulseDeltaA s1 contact.a contactPoint impulse)
        contact.b contactPoint impulse
    else s1
  if applyToResting then applyImpulseResting s2 contact contactPoint impulse
  else s2

end PhysicsEngine

namespace PhysicsEngine

/-- One contact point of `applyRestingForces`: normal impulse from the
combined (real minus cached-resting) velocities, recorded as the stored
normal force, plus static/dynamic friction clamping, applied to real
velocities only. -/
def restingForcesPoint (T : Trig) (ci : ℕ) (cache : ContactCache) (st2 : PhysicsEngine)
    (i : ℕ) : PhysicsEngine :=
  match st2.contacts[ci]? with
  | none => st2
  | some contact =>
    match st2.bodies[contact.a]?, st2.bodies[contact.b]? with
    | some bodyA, some bodyB =>
      let contactPoint := contact.contactPoints.getD i ⟨0, 0⟩
      let impulse := restingNormalImpulse bodyA bodyB cache contactPoint
        (contact.collisionMasses.getD i 0) contact.normal
      let contact' :=
        { contact with
          normalForceMagnitudes :=
            contact.normalForceMagnitudes.set i (Vector2.length T impulse) }
      let st3 := { st2 with contacts := st2.contacts.set ci contact' }
      let frictionImpulse := restingFrictionImpulse bodyA bodyB cache contactPoint
        (contact.tangentialCollisionMasses.getD i 0) contact.tangent
      let combinedStaticFriction := min bodyA.staticFriction bodyB.staticFriction
      let combinedDynamicFriction := min bodyA.dynamicFriction bodyB.dynamicFriction
      let normalForce := Vector2.length T impulse
      let maxStaticFriction := normalForce * combinedStaticFriction
      let totalImpulse :=
        if Vector2.length T frictionImpulse ≤ maxStaticFriction then
          Vector2.add impulse frictionImpulse
        else
          Vector2.add impulse
            (Vector2.multiply (Vector2.normalize T frictionImpulse)
              (normalForce * combinedDynamicFriction))
      applyImpulseToVelocities st3 contact' i totalImpulse true false false
    | _, _ => st2

/-- `applyRestingForces` (solver pass 1): per contact, look up the
resting cache (the source would fault on a missing entry; the entry is
always present, see the cache-presence theorem), then process each
contact point. -/
def applyRestingForces (T : Trig) (s : PhysicsEngine) : PhysicsEngine :=
  (List.range s.contacts.length).foldl
    (fun st ci =>
      match st.contacts[ci]? with
      | none => st
      | some contact =>
        match st.bodies[contact.a]?, st.bodies[contact.b]? with
        | some bodyA, some bodyB =>
          match findEntry (generateKey bodyA.id bodyB.id) st.contactCache with
          | none => st
          | some cache =>
            (List.range contact.contactPoints.length).foldl
              (restingForcesPoint T ci cache) st
        | _, _ => st)
    s

/-- One contact point of `measureAndCorrectError`: normal and friction
impulses from the real velocities (`allowNegative = true` for both; the
friction impulse reads body B's *delta* angular velocity where the
normal impulse reads its real one, a quirk the source carries), friction
bound by (stored normal force + this normal impulse), applied to the
resting cache only. -/
def errorCorrectionPoint (T : Trig) (ci : ℕ) (st2 : PhysicsEngine) (i : ℕ) : PhysicsEngine :=
  match st2.contacts[ci]? with
  | none => st2
  | some contact =>
    match st2.bodies[contact.a]?, st2.bodies[contact.b]? with
    | some bodyA, some bodyB =>
      let contactPoint := contact.contactPoints.getD i ⟨0, 0⟩
      let impulse := calculateImpulse bodyA.position bodyB.position contactPoint
        bodyA.velocity bodyB.velocity bodyA.angularVelocity bodyB.angularVelocity
        (contact.collisionMasses.getD i 0) contact.normal true 0
      let frictionImpulse := calculateImpulse bodyA.position bodyB.position contactPoint
        bodyA.velocity bodyB.velocity bodyA.angularVelocity bodyB.deltaAngularVelocity
        (contact.tangentialCollisionMasses.getD i 0) contact.tangent true 0
      let combinedStaticFriction := min bodyA.staticFriction bodyB.staticFriction
      let combinedDynamicFriction := min bodyA.dynamicFriction bodyB.dynamicFriction
      let maxStaticFriction :=
        (contact.normalForceMagnitudes.getD i 0 + Vector2.length T impulse) *
          combinedStaticFriction
      let totalImpulse :=
        if Vector2.length T frictionImpulse ≤ maxStaticFriction then
          Vector2.add impulse frictionImpulse
        else
          Vector2.add impulse
            (Vector2.multiply (Vector2.normalize T frictionImpulse)
              ((contact.normalForceMagnitudes.getD i 0 + Vector2.length T impulse) *
                combinedDynamicFriction))
      applyImpulseToVelocities st2 contact i totalImpulse false false true
    | _, _ => st2

/-- `measureAndCorrectError` (solver pass 2): per contact, the source
looks up the resting cache (fault on a missing entry, never reached) and
processes each contact point, applying only to the resting cache. -/
def measureAndCorrectError (T : Trig) (s : PhysicsEngine) : PhysicsEngine :=
  (List.range s.contacts.length).foldl
    (fun st ci =>
      match st.contacts[ci]? with
      | none => st
      | some contact =>
        match st.bodies[contact.a]?, st.bodies[contact.b]? with
        | some bodyA, some bodyB =>
          match findEntry (generateKey bodyA.id bodyB.id) st.contactCache with
          | none => st
          | some _ =>
            (List.range contact.contactPoints.length).foldl
              (errorCorrectionPoint T ci) st
        | _, _ => st)
    s

/-- One contact point of `applyNormalCollision`: normal impulse from
real velocities (`allowNegative = false`), friction impulse
(`allowNegative = true`), same friction bound as the error-correction
pass, applied to real velocities. -/
def normalCollisionPoint (T : Trig) (ci : ℕ) (st2 : PhysicsEngine) (i : ℕ) : PhysicsEngine :=
  match st2.contacts[ci]? with
  | none => st2
  | some contact =>
    match st2.bodies[contact.a]?, st2.bodies[contact.b]? with
    | some bodyA, some bodyB =>
      let contactPoint := contact.contactPoints.getD i ⟨0, 0⟩
      let impulse := calculateImpulse bodyA.position bodyB.position contactPoint
        bodyA.velocity bodyB.velocity bodyA.angularVelocity bodyB.angularVelocity
        (contact.collisionMasses.getD i 0) contact.normal false 0
      let frictionImpulse := calculateImpulse bodyA.position bodyB.position contactPoint
        bodyA.velocity bodyB.velocity bodyA.angularVelocity bodyB.angularVelocity
        (contact.tangentialCollisionMasses.getD i 0) contact.tangent true 0
      let combinedStaticFriction := min bodyA.staticFriction bodyB.staticFriction
      let combinedDynamicFriction := min bodyA.dynamicFriction bodyB.dynamicFriction
      let maxStaticFriction :=
        (contact.normalForceMagnitudes.getD i 0 + Vector2.length T impulse) *
          combinedStaticFriction
      let totalImpulse :=
        if Vector2.length T frictionImpulse ≤ maxStaticFriction then
          Vector2.add impulse frictionImpulse
        else
          Vector2.add impulse
            (Vector2.multiply (Vector2.normalize T frictionImpulse)
              ((contact.normalForceMagnitudes.getD i 0 + Vector2.length T impulse) *
                combinedDynamicFriction))
      applyImpulseToVelocities st2 contact i totalImpulse true false false
    | _, _ => st2

/-- `applyNormalCollision` (solver pass 3): real velocities in, real
velocities out; no cache access. -/
def applyNormalCollision (T : Trig) (s : PhysicsEngine) : PhysicsEngine :=
  (List.range s.contacts.length).foldl
    (fun st ci =>
      match st.contacts[ci]? with
      | none => st
      | some contact =>
        (List.range contact.contactPoints.length).foldl
          (normalCollisionPoint T ci) st)
    s

/-! ### Mouse interaction, resting decay, cache eviction -/

/-- `getBodyAtPoint`: scan bodies from the last inserted to the first,
returning the index of the first whose polygon contains the point. -/
def getBodyAtPointAux (T : Trig) (point : Vector2) : List (ℕ × Rectangle) → Option ℕ
  | [] => none
  | (i, body) :: rest =>
    if isPointInRectangle point (body.getVertices T) then some i
    else getBodyAtPointAux T point rest

/-- `getBodyAtPoint` on the engine state (index of the returned body). -/
def getBodyAtPoint (T : Trig) (s : PhysicsEngine) (point : Vector2) : Option ℕ :=
  getBodyAtPointAux T point s.bodies.enum.reverse

/-- `handleMouseDown`: record the pointer, and grab the body under it if
one is found and it is not static. -/
def handleMouseDown (T : Trig) (x y : ℚ) (s : PhysicsEngine) : PhysicsEngine :=
  let s1 := { s with isMouseDown := true, mousePosition := ⟨x, y⟩ }
  match getBodyAtPoint T s1 s1.mousePosition with
  | some bi =>
    match s1.bodies[bi]? with
    | some body =>
      if body.isStatic then s1
      else
        { s1 with
          grabbedBody := some bi
          grabOffset := Vector2.subtract s1.mousePosition body.position }
    | none => s1
  | none => s1

/-- `handleMouseMove`. -/
def handleMouseMove (x y : ℚ) (s : PhysicsEngine) : PhysicsEngine :=
  { s with mousePosition := ⟨x, y⟩ }

/-- `handleMouseUp`. -/
def handleMouseUp (s : PhysicsEngine) : PhysicsEngine :=
  { s with isMouseDown := false, grabbedBody := none, grabOffset := ⟨0, 0⟩ }

/-- `updateMouseInteraction`: while a body is held, move it 10% toward
the pointer target and damp its velocities by 0.6. -/
def updateMouseInteraction (s : PhysicsEngine) : PhysicsEngine :=
  match s.grabbedBody with
  | some gi =>
    if s.isMouseDown then
      match s.bodies[gi]? with
      | some body =>
        let targetPosition := Vector2.subtract s.mousePosition s.grabOffset
        let positionDelta := Vector2.subtract targetPosition body.position
        let newPosition := Vector2.add body.position (Vector2.multiply positionDelta (1/10))
        { s with
          bodies := s.bodies.set gi
            { body with
              position := newPosition
              velocity := Vector2.multiply body.velocity (3/5)
              angularVelocity := body.angularVelocity * (3/5) } }
      | none => s
    else s
  | none => s

/-- `applyRestingDecay`: per contact, multiply the cached resting
velocities by the decay factor `ff = 1` (body A's angular bias twice,
body B's never — as in the source). -/
def applyRestingDecay (s : PhysicsEngine) : PhysicsEngine :=
  (List.range s.contacts.length).foldl
    (fun st ci =>
      match st.contacts[ci]? with
      | none => st
      | some contact =>
        match st.bodies[contact.a]?, st.bodies[contact.b]? with
        | some bodyA, some bodyB =>
          let cacheKey := generateKey bodyA.id bodyB.id
          match findEntry cacheKey st.contactCache with
          | none => st
          | some cache =>
            let ff : ℚ := 1
            { st with
              contactCache := setEntry cacheKey
                { cache with
                  restingVelocityA := Vector2.multiply cache.restingVelocityA ff
                  restingVelocityB := Vector2.multiply cache.restingVelocityB ff
                  restingAngularVelocityA := cache.restingAngularVelocityA * ff * ff }
                st.contactCache }
        | _, _ => st)
    s

/-- `cleanupContactCache`: evict every entry whose last observed contact
is more than `cacheTimeout` ticks old. -/
def cleanupContactCache (s : PhysicsEngine) : PhysicsEngine :=
  { s with
    contactCache := s.contactCache.filter fun ke =>
      !((s.currentTime : ℤ) - (ke.2.lastUpdateTime : ℤ) > (cacheTimeout : ℤ)) }

/-! ### The tick -/

/-- The tick-counter increment at the top of `update`. -/
def incTime (s : PhysicsEngine) : PhysicsEngine :=
  { s with currentTime := s.currentTime + 1 }

/-- `update`: one simulation tick (a no-op while paused), phases in the
source's order. -/
def update (T : Trig) (s : PhysicsEngine) : PhysicsEngine :=
  if s.isPaused then s
  else
    cleanupContactCache <|
      applyRestingDecay <|
        updateMouseInteraction <|
          applyNormalCollision T <|
            measureAndCorrectError T <|
              applyRestingForces T <|
                separateObjects <|
                  precomputeCollisionMasses <|
                    integrateMotion <|
                      applyForces <|
                        resetDeltaVelocities <|
                          detectCollisions T <| incTime s

end PhysicsEngine

namespace PhysicsEngine

/-! ### Phase names, scripts, construction, and observation -/

/-- The named phases of one tick. -/
inductive Phase where
  | detect
  | resetDeltas
  | forces
  | integrate
  | massPrecompute
  | separate
  | restingForces
  | errorCorrection
  | normalCollision
  | mouse
  | restingDecay
  | evict
deriving DecidableEq, Repr

/-- The state transformer of each phase. -/
def phaseSem (T : Trig) : Phase → PhysicsEngine → PhysicsEngine
  | .detect => detectCollisions T
  | .resetDeltas => resetDeltaVelocities
  | .forces => applyForces
  | .integrate => integrateMotion
  | .massPrecompute => precomputeCollisionMasses
  | .separate => separateObjects
  | .restingForces => applyRestingForces T
  | .errorCorrection => measureAndCorrectError T
  | .normalCollision => applyNormalCollision T
  | .mouse => updateMouseInteraction
  | .restingDecay => applyRestingDecay
  | .evict => cleanupContactCache

/-- Run a list of phases in order. -/
def runPhases (T : Trig) (ps : List Phase) (s : PhysicsEngine) : PhysicsEngine :=
  ps.foldl (fun st p => phaseSem T p st) s

/-- The phase order the source's `update` actually executes. -/
def tickPhases : List Phase :=
  [.detect, .resetDeltas, .forces, .integrate, .massPrecompute, .separate,
   .restingForces, .errorCorrection, .normalCollision, .mouse, .restingDecay, .evict]

/-- The phase order asserted by the specification's control-flow
sentence ("Detector → Separation correction → Integrator
(forces+motion) → collision-mass precompute → Solver passes →
interaction update → cache eviction"), written with the same phase
names; the delta-velocity reset and the resting decay, which the
sentence does not mention, are placed where the source runs them.  This
definition follows the spec's words, not the source, for comparison
against `tickPhases`. -/
def specClaimedPhaseOrder : List Phase :=
  [.detect, .separate, .resetDeltas, .forces, .integrate, .massPrecompute,
   .restingForces, .errorCorrection, .normalCollision, .mouse, .restingDecay, .evict]

/-- The externally driven calls of the step/interaction interface. -/
inductive Event where
  | step
  | mouseDown (x y : ℚ)
  | mouseMove (x y : ℚ)
  | mouseUp
deriving DecidableEq, Repr

/-- Apply one external call. -/
def applyEvent (T : Trig) (s : PhysicsEngine) : Event → PhysicsEngine
  | .step => update T s
  | .mouseDown x y => handleMouseDown T x y s
  | .mouseMove x y => handleMouseMove x y s
  | .mouseUp => handleMouseUp s

/-- Run a sequence of external calls. -/
def runScript (T : Trig) (events : List Event) (s : PhysicsEngine) : PhysicsEngine :=
  events.foldl (applyEvent T) s

/-- `initializeWorld` inside the constructor: the static ground plus one
box at (200, 200) of size 50×30 with angle 0.1, ids drawn from the
process-global `Rectangle.nextId` counter, whose current value is the
explicit `nextId` argument.  (The global seeded random source is
consumed only by the omitted cosmetic `color`.) -/
def mkEngine (worldWidth worldHeight : ℚ) (nextId : ℕ) : PhysicsEngine :=
  let ground := mkRectangle (worldWidth / 2) (worldHeight - 25) worldWidth 50 1 true nextId
  let box0 := mkRectangle 200 200 50 30 1 false (nextId + 1)
  let box := { box0 with angle := 1/10 }
  { worldWidth := worldWidth
    worldHeight := worldHeight
    bodies := [ground, box]
    contacts := []
    contactCache := []
    isPaused := false
    currentTime := 0
    mousePosition := ⟨0, 0⟩
    grabbedBody := none
    grabOffset := ⟨0, 0⟩
    isMouseDown := false }

/-- The observable physical state of each body: position, angle,
velocity, angular velocity. -/
def physView (s : PhysicsEngine) : List (Vector2 × ℚ × Vector2 × ℚ) :=
  s.bodies.map fun b => (b.position, b.angle, b.velocity, b.angularVelocity)

/-- Shift a body's process-global id by `δ`. -/
def idShift (δ : ℕ) (b : Rectangle) : Rectangle := { b with id := b.id + δ }

/-- Shift both components of a cache key by `δ`. -/
def keyShift (δ : ℕ) (k : ℕ × ℕ) : ℕ × ℕ := (k.1 + δ, k.2 + δ)

/-- Shift every key of a cache store by `δ` (values unchanged). -/
def cacheShift (δ : ℕ) (c : CacheStore) : CacheStore :=
  c.map fun ke => (keyShift δ ke.1, ke.2)

/-- Uniformly shift every body id and every cache key of a state by `δ`
(the states two engine instances reach differ by exactly such a shift). -/
def relabel (δ : ℕ) (s : PhysicsEngine) : PhysicsEngine :=
  { s with
    bodies := s.bodies.map (idShift δ)
    contactCache := cacheShift δ s.contactCache }

/-! ### Observations used by the cache claims -/

/-- The canonical key of a contact, read through the body list (the
source computes it from `contact.bodyA.id` and `contact.bodyB.id`). -/
def contactKeyOf (s : PhysicsEngine) (c : Contact) : Option (ℕ × ℕ) :=
  match s.bodies[c.a]?, s.bodies[c.b]? with
  | some bodyA, some bodyB => some (generateKey bodyA.id bodyB.id)
  | _, _ => none

/-- The cache lookup a solver phase performs for a contact. -/
def getContactCacheOf (s : PhysicsEngine) (c : Contact) : Option ContactCache :=
  (contactKeyOf s c).bind fun k => findEntry k s.contactCache

/-- Every contact of the state has a contact-cache entry under its pair
key. -/
def allContactsCached (s : PhysicsEngine) : Prop :=
  ∀ c ∈ s.contacts, (getContactCacheOf s c).isSome

/-- The canonical keys of the body pairs that collide at the given body
list, in detection order. -/
def detectedKeys (T : Trig) (bodies : List Rectangle) : List (ℕ × ℕ) :=
  (pairIndices bodies.length).filterMap fun ij =>
    match bodies[ij.1]?, bodies[ij.2]? with
    | some bodyA, some bodyB =>
      match checkSATCollision T bodyA bodyB with
      | some _ => some (generateKey bodyA.id bodyB.id)
      | none => none
    | _, _ => none

/-- The cache keys are pairwise distinct (true of every reachable state:
a JavaScript `Map` cannot hold duplicate keys). -/
def NodupKeys (cache : CacheStore) : Prop := (cache.map Prod.fst).Nodup

/-- Every static body (looked up by its index) is left exactly where the
first state had it: the bodies' entries at static indices coincide. -/
def staticPreserved (s s' : PhysicsEngine) : Prop :=
  ∀ (i : ℕ) (b : Rectangle),
    s.bodies[i]? = some b → b.isStatic = true → s'.bodies[i]? = some b

end PhysicsEngine

namespace PhysicsEngine

/-! ### Auxiliary observations used in proofs -/

/-- The combined relative normal velocity the resting-force pass feeds
into its normal `calculateImpulse` call: body velocities minus the
cached resting biases. -/
def restingRelativeNormalVelocity (bodyA bodyB : Rectangle) (cache : ContactCache)
    (contactPoint normal : Vector2) : ℚ :=
  relativeVelocityAlong bodyA.position bodyB.position contactPoint
    (Vector2.subtract bodyA.velocity cache.restingVelocityA)
    (Vector2.subtract bodyB.velocity cache.restingVelocityB)
    (bodyA.angularVelocity - cache.restingAngularVelocityA)
    (bodyB.angularVelocity - cache.restingAngularVelocityB)
    normal

/-- The ids of the bodies, in list order. -/
def idsAt (s : PhysicsEngine) : List ℕ := s.bodies.map Rectangle.id

/-- The body-index pairs referenced by the contacts, in list order. -/
def contactRefs (s : PhysicsEngine) : List (ℕ × ℕ) :=
  s.contacts.map fun c => (c.a, c.b)

/-- Monotone key presence between two cache stores. -/
def cacheKeepsKeys (c c' : CacheStore) : Prop :=
  ∀ k : ℕ × ℕ, (findEntry k c).isSome → (findEntry k c').isSome

/-- The pause flag and tick counter of a state, which no phase inside
`update` writes. -/
def frameOf (s : PhysicsEngine) : Bool × ℕ := (s.isPaused, s.currentTime)

/-- The key list of the contact cache, in insertion order. -/
def cacheKeys (s : PhysicsEngine) : List (ℕ × ℕ) := s.contactCache.map Prod.fst

/-- The `lastUpdateTime` stamp of the cache entry under a key (`none`
when the key is absent). -/
def cacheStamp (k : ℕ × ℕ) (s : PhysicsEngine) : Option ℕ :=
  (findEntry k s.contactCache).map ContactCache.lastUpdateTime

/-- A state transition preserves the body ids (by index), the contacts'
body-index pairs, and the presence of every cache key. -/
def keepsShape (s s' : PhysicsEngine) : Prop :=
  idsAt s' = idsAt s ∧ contactRefs s' = contactRefs s ∧
    cacheKeepsKeys s.contactCache s'.contactCache

/-- The intermediate state of `update` right before the resting-force
pass runs (after detection, delta reset, gravity, integration,
collision-mass precompute and position separation). -/
def preRestingState (T : Trig) (s : PhysicsEngine) : PhysicsEngine :=
  separateObjects <|
    precomputeCollisionMasses <|
      integrateMotion <|
        applyForces <|
          resetDeltaVelocities <|
            detectCollisions T <| incTime s

/-- The intermediate state of `update` right before the error-correction
pass runs. -/
def preErrorState (T : Trig) (s : PhysicsEngine) : PhysicsEngine :=
  applyRestingForces T (preRestingState T s)

/-- The intermediate state of `update` right before the resting-decay
phase runs. -/
def preDecayState (T : Trig) (s : PhysicsEngine) : PhysicsEngine :=
  updateMouseInteraction <|
    applyNormalCollision T <|
      measureAndCorrectError T <| preErrorState T s

/-! ### Concrete instances used by closed counterexamples and witnesses
(bodies at `angle = 0`, where `trig0` agrees with the real `cos`/`sin`) -/

/-- A dynamic 2×2 unit-mass box at the origin (id 0). -/
def cexBodyA : Rectangle := mkRectangle 0 0 2 2 1 false 0

/-- A dynamic 2×2 unit-mass box at (0, 3) moving away from `cexBodyA`
(velocity (0, 3), id 1). -/
def cexBodyB : Rectangle := { mkRectangle 0 3 2 2 1 false 1 with velocity := ⟨0, 3⟩ }

/-- A state whose body list is a dynamic box under a static box, both
containing the origin: the reverse-order pick finds the static one
first. -/
def sPick : PhysicsEngine where
  worldWidth := 100
  worldHeight := 100
  bodies := [mkRectangle 0 0 2 2 1 false 0, mkRectangle 0 0 2 2 1 true 1]
  contacts := []
  contactCache := []
  isPaused := false
  currentTime := 0
  mousePosition := ⟨0, 0⟩
  grabbedBody := none
  grabOffset := ⟨0, 0⟩
  isMouseDown := false

/-- A one-point contact between body indices 0 and 1. -/
def cSix : Contact := mkContact trig0 0 1 [⟨0, 1⟩] ⟨0, 1⟩ [1]

/-- A state with two dynamic bodies, one contact between them, and the
corresponding cache entry. -/
def sSix : PhysicsEngine where
  worldWidth := 100
  worldHeight := 100
  bodies := [cexBodyA, cexBodyB]
  contacts := [cSix]
  contactCache := [((0, 1), ContactCache.fresh)]
  isPaused := false
  currentTime := 0
  mousePosition := ⟨0, 0⟩
  grabbedBody := none
  grabOffset := ⟨0, 0⟩
  isMouseDown := false

/-- A `Trig` whose `sqrt` agrees with the real square root at `4` — the
only squared edge length the 2×2 concrete rectangles below produce —
and whose `cos`/`sin` agree with the real ones at angle `0`. -/
def trigSq : Trig where
  sqrt := fun q => if q = 4 then 2 else 0
  cos := fun _ => 1
  sin := fun _ => 0

/-- A dynamic 2×2 box far from the origin (at (10, 10), id 1): disjoint
from `cexBodyA`. -/
def cexBodyFar : Rectangle := mkRectangle 10 10 2 2 1 false 1

/-- A state with no bodies and a single cache entry whose
`lastUpdateTime` equals the current tick. -/
def sEmptyCache : PhysicsEngine where
  worldWidth := 100
  worldHeight := 100
  bodies := []
  contacts := []
  contactCache := [((0, 1), ContactCache.fresh)]
  isPaused := false
  currentTime := 0
  mousePosition := ⟨0, 0⟩
  grabbedBody := none
  grabOffset := ⟨0, 0⟩
  isMouseDown := false

end PhysicsEngine

namespace PhysicsEngine

/-! ### Generic list and cache-store lemmas -/

theorem foldl_fixed {α σ : Type} {f : σ → α → σ} (hf : ∀ st x, f st x = st) :
    ∀ (l : List α) (s : σ), List.foldl f s l = s := by
  intro l
  induction l with
  | nil => intro s; rfl
  | cons x xs ih => intro s; rw [List.foldl_cons, hf]; exact ih s

theorem getElem?_set_self {α : Type} {l : List α} {i : ℕ} {b : α} (a : α)
    (h : l[i]? = some b) : (l.set i a)[i]? = some a := by
  have hi : i < l.length := by
    by_contra hc
    simp [List.getElem?_eq_none (Nat.le_of_not_lt hc)] at h
  simp [List.getElem?_set_eq_of_lt a hi]

theorem set_getElem?_self {α : Type} : ∀ {l : List α} {i : ℕ} {a : α},
    l[i]? = some a → l.set i a = l := by
  intro l
  induction l with
  | nil => intro i a h; simp at h
  | cons x xs ih =>
    intro i a h
    cases i with
    | zero => simp_all
    | succ j =>
      simp only [List.getElem?_cons_succ] at h
      simp only [List.set_cons_succ, List.cons.injEq, true_and]
      exact ih h

theorem findEntry_setEntry_self {k : ℕ × ℕ} {e' : ContactCache} :
    ∀ {c : CacheStore} {e : ContactCache},
      findEntry k c = some e → findEntry k (setEntry k e' c) = some e' := by
  intro c
  induction c with
  | nil => intro e h; simp [findEntry] at h
  | cons ke rest ih =>
    intro e h
    by_cases hk : ke.1 = k
    · simp [findEntry, setEntry, hk]
    · simp only [findEntry, setEntry, if_neg hk] at h ⊢
      exact ih h

theorem findEntry_setEntry_ne {k k' : ℕ × ℕ} {e' : ContactCache} (hne : k' ≠ k) :
    ∀ (c : CacheStore), findEntry k (setEntry k' e' c) = findEntry k c := by
  intro c
  induction c with
  | nil => rfl
  | cons ke rest ih =>
    by_cases hk : ke.1 = k'
    · have hne' : ke.1 ≠ k := hk ▸ hne
      simp [findEntry, setEntry, hk, hne', hne]
    · simp only [setEntry, if_neg hk, findEntry]
      by_cases hk2 : ke.1 = k
      · simp [hk2]
      · simp [hk2, ih]

theorem setEntry_getD_self {k : ℕ × ℕ} : ∀ {c : CacheStore} {e : ContactCache},
    findEntry k c = some e → setEntry k e c = c := by
  intro c
  induction c with
  | nil => intro e _; rfl
  | cons ke rest ih =>
    intro e h
    obtain ⟨k1, e1⟩ := ke
    by_cases hk : k1 = k
    · simp only [findEntry, if_pos hk, Option.some.injEq] at h
      subst h
      subst hk
      simp [setEntry]
    · simp only [findEntry, if_neg hk] at h
      simp [setEntry, hk, ih h]

theorem findEntry_append_isSome {k : ℕ × ℕ} :
    ∀ {c : CacheStore} (d : CacheStore), (findEntry k c).isSome →
      (findEntry k (c ++ d)).isSome := by
  intro c
  induction c with
  | nil => intro d h; simp [findEntry] at h
  | cons ke rest ih =>
    intro d h
    by_cases hk : ke.1 = k
    · simp [findEntry, hk]
    · simp only [findEntry, if_neg hk] at h ⊢
      exact ih d h

theorem findEntry_setEntry_isSome {k k' : ℕ × ℕ} {e' : ContactCache} :
    ∀ {c : CacheStore}, (findEntry k c).isSome →
      (findEntry k (setEntry k' e' c)).isSome := by
  intro c h
  by_cases hk : k' = k
  · subst hk
    cases he : findEntry k' c with
    | none => simp [he] at h
    | some e => simp [findEntry_setEntry_self he]
  · rw [findEntry_setEntry_ne hk]
    exact h

/-- `Vector2.multiply v 1 = v`. -/
theorem Vector2.multiply_one (v : Vector2) : Vector2.multiply v 1 = v := by
  simp [Vector2.multiply]

/-! ### C10: the resting-decay phase is the identity -/

/-- Helper: `applyRestingDecay` fixes every state (its decay factor is
the constant `1`). -/
theorem restingDecay_eq_id (s : PhysicsEngine) : applyRestingDecay s = s := by
  unfold applyRestingDecay
  apply foldl_fixed
  intro st ci
  cases hc : st.contacts[ci]? with
  | none => simp
  | some contact =>
    simp only
    cases ha : st.bodies[contact.a]? with
    | none => simp
    | some bodyA =>
      cases hb : st.bodies[contact.b]? with
      | none => simp
      | some bodyB =>
        simp only
        cases he : findEntry (generateKey bodyA.id bodyB.id) st.contactCache with
        | none => simp
        | some cache =>
          simp only [Vector2.multiply_one, mul_one]
          rw [setEntry_getD_self he]

/-- **C10** — The resting-decay phase is the identity on the whole
state: with its decay factor `ff = 1`, `applyRestingDecay` writes every
cached resting velocity and angular velocity back unchanged (body A's
angular bias is multiplied by `ff` twice, body B's is never written),
so the contact cache — and the rest of the state — is exactly
unchanged. -/
theorem applyRestingDecay_id (s : PhysicsEngine) : applyRestingDecay s = s :=
  restingDecay_eq_id s

/-! ### C1: the resting-force pass and separating contacts -/

/-- **C1 (counterexample)** — A concrete contact point at which the
combined relative normal velocity (real velocity minus cached resting
bias, projected on the normal) is `-3 < 0` (separating), the collision
mass is `1`, and the resting-force pass's normal impulse is the zero
vector, although the magnitude `-(1+e)·relativeNormalVelocity·
collisionMass` the claim asserts would be the nonzero impulse
`normal · 3`: the pass rejects separating contacts, contradicting the
claim. -/
theorem restingNormalImpulse_separating_cex :
    restingRelativeNormalVelocity cexBodyA cexBodyB ContactCache.fresh ⟨0, 1⟩ ⟨0, 1⟩ = -3 ∧
    restingNormalImpulse cexBodyA cexBodyB ContactCache.fresh ⟨0, 1⟩ 1 ⟨0, 1⟩ = ⟨0, 0⟩ ∧
    Vector2.multiply ⟨0, 1⟩ (-(1 + 0) * (-3) * 1) ≠ (⟨0, 0⟩ : Vector2) := by
  refine ⟨?_, ?_, ?_⟩
  · simp [restingRelativeNormalVelocity, relativeVelocityAlong, cexBodyA, cexBodyB, mkRectangle,
      ContactCache.fresh, Vector2.subtract, Vector2.add, Vector2.dot]
  · simp [restingNormalImpulse, calculateImpulse, relativeVelocityAlong, cexBodyA, cexBodyB,
      mkRectangle, ContactCache.fresh, Vector2.subtract, Vector2.add, Vector2.dot]
  · simp [Vector2.multiply]

/-- **C1 (amended)** — In the resting-force pass the normal impulse
computed from the combined velocity (real velocity minus cached resting
bias) *is* rejected when the relative velocity along the normal is
separating (negative): the pass calls `calculateImpulse` with
`allowNegative = false`, exactly like the normal-collision pass, and
produces the zero impulse there; only the error-correction pass passes
`allowNegative = true`. -/
theorem restingNormalImpulse_rejects_separating
    (bodyA bodyB : Rectangle) (cache : ContactCache) (contactPoint : Vector2)
    (collisionMass : ℚ) (normal : Vector2)
    (h : restingRelativeNormalVelocity bodyA bodyB cache contactPoint normal < 0) :
    restingNormalImpulse bodyA bodyB cache contactPoint collisionMass normal = ⟨0, 0⟩ := by
  unfold restingRelativeNormalVelocity at h
  unfold restingNormalImpulse calculateImpulse
  rw [if_pos ⟨h, rfl⟩]

/-- Closed witness for the amended C1 theorem at the concrete
counterexample contact. -/
theorem restingNormalImpulse_rejects_separating_witness :
    restingNormalImpulse cexBodyA cexBodyB ContactCache.fresh ⟨0, 1⟩ 1 ⟨0, 1⟩ = ⟨0, 0⟩ :=
  restingNormalImpulse_rejects_separating cexBodyA cexBodyB ContactCache.fresh
    ⟨0, 1⟩ 1 ⟨0, 1⟩ (by
      simp [restingRelativeNormalVelocity, relativeVelocityAlong, cexBodyA, cexBodyB,
        mkRectangle, ContactCache.fresh, Vector2.subtract, Vector2.add, Vector2.dot])

/-! ### C2: the per-tick phase order -/

/-- **C2 (counterexample)** — The phase order the tick actually executes
differs from the order the specification asserts: in `tickPhases` the
integrator (`forces` then `integrate`) and the collision-mass
precompute run *before* the position-separation correction, whereas
the claimed order `specClaimedPhaseOrder` places separation immediately
after detection and before integration. -/
theorem tickPhaseOrder_cex :
    specClaimedPhaseOrder ≠ tickPhases ∧
    tickPhases.indexOf Phase.integrate < tickPhases.indexOf Phase.separate ∧
    specClaimedPhaseOrder.indexOf Phase.separate < specClaimedPhaseOrder.indexOf Phase.integrate := by
  refine ⟨by decide, by decide, by decide⟩

/-- **C2 (amended)** — Every non-paused tick executes its phases in the
order: collision detection, delta-velocity reset, gravity forces,
motion integration, collision-mass precompute, *then*
position-separation correction, then the three solver passes
(resting-force, error-correction, normal-collision), then
pointer-interaction update, then resting decay, then cache eviction —
i.e. separation correction runs *after* the integrator moves bodies,
not before. -/
theorem update_runs_tickPhases (T : Trig) (s : PhysicsEngine) (h : s.isPaused = false) :
    update T s = runPhases T tickPhases (incTime s) := by
  simp [update, h, runPhases, tickPhases, phaseSem]

/-- Closed witness for the amended C2 theorem at a concrete non-paused
state. -/
theorem update_runs_tickPhases_witness :
    update trig0 sPick = runPhases trig0 tickPhases (incTime sPick) :=
  update_runs_tickPhases trig0 sPick rfl

end PhysicsEngine

namespace PhysicsEngine

/-! ### C3: static bodies are untouched by the solver passes -/

theorem staticPreserved_refl (s : PhysicsEngine) : staticPreserved s s :=
  fun _ _ h _ => h

theorem staticPreserved_trans {s t u : PhysicsEngine}
    (h1 : staticPreserved s t) (h2 : staticPreserved t u) : staticPreserved s u :=
  fun i b hib hbs => h2 i b (h1 i b hib hbs) hbs

theorem staticPreserved_of_bodiesEq {s s' : PhysicsEngine}
    (h : s'.bodies = s.bodies) : staticPreserved s s' :=
  fun _ _ hib _ => h ▸ hib

theorem staticPreserved_foldl {α : Type} {f : PhysicsEngine → α → PhysicsEngine}
    (hf : ∀ st x, staticPreserved st (f st x)) :
    ∀ (l : List α) (s : PhysicsEngine), staticPreserved s (List.foldl f s l) := by
  intro l
  induction l with
  | nil => intro s; exact staticPreserved_refl s
  | cons x xs ih =>
    intro s
    rw [List.foldl_cons]
    exact staticPreserved_trans (hf s x) (ih (f s x))

theorem staticPreserved_of_bodies_set {s s' : PhysicsEngine} {j : ℕ} {bj b' : Rectangle}
    (hj : s.bodies[j]? = some bj) (hstat : bj.isStatic = false)
    (hs' : s'.bodies = s.bodies.set j b') : staticPreserved s s' := by
  intro i b hib hbs
  rw [hs']
  by_cases hij : i = j
  · subst hij
    rw [hib] at hj
    cases hj
    rw [hbs] at hstat
    cases hstat
  · rw [List.getElem?_set_ne (by omega)]
    exact hib

theorem staticPreserved_separatePointA (st : PhysicsEngine) (idx : ℕ)
    (contactPoint displacement : Vector2) :
    staticPreserved st (separatePointA st idx contactPoint displacement) := by
  unfold separatePointA
  rcases hj : st.bodies[idx]? with _ | bodyA
  · simp only [hj]; exact staticPreserved_refl st
  · simp only [hj]
    by_cases hs : bodyA.isStatic = true
    · simp only [hs, if_true]; exact staticPreserved_refl st
    · simp only [if_neg hs]
      exact staticPreserved_of_bodies_set hj (Bool.not_eq_true _ ▸ hs) rfl

theorem staticPreserved_separatePointB (st : PhysicsEngine) (idx : ℕ)
    (contactPoint displacement : Vector2) :
    staticPreserved st (separatePointB st idx contactPoint displacement) := by
  unfold separatePointB
  rcases hj : st.bodies[idx]? with _ | bodyB
  · simp only [hj]; exact staticPreserved_refl st
  · simp only [hj]
    by_cases hs : bodyB.isStatic = true
    · simp only [hs, if_true]; exact staticPreserved_refl st
    · simp only [if_neg hs]
      exact staticPreserved_of_bodies_set hj (Bool.not_eq_true _ ▸ hs) rfl

theorem staticPreserved_applyImpulseRealA (s : PhysicsEngine) (idx : ℕ)
    (contactPoint impulse : Vector2) :
    staticPreserved s (applyImpulseRealA s idx contactPoint impulse) := by
  unfold applyImpulseRealA
  rcases hj : s.bodies[idx]? with _ | bodyA
  · simp only [hj]; exact staticPreserved_refl s
  · simp only [hj]
    by_cases hs : bodyA.isStatic = true
    · simp only [hs, if_true]; exact staticPreserved_refl s
    · simp only [if_neg hs]
      exact staticPreserved_of_bodies_set hj (Bool.not_eq_true _ ▸ hs) rfl

theorem staticPreserved_applyImpulseRealB (s : PhysicsEngine) (idx : ℕ)
    (contactPoint impulse : Vector2) :
    staticPreserved s (applyImpulseRealB s idx contactPoint impulse) := by
  unfold applyImpulseRealB
  rcases hj : s.bodies[idx]? with _ | bodyB
  · simp only [hj]; exact staticPreserved_refl s
  · simp only [hj]
    by_cases hs : bodyB.isStatic = true
    · simp only [hs, if_true]; exact staticPreserved_refl s
    · simp only [if_neg hs]
      exact staticPreserved_of_bodies_set hj (Bool.not_eq_true _ ▸ hs) rfl

theorem staticPreserved_applyImpulseDeltaA (s : PhysicsEngine) (idx : ℕ)
    (contactPoint impulse : Vector2) :
    staticPreserved s (applyImpulseDeltaA s idx contactPoint impulse) := by
  unfold applyImpulseDeltaA
  rcases hj : s.bodies[idx]? with _ | bodyA
  · simp only [hj]; exact staticPreserved_refl s
  · simp only [hj]
    by_cases hs : bodyA.isStatic = true
    · simp only [hs, if_true]; exact staticPreserved_refl s
    · simp only [if_neg hs]
      exact staticPreserved_of_bodies_set hj (Bool.not_eq_true _ ▸ hs) rfl

theorem staticPreserved_applyImpulseDeltaB (s : PhysicsEngine) (idx : ℕ)
    (contactPoint impulse : Vector2) :
    staticPreserved s (applyImpulseDeltaB s idx contactPoint impulse) := by
  unfold applyImpulseDeltaB
  rcases hj : s.bodies[idx]? with _ | bodyB
  · simp only [hj]; exact staticPreserved_refl s
  · simp only [hj]
    by_cases hs : bodyB.isStatic = true
    · simp only [hs, if_true]; exact staticPreserved_refl s
    · simp only [if_neg hs]
      exact staticPreserved_of_bodies_set hj (Bool.not_eq_true _ ▸ hs) rfl

theorem applyImpulseResting_bodies (s : PhysicsEngine) (contact : Contact)
    (contactPoint impulse : Vector2) :
    (applyImpulseResting s contact contactPoint impulse).bodies = s.bodies := by
  unfold applyImpulseResting
  rcases s.bodies[contact.a]? with _ | bodyA <;> rcases s.bodies[contact.b]? with _ | bodyB <;>
    simp only
  rcases findEntry (generateKey bodyA.id bodyB.id) s.contactCache with _ | cache <;> rfl

theorem staticPreserved_applyImpulseResting (s : PhysicsEngine) (contact : Contact)
    (contactPoint impulse : Vector2) :
    staticPreserved s (applyImpulseResting s contact contactPoint impulse) :=
  staticPreserved_of_bodiesEq (applyImpulseResting_bodies s contact contactPoint impulse)

theorem staticPreserved_realBlock (s : PhysicsEngine) (a b : ℕ)
    (contactPoint impulse : Vector2) (r : Bool) :
    staticPreserved s
      (if r then applyImpulseRealB (applyImpulseRealA s a contactPoint impulse) b contactPoint impulse
       else s) := by
  cases r
  · exact staticPreserved_refl s
  · exact staticPreserved_trans (staticPreserved_applyImpulseRealA s a contactPoint impulse)
      (staticPreserved_applyImpulseRealB _ b contactPoint impulse)

theorem staticPreserved_deltaBlock (s : PhysicsEngine) (a b : ℕ)
    (contactPoint impulse : Vector2) (d : Bool) :
    staticPreserved s
      (if d then applyImpulseDeltaB (applyImpulseDeltaA s a contactPoint impulse) b contactPoint impulse
       else s) := by
  cases d
  · exact staticPreserved_refl s
  · exact staticPreserved_trans (staticPreserved_applyImpulseDeltaA s a contactPoint impulse)
      (staticPreserved_applyImpulseDeltaB _ b contactPoint impulse)

theorem staticPreserved_restingBlock (s : PhysicsEngine) (contact : Contact)
    (contactPoint impulse : Vector2) (rr : Bool) :
    staticPreserved s
      (if rr then applyImpulseResting s contact contactPoint impulse else s) := by
  cases rr
  · exact staticPreserved_refl s
  · exact staticPreserved_applyImpulseResting s contact contactPoint impulse

theorem staticPreserved_applyImpulse (s : PhysicsEngine) (contact : Contact) (i : ℕ)
    (impulse : Vector2) (r d rr : Bool) :
    staticPreserved s (applyImpulseToVelocities s contact i impulse r d rr) := by
  unfold applyImpulseToVelocities
  exact staticPreserved_trans (staticPreserved_realBlock s contact.a contact.b _ impulse r)
    (staticPreserved_trans (staticPreserved_deltaBlock _ contact.a contact.b _ impulse d)
      (staticPreserved_restingBlock _ contact _ impulse rr))

theorem staticPreserved_separateStep (st : PhysicsEngine) (ci i : ℕ) :
    staticPreserved st (separateStep st ci i) := by
  unfold separateStep
  rcases st.contacts[ci]? with _ | contact
  · exact staticPreserved_refl st
  · exact staticPreserved_trans
      (staticPreserved_separatePointA st contact.a _ _)
      (staticPreserved_separatePointB _ contact.b _ _)

theorem staticPreserved_separateObjects (s : PhysicsEngine) :
    staticPreserved s (separateObjects s) := by
  unfold separateObjects
  refine staticPreserved_foldl ?_ _ s
  intro st ci
  rcases st.contacts[ci]? with _ | contact
  · exact staticPreserved_refl st
  · exact staticPreserved_foldl (fun st2 i => staticPreserved_separateStep st2 ci i) _ st

theorem staticPreserved_restingForcesPoint (T : Trig) (ci : ℕ) (cache : ContactCache)
    (st2 : PhysicsEngine) (i : ℕ) :
    staticPreserved st2 (restingForcesPoint T ci cache st2 i) := by
  unfold restingForcesPoint
  split
  · exact staticPreserved_refl st2
  · split
    all_goals
      first
        | · refine staticPreserved_trans ?_ (staticPreserved_applyImpulse _ _ i _ true false false)
            exact staticPreserved_of_bodiesEq rfl
        | exact staticPreserved_refl _

theorem staticPreserved_applyRestingForces (T : Trig) (s : PhysicsEngine) :
    staticPreserved s (applyRestingForces T s) := by
  unfold applyRestingForces
  refine staticPreserved_foldl ?_ _ s
  intro st ci
  split
  · exact staticPreserved_refl st
  · split
    all_goals
      first
        | split
          all_goals
            first
              | exact staticPreserved_foldl (by intro st2 i; exact staticPreserved_restingForcesPoint T ci _ st2 i) _ st
              | exact staticPreserved_refl _
        | exact staticPreserved_refl _

theorem staticPreserved_errorCorrectionPoint (T : Trig) (ci : ℕ)
    (st2 : PhysicsEngine) (i : ℕ) :
    staticPreserved st2 (errorCorrectionPoint T ci st2 i) := by
  unfold errorCorrectionPoint
  split
  · exact staticPreserved_refl st2
  · split
    all_goals
      first
        | exact staticPreserved_applyImpulse _ _ i _ false false true
        | exact staticPreserved_refl _

theorem staticPreserved_measureAndCorrectError (T : Trig) (s : PhysicsEngine) :
    staticPreserved s (measureAndCorrectError T s) := by
  unfold measureAndCorrectError
  refine staticPreserved_foldl ?_ _ s
  intro st ci
  split
  · exact staticPreserved_refl st
  · split
    all_goals
      first
        | split
          all_goals
            first
              | exact staticPreserved_foldl (fun st2 i => staticPreserved_errorCorrectionPoint T ci st2 i) _ st
              | exact staticPreserved_refl _
        | exact staticPreserved_refl _

theorem staticPreserved_normalCollisionPoint (T : Trig) (ci : ℕ)
    (st2 : PhysicsEngine) (i : ℕ) :
    staticPreserved st2 (normalCollisionPoint T ci st2 i) := by
  unfold normalCollisionPoint
  split
  · exact staticPreserved_refl st2
  · split
    all_goals
      first
        | exact staticPreserved_applyImpulse _ _ i _ true false false
        | exact staticPreserved_refl _

theorem staticPreserved_applyNormalCollision (T : Trig) (s : PhysicsEngine) :
    staticPreserved s (applyNormalCollision T s) := by
  unfold applyNormalCollision
  refine staticPreserved_foldl ?_ _ s
  intro st ci
  split
  · exact staticPreserved_refl st
  · exact staticPreserved_foldl (fun st2 i => staticPreserved_normalCollisionPoint T ci st2 i) _ st

/-- **C3** — For every body with `isStatic` true, no solver pass
(position separation, resting-force, error-correction,
normal-collision) ever changes that body: its entry in the body list —
and with it its position, angle, velocity, and angular velocity — is
exactly preserved, for any world state and any contacts. -/
theorem solver_passes_static_invariant (T : Trig) (s : PhysicsEngine) :
    staticPreserved s (separateObjects s) ∧
    staticPreserved s (applyRestingForces T s) ∧
    staticPreserved s (measureAndCorrectError T s) ∧
    staticPreserved s (applyNormalCollision T s) :=
  ⟨staticPreserved_separateObjects s, staticPreserved_applyRestingForces T s,
   staticPreserved_measureAndCorrectError T s, staticPreserved_applyNormalCollision T s⟩

/-- Closed witness for C3: the static box of `sPick` (index 1) is
untouched by each solver pass. -/
theorem solver_passes_static_invariant_witness :
    (separateObjects sPick).bodies[1]? = some (mkRectangle 0 0 2 2 1 true 1) ∧
    (applyRestingForces trig0 sPick).bodies[1]? = some (mkRectangle 0 0 2 2 1 true 1) ∧
    (measureAndCorrectError trig0 sPick).bodies[1]? = some (mkRectangle 0 0 2 2 1 true 1) ∧
    (applyNormalCollision trig0 sPick).bodies[1]? = some (mkRectangle 0 0 2 2 1 true 1) :=
  ⟨(solver_passes_static_invariant trig0 sPick).1 1 _ rfl rfl,
   (solver_passes_static_invariant trig0 sPick).2.1 1 _ rfl rfl,
   (solver_passes_static_invariant trig0 sPick).2.2.1 1 _ rfl rfl,
   (solver_passes_static_invariant trig0 sPick).2.2.2 1 _ rfl rfl⟩

end PhysicsEngine

namespace PhysicsEngine

/-! ### C6: the error-correction pass writes only the resting cache -/

theorem foldl_proj_eq {α β : Type} {π : PhysicsEngine → β} {f : PhysicsEngine → α → PhysicsEngine}
    (hf : ∀ st x, π (f st x) = π st) :
    ∀ (l : List α) (s : PhysicsEngine), π (List.foldl f s l) = π s := by
  intro l
  induction l with
  | nil => intro s; rfl
  | cons x xs ih =>
    intro s
    rw [List.foldl_cons, ih (f s x), hf]

theorem applyImpulseToVelocities_resting_only (s : PhysicsEngine) (contact : Contact)
    (i : ℕ) (impulse : Vector2) :
    applyImpulseToVelocities s contact i impulse false false true =
      applyImpulseResting s contact (contact.contactPoints.getD i ⟨0, 0⟩) impulse := rfl

theorem applyImpulseResting_contacts (s : PhysicsEngine) (contact : Contact)
    (contactPoint impulse : Vector2) :
    (applyImpulseResting s contact contactPoint impulse).contacts = s.contacts := by
  unfold applyImpulseResting
  rcases s.bodies[contact.a]? with _ | bodyA <;> rcases s.bodies[contact.b]? with _ | bodyB <;>
    simp only
  rcases findEntry (generateKey bodyA.id bodyB.id) s.contactCache with _ | cache <;> rfl

theorem errorCorrectionPoint_bodies (T : Trig) (ci : ℕ) (st2 : PhysicsEngine) (i : ℕ) :
    (errorCorrectionPoint T ci st2 i).bodies = st2.bodies := by
  unfold errorCorrectionPoint
  split
  · rfl
  · split
    all_goals
      first
        | rw [applyImpulseToVelocities_resting_only, applyImpulseResting_bodies]
        | rfl

theorem errorCorrectionPoint_contacts (T : Trig) (ci : ℕ) (st2 : PhysicsEngine) (i : ℕ) :
    (errorCorrectionPoint T ci st2 i).contacts = st2.contacts := by
  unfold errorCorrectionPoint
  split
  · rfl
  · split
    all_goals
      first
        | rw [applyImpulseToVelocities_resting_only, applyImpulseResting_contacts]
        | rfl

theorem measureAndCorrectError_bodies (T : Trig) (s : PhysicsEngine) :
    (measureAndCorrectError T s).bodies = s.bodies := by
  unfold measureAndCorrectError
  refine foldl_proj_eq ?_ _ s
  intro st ci
  split
  · rfl
  · split
    all_goals
      first
        | split
          all_goals
            first
              | exact foldl_proj_eq (fun st2 i => errorCorrectionPoint_bodies T ci st2 i) _ st
              | rfl
        | rfl

theorem measureAndCorrectError_contacts (T : Trig) (s : PhysicsEngine) :
    (measureAndCorrectError T s).contacts = s.contacts := by
  unfold measureAndCorrectError
  refine foldl_proj_eq ?_ _ s
  intro st ci
  split
  · rfl
  · split
    all_goals
      first
        | split
          all_goals
            first
              | exact foldl_proj_eq (fun st2 i => errorCorrectionPoint_contacts T ci st2 i) _ st
              | rfl
        | rfl

theorem applyImpulseResting_cache_update (s : PhysicsEngine) (c : Contact)
    (contactPoint impulse : Vector2) (bodyA bodyB : Rectangle) (cache : ContactCache)
    (ha : s.bodies[c.a]? = some bodyA) (hb : s.bodies[c.b]? = some bodyB)
    (hsa : bodyA.isStatic = false) (hsb : bodyB.isStatic = false)
    (he : findEntry (generateKey bodyA.id bodyB.id) s.contactCache = some cache) :
    findEntry (generateKey bodyA.id bodyB.id)
        (applyImpulseResting s c contactPoint impulse).contactCache =
      some
        { restingVelocityA :=
            Vector2.add cache.restingVelocityA (Vector2.multiply impulse bodyA.invMass)
          restingVelocityB :=
            Vector2.subtract cache.restingVelocityB (Vector2.multiply impulse bodyB.invMass)
          restingAngularVelocityA := cache.restingAngularVelocityA +
            Vector2.cross (Vector2.subtract contactPoint bodyA.position) impulse *
              bodyA.invInertia
          restingAngularVelocityB := cache.restingAngularVelocityB -
            Vector2.cross (Vector2.subtract contactPoint bodyB.position) impulse *
              bodyB.invInertia
          lastUpdateTime := cache.lastUpdateTime } := by
  unfold applyImpulseResting
  rw [ha, hb]
  simp only [he, hsa, hsb, Bool.false_eq_true, if_false]
  exact findEntry_setEntry_self he

/-- **C6** — The error-correction pass mutates only the contact-cache
resting biases: it leaves the body list (hence every body's real
velocity, real angular velocity, delta velocity, and delta angular
velocity) and the contact list unchanged, and its impulse application
(`applyImpulseToVelocities` with only `applyToResting` set, i.e.
`applyImpulseResting`) adds the impulse-derived delta to body A's
cached resting velocity and angular velocity and subtracts it from
body B's, leaving `lastUpdateTime` alone. -/
theorem errorCorrection_mutates_only_cache (T : Trig) (s : PhysicsEngine) :
    (measureAndCorrectError T s).bodies = s.bodies ∧
    (measureAndCorrectError T s).contacts = s.contacts ∧
    (∀ (c : Contact) (contactPoint impulse : Vector2) (bodyA bodyB : Rectangle)
        (cache : ContactCache),
      s.bodies[c.a]? = some bodyA → s.bodies[c.b]? = some bodyB →
      bodyA.isStatic = false → bodyB.isStatic = false →
      findEntry (generateKey bodyA.id bodyB.id) s.contactCache = some cache →
      findEntry (generateKey bodyA.id bodyB.id)
          (applyImpulseResting s c contactPoint impulse).contactCache =
        some
          { restingVelocityA :=
              Vector2.add cache.restingVelocityA (Vector2.multiply impulse bodyA.invMass)
            restingVelocityB :=
              Vector2.subtract cache.restingVelocityB (Vector2.multiply impulse bodyB.invMass)
            restingAngularVelocityA := cache.restingAngularVelocityA +
              Vector2.cross (Vector2.subtract contactPoint bodyA.position) impulse *
                bodyA.invInertia
            restingAngularVelocityB := cache.restingAngularVelocityB -
              Vector2.cross (Vector2.subtract contactPoint bodyB.position) impulse *
                bodyB.invInertia
            lastUpdateTime := cache.lastUpdateTime }) :=
  ⟨measureAndCorrectError_bodies T s, measureAndCorrectError_contacts T s,
   fun c contactPoint impulse bodyA bodyB cache ha hb hsa hsb he =>
     applyImpulseResting_cache_update s c contactPoint impulse bodyA bodyB cache
       ha hb hsa hsb he⟩

/-- Closed witness for C6 at a concrete two-body contact state. -/
theorem errorCorrection_mutates_only_cache_witness :
    findEntry (generateKey cexBodyA.id cexBodyB.id)
        (applyImpulseResting sSix cSix ⟨0, 1⟩ ⟨2, 5⟩).contactCache =
      some
        { restingVelocityA :=
            Vector2.add ContactCache.fresh.restingVelocityA
              (Vector2.multiply ⟨2, 5⟩ cexBodyA.invMass)
          restingVelocityB :=
            Vector2.subtract ContactCache.fresh.restingVelocityB
              (Vector2.multiply ⟨2, 5⟩ cexBodyB.invMass)
          restingAngularVelocityA := ContactCache.fresh.restingAngularVelocityA +
            Vector2.cross (Vector2.subtract ⟨0, 1⟩ cexBodyA.position) ⟨2, 5⟩ *
              cexBodyA.invInertia
          restingAngularVelocityB := ContactCache.fresh.restingAngularVelocityB -
            Vector2.cross (Vector2.subtract ⟨0, 1⟩ cexBodyB.position) ⟨2, 5⟩ *
              cexBodyB.invInertia
          lastUpdateTime := ContactCache.fresh.lastUpdateTime } :=
  (errorCorrection_mutates_only_cache trig0 sSix).2.2 cSix ⟨0, 1⟩ ⟨2, 5⟩
    cexBodyA cexBodyB ContactCache.fresh rfl rfl rfl rfl rfl

end PhysicsEngine

namespace PhysicsEngine

theorem updMin_isSome (best : Option (ℚ × Vector2)) (overlap : ℚ) (axis : Vector2) :
    (updMin best overlap axis).isSome := by
  rcases best with _ | ⟨m, a⟩
  · rfl
  · show (if overlap < m then some (overlap, axis) else some (m, a)).isSome = true
    split <;> rfl

theorem updMinP_isSome (best : Option (ℚ × Vector2 × (ℚ × ℚ))) (overlap : ℚ) (axis : Vector2)
    (proj : ℚ × ℚ) : (updMinP best overlap axis proj).isSome := by
  rcases best with _ | ⟨m, a, p⟩
  · rfl
  · show (if overlap < m then some (overlap, axis, proj) else some (m, a, p)).isSome = true
    split <;> rfl

theorem satLoop_eq_none_iff (vsA vsB : List Vector2) (keepA : Bool) :
    ∀ (axes : List Vector2) (best : Option (ℚ × Vector2))
      (bestR : Option (ℚ × Vector2 × (ℚ × ℚ))),
      satLoop vsA vsB keepA axes best bestR = none ↔
        ∃ ax ∈ axes, overlapOn vsA vsB ax < 0 := by
  intro axes
  induction axes with
  | nil => intro best bestR; simp [satLoop]
  | cons ax rest ih =>
    intro best bestR
    rw [show satLoop vsA vsB keepA (ax :: rest) best bestR =
      (if overlapOn vsA vsB ax < 0 then none
       else satLoop vsA vsB keepA rest (updMin best (overlapOn vsA vsB ax) ax)
         (updMinP bestR (overlapOn vsA vsB ax) ax
           (if keepA then projectVertices vsA ax else projectVertices vsB ax))) from rfl]
    by_cases h : overlapOn vsA vsB ax < 0
    · simp only [if_pos h, true_iff]
      exact ⟨ax, List.mem_cons_self ax rest, h⟩
    · rw [if_neg h, ih]
      constructor
      · rintro ⟨x, hx, hlt⟩
        exact ⟨x, List.mem_cons_of_mem _ hx, hlt⟩
      · rintro ⟨x, hx, hlt⟩
        rcases List.mem_cons.mp hx with rfl | hx'
        · exact absurd hlt h
        · exact ⟨x, hx', hlt⟩

theorem satLoop_isSome_mono (vsA vsB : List Vector2) (keepA : Bool) :
    ∀ (axes : List Vector2) (best : Option (ℚ × Vector2))
      (bestR : Option (ℚ × Vector2 × (ℚ × ℚ))) (b' : Option (ℚ × Vector2))
      (r' : Option (ℚ × Vector2 × (ℚ × ℚ))),
      satLoop vsA vsB keepA axes best bestR = some (b', r') →
      (best.isSome → b'.isSome) ∧ (bestR.isSome → r'.isSome) := by
  intro axes
  induction axes with
  | nil =>
    intro best bestR b' r' h
    unfold satLoop at h
    cases h
    exact ⟨id, id⟩
  | cons ax rest ih =>
    intro best bestR b' r' h
    rw [show satLoop vsA vsB keepA (ax :: rest) best bestR =
      (if overlapOn vsA vsB ax < 0 then none
       else satLoop vsA vsB keepA rest (updMin best (overlapOn vsA vsB ax) ax)
         (updMinP bestR (overlapOn vsA vsB ax) ax
           (if keepA then projectVertices vsA ax else projectVertices vsB ax))) from rfl] at h
    by_cases hov : overlapOn vsA vsB ax < 0
    · rw [if_pos hov] at h; cases h
    · rw [if_neg hov] at h
      have := ih _ _ _ _ h
      exact ⟨fun _ => this.1 (updMin_isSome _ _ _), fun _ => this.2 (updMinP_isSome _ _ _ _)⟩

theorem satLoop_cons_isSome {vsA vsB : List Vector2} {keepA : Bool} {ax : Vector2}
    {rest : List Vector2} {best : Option (ℚ × Vector2)}
    {bestR : Option (ℚ × Vector2 × (ℚ × ℚ))} {b' : Option (ℚ × Vector2)}
    {r' : Option (ℚ × Vector2 × (ℚ × ℚ))}
    (h : satLoop vsA vsB keepA (ax :: rest) best bestR = some (b', r')) :
    b'.isSome ∧ r'.isSome := by
  rw [show satLoop vsA vsB keepA (ax :: rest) best bestR =
    (if overlapOn vsA vsB ax < 0 then none
     else satLoop vsA vsB keepA rest (updMin best (overlapOn vsA vsB ax) ax)
       (updMinP bestR (overlapOn vsA vsB ax) ax
         (if keepA then projectVertices vsA ax else projectVertices vsB ax))) from rfl] at h
  by_cases hov : overlapOn vsA vsB ax < 0
  · rw [if_pos hov] at h; cases h
  · rw [if_neg hov] at h
    have := satLoop_isSome_mono vsA vsB keepA _ _ _ _ _ h
    exact ⟨this.1 (updMin_isSome _ _ _), this.2 (updMinP_isSome _ _ _ _)⟩

end PhysicsEngine

namespace PhysicsEngine

theorem getVertices_length (T : Trig) (b : Rectangle) : (b.getVertices T).length = 4 := by
  simp [Rectangle.getVertices]

theorem cyclicPairs_length {α : Type} (l : List α) : (cyclicPairs l).length = l.length := by
  cases l with
  | nil => rfl
  | cons x xs => simp [cyclicPairs]

theorem getRectangleAxes_length (T : Trig) (vs : List Vector2) :
    (getRectangleAxes T vs).length = vs.length := by
  simp [getRectangleAxes, cyclicPairs_length]

theorem getRectangleAxes_getVertices_ne_nil (T : Trig) (b : Rectangle) :
    getRectangleAxes T (b.getVertices T) ≠ [] := by
  intro hnil
  have := getRectangleAxes_length T (b.getVertices T)
  rw [hnil, getVertices_length] at this
  cases this

theorem satLoop_isSome_of_ne_nil {vsA vsB : List Vector2} {keepA : Bool}
    {axes : List Vector2} {best : Option (ℚ × Vector2)}
    {bestR : Option (ℚ × Vector2 × (ℚ × ℚ))} {b' : Option (ℚ × Vector2)}
    {r' : Option (ℚ × Vector2 × (ℚ × ℚ))} (haxes : axes ≠ [])
    (h : satLoop vsA vsB keepA axes best bestR = some (b', r')) :
    b'.isSome ∧ r'.isSome := by
  rcases axes with _ | ⟨ax, rest⟩
  · exact absurd rfl haxes
  · exact satLoop_cons_isSome h

theorem checkSATCollision_dichotomy (T : Trig) (a b : Rectangle) :
    (checkSATCollision T a b = none ∧
      ∃ ax ∈ testedAxes T a b,
        overlapOn (a.getVertices T) (b.getVertices T) ax < 0) ∨
    ((checkSATCollision T a b).isSome ∧
      ∀ ax ∈ testedAxes T a b,
        0 ≤ overlapOn (a.getVertices T) (b.getVertices T) ax) := by
  rcases h1 : satLoop (a.getVertices T) (b.getVertices T) true
      (getRectangleAxes T (a.getVertices T)) none none with _ | ⟨best1, bestA⟩
  · left
    obtain ⟨ax, hax, hlt⟩ := (satLoop_eq_none_iff _ _ _ _ _ _).mp h1
    refine ⟨?_, ⟨ax, List.mem_append_left _ hax, hlt⟩⟩
    unfold checkSATCollision
    dsimp only
    rw [h1]
  · rcases h2 : satLoop (a.getVertices T) (b.getVertices T) false
        (getRectangleAxes T (b.getVertices T)) best1 none with _ | ⟨best2, bestB⟩
    · left
      obtain ⟨ax, hax, hlt⟩ := (satLoop_eq_none_iff _ _ _ _ _ _).mp h2
      refine ⟨?_, ⟨ax, List.mem_append_right _ hax, hlt⟩⟩
      unfold checkSATCollision
      dsimp only
      rw [h1]
      dsimp only
      rw [h2]
    · right
      obtain ⟨hb1, hbA⟩ :=
        satLoop_isSome_of_ne_nil (getRectangleAxes_getVertices_ne_nil T a) h1
      obtain ⟨hb2, hbB⟩ :=
        satLoop_isSome_of_ne_nil (getRectangleAxes_getVertices_ne_nil T b) h2
      constructor
      · unfold checkSATCollision
        dsimp only
        rw [h1]
        dsimp only
        rw [h2]
        rcases best2 with _ | ⟨m2, sep⟩
        · simp at hb2
        rcases bestA with _ | ⟨mA, axA, pA⟩
        · simp at hbA
        rcases bestB with _ | ⟨mB, axB, pB⟩
        · simp at hbB
        rfl
      · intro ax hax
        rcases List.mem_append.mp hax with hmem | hmem
        · by_contra hge
          exact absurd h1 (by
            rw [(satLoop_eq_none_iff _ _ _ _ _ _).mpr ⟨ax, hmem, lt_of_not_ge hge⟩]
            simp)
        · by_contra hge
          exact absurd h2 (by
            rw [(satLoop_eq_none_iff _ _ _ _ _ _).mpr ⟨ax, hmem, lt_of_not_ge hge⟩]
            simp)

end PhysicsEngine

namespace PhysicsEngine

theorem checkSATCollision_points_ne_nil (T : Trig) (a b : Rectangle) :
    ∀ (pts : List Vector2) (n : Vector2) (pen : List ℚ),
      checkSATCollision T a b = some (pts, n, pen) → pts ≠ [] := by
  intro pts n pen h
  unfold checkSATCollision at h
  dsimp only at h
  rcases h1 : satLoop (a.getVertices T) (b.getVertices T) true
      (getRectangleAxes T (a.getVertices T)) none none with _ | ⟨best1, bestA⟩
  · rw [h1] at h; cases h
  · rw [h1] at h
    dsimp only at h
    rcases h2 : satLoop (a.getVertices T) (b.getVertices T) false
        (getRectangleAxes T (b.getVertices T)) best1 none with _ | ⟨best2, bestB⟩
    · rw [h2] at h; cases h
    · rw [h2] at h
      dsimp only at h
      rcases best2 with _ | ⟨m2, sep⟩
      · cases h
      rcases bestA with _ | ⟨mA, axA, pA⟩
      · cases h
      rcases bestB with _ | ⟨mB, axB, pB⟩
      · cases h
      dsimp only at h
      by_cases hc : findContactPoints T (a.getVertices T) b ++ findContactPoints T (b.getVertices T) a = []
      · rw [if_pos hc] at h
        obtain ⟨rfl, -, -⟩ := Prod.mk.injEq .. ▸ (Option.some.injEq .. ▸ h)
        simp
      · rw [if_neg hc] at h
        have hpts : pts = findContactPoints T (a.getVertices T) b ++ findContactPoints T (b.getVertices T) a := by
          injection h with h'
          exact (congrArg Prod.fst h').symm
        rw [hpts]
        exact hc

end PhysicsEngine

namespace PhysicsEngine

/-- **C5** — For every pair of rectangles, the SAT test returns no
collision exactly when some tested axis (rectangle A's four outward
edge normals followed by rectangle B's, scanned in that order with an
early exit at the first negative) has projection overlap `< 0`, and
returns a populated contact (a nonempty contact-point list) exactly
when every tested axis from both rectangles has overlap `≥ 0`. -/
theorem checkSATCollision_sat_iff (T : Trig) (a b : Rectangle) :
    (checkSATCollision T a b = none ↔
      ∃ ax ∈ testedAxes T a b,
        overlapOn (a.getVertices T) (b.getVertices T) ax < 0) ∧
    ((checkSATCollision T a b).isSome ↔
      ∀ ax ∈ testedAxes T a b,
        0 ≤ overlapOn (a.getVertices T) (b.getVertices T) ax) ∧
    (∀ (pts : List Vector2) (n : Vector2) (pen : List ℚ),
      checkSATCollision T a b = some (pts, n, pen) → pts ≠ []) := by
  rcases checkSATCollision_dichotomy T a b with ⟨hnone, hex⟩ | ⟨hsome, hall⟩
  · refine ⟨⟨fun _ => hex, fun _ => hnone⟩, ⟨?_, ?_⟩, checkSATCollision_points_ne_nil T a b⟩
    · intro hs
      rw [hnone] at hs
      cases hs
    · intro hall
      obtain ⟨ax, hax, hlt⟩ := hex
      exact absurd (hall ax hax) (not_le.mpr hlt)
  · have hne : checkSATCollision T a b ≠ none := by
      intro h0
      rw [h0] at hsome
      cases hsome
    refine ⟨⟨fun h0 => absurd h0 hne, fun hex => ?_⟩, ⟨fun _ => hall, fun _ => hsome⟩,
      checkSATCollision_points_ne_nil T a b⟩
    obtain ⟨ax, hax, hlt⟩ := hex
    exact absurd (hall ax hax) (not_le.mpr hlt)

/-- Closed witness for C5: two concrete disjoint rectangles (2×2 boxes
at (0,0) and (10,10), angle 0, under the exact-square-root `trigSq`)
have a tested axis of negative overlap, so the SAT test reports no
collision. -/
theorem checkSATCollision_sat_iff_witness :
    checkSATCollision trigSq cexBodyA cexBodyFar = none :=
  (checkSATCollision_sat_iff trigSq cexBodyA cexBodyFar).1.mpr
    ⟨⟨0, 1⟩,
     by norm_num [testedAxes, getRectangleAxes, cyclicPairs, Rectangle.getVertices,
       cexBodyA, cexBodyFar, mkRectangle, trigSq, Vector2.normalize, Vector2.perpendicular,
       Vector2.subtract],
     by norm_num [overlapOn, projectVertices, Rectangle.getVertices, cexBodyA, cexBodyFar,
       mkRectangle, trigSq, Vector2.dot]⟩

end PhysicsEngine
namespace PhysicsEngine

/-! ### C8: pointer-down picking -/

theorem getBodyAtPointAux_eq_none_iff (T : Trig) (point : Vector2) :
    ∀ ps : List (ℕ × Rectangle),
      getBodyAtPointAux T point ps = none ↔
        ∀ p ∈ ps, isPointInRectangle point (p.2.getVertices T) = false := by
  intro ps
  induction ps with
  | nil => simp [getBodyAtPointAux]
  | cons p rest ih =>
    obtain ⟨i, body⟩ := p
    unfold getBodyAtPointAux
    by_cases hc : isPointInRectangle point (body.getVertices T) = true
    · simp [hc]
    · rw [Bool.not_eq_true] at hc
      simp only [hc, Bool.false_eq_true, if_false, ih]
      constructor
      · intro hall q hq
        rcases List.mem_cons.mp hq with rfl | hq'
        · exact hc
        · exact hall q hq'
      · intro hall q hq
        exact hall q (List.mem_cons_of_mem _ hq)

theorem getBodyAtPoint_eq_none_iff (T : Trig) (s : PhysicsEngine) (point : Vector2) :
    getBodyAtPoint T s point = none ↔
      ∀ (i : ℕ) (b : Rectangle), s.bodies[i]? = some b →
        isPointInRectangle point (b.getVertices T) = false := by
  unfold getBodyAtPoint
  rw [getBodyAtPointAux_eq_none_iff]
  constructor
  · intro hall i b hib
    exact hall (i, b) (by
      rw [List.mem_reverse]
      exact List.mk_mem_enum_iff_getElem?.mpr hib)
  · intro hall p hp
    exact hall p.1 p.2 (List.mk_mem_enum_iff_getElem?.mp (List.mem_reverse.mp hp))

/-- **C8 (counterexample)** — A state (`sPick`) whose body list is a
dynamic box below a static box, both containing the origin: the origin
lies in exactly one non-static body's polygon (the dynamic box, index
0), yet a pointer-down at the origin grabs nothing, because the
reverse-order scan hits the static box (index 1) first and
`handleMouseDown` only grabs the scan's hit.  This contradicts the
claim that such a pointer-down always grabs the non-static body. -/
theorem handleMouseDown_occluded_cex :
    isPointInRectangle ⟨0, 0⟩ ((mkRectangle 0 0 2 2 1 false 0).getVertices trig0) = true ∧
    (mkRectangle 0 0 2 2 1 false 0).isStatic = false ∧
    sPick.bodies = [mkRectangle 0 0 2 2 1 false 0, mkRectangle 0 0 2 2 1 true 1] ∧
    (mkRectangle 0 0 2 2 1 true 1).isStatic = true ∧
    (handleMouseDown trig0 0 0 sPick).grabbedBody = none := by
  refine ⟨?_, rfl, rfl, rfl, ?_⟩
  · norm_num [isPointInRectangle, cyclicPairs, Rectangle.getVertices, mkRectangle, trig0,
      Vector2.cross, Vector2.subtract]
  · norm_num [handleMouseDown, getBodyAtPoint, sPick, getBodyAtPointAux, isPointInRectangle,
      cyclicPairs, Rectangle.getVertices, mkRectangle, trig0, Vector2.cross, Vector2.subtract,
      List.enum]

/-- **C8 (amended)** — A pointer-down grabs the body found by the
reverse-insertion-order scan over *all* bodies (static included)
provided that body is non-static, recording the grab offset; when the
scan's first hit is a static body nothing is grabbed, even if a
non-static body also contains the coordinate; and a pointer-down at a
coordinate inside no body leaves the grab state unchanged. -/
theorem handleMouseDown_pick (T : Trig) (s : PhysicsEngine) (x y : ℚ) :
    ((∀ (i : ℕ) (b : Rectangle), s.bodies[i]? = some b →
        isPointInRectangle ⟨x, y⟩ (b.getVertices T) = false) →
      (handleMouseDown T x y s).grabbedBody = s.grabbedBody) ∧
    (∀ (i : ℕ) (body : Rectangle),
      getBodyAtPoint T s ⟨x, y⟩ = some i → s.bodies[i]? = some body →
      body.isStatic = false →
      (handleMouseDown T x y s).grabbedBody = some i ∧
      (handleMouseDown T x y s).grabOffset = Vector2.subtract ⟨x, y⟩ body.position) := by
  have hbodies : ∀ p : Vector2,
      getBodyAtPoint T { s with isMouseDown := true, mousePosition := ⟨x, y⟩ } p =
        getBodyAtPoint T s p := fun _ => rfl
  constructor
  · intro hnone
    unfold handleMouseDown
    dsimp only
    rw [hbodies, (getBodyAtPoint_eq_none_iff T s ⟨x, y⟩).mpr hnone]
  · intro i body hget hib hstat
    unfold handleMouseDown
    dsimp only
    rw [hbodies, hget]
    dsimp only
    rw [hib]
    dsimp only
    rw [hstat]
    exact ⟨rfl, rfl⟩

/-- Closed witness for the amended C8 theorem: with only the dynamic
box present, the pointer-down at the origin grabs it. -/
theorem handleMouseDown_pick_witness :
    (handleMouseDown trig0 0 0
        { sPick with bodies := [mkRectangle 0 0 2 2 1 false 0] }).grabbedBody = some 0 :=
  ((handleMouseDown_pick trig0 { sPick with bodies := [mkRectangle 0 0 2 2 1 false 0] } 0 0).2
    0 (mkRectangle 0 0 2 2 1 false 0)
    (by norm_num [getBodyAtPoint, getBodyAtPointAux, sPick, isPointInRectangle, cyclicPairs,
      Rectangle.getVertices, mkRectangle, trig0, Vector2.cross, Vector2.subtract, List.enum])
    rfl rfl).1

end PhysicsEngine
namespace PhysicsEngine

/-! ### Cache, id, and contact-reference preservation across phases -/

theorem foldl_invariant {α : Type} {P : PhysicsEngine → Prop} {f : PhysicsEngine → α → PhysicsEngine}
    (hf : ∀ st x, P st → P (f st x)) :
    ∀ (l : List α) (s : PhysicsEngine), P s → P (List.foldl f s l) := by
  intro l
  induction l with
  | nil => intro s h; exact h
  | cons x xs ih => intro s h; exact ih (f s x) (hf s x h)

theorem idsAt_getElem? {s s' : PhysicsEngine} (h : idsAt s' = idsAt s) (i : ℕ) :
    (s'.bodies[i]?).map Rectangle.id = (s.bodies[i]?).map Rectangle.id := by
  have h1 : (s'.bodies.map Rectangle.id)[i]? = (s.bodies.map Rectangle.id)[i]? := by
    rw [show s'.bodies.map Rectangle.id = idsAt s' from rfl,
        show s.bodies.map Rectangle.id = idsAt s from rfl, h]
  rwa [List.getElem?_map, List.getElem?_map] at h1

theorem idsAt_set {s : PhysicsEngine} {j : ℕ} {bj b' : Rectangle}
    (hj : s.bodies[j]? = some bj) (hid : b'.id = bj.id) :
    idsAt { s with bodies := s.bodies.set j b' } = idsAt s := by
  show (s.bodies.set j b').map Rectangle.id = s.bodies.map Rectangle.id
  rw [List.map_set, hid]
  exact set_getElem?_self (by rw [List.getElem?_map, hj]; rfl)

theorem contactRefs_set {s : PhysicsEngine} {ci : ℕ} {c c' : Contact}
    (hc : s.contacts[ci]? = some c) (ha : c'.a = c.a) (hb : c'.b = c.b) :
    contactRefs { s with contacts := s.contacts.set ci c' } = contactRefs s := by
  show (s.contacts.set ci c').map (fun c => (c.a, c.b)) = s.contacts.map (fun c => (c.a, c.b))
  rw [List.map_set, ha, hb]
  exact set_getElem?_self (by rw [List.getElem?_map, hc]; rfl)

theorem cacheKeepsKeys_refl (c : CacheStore) : cacheKeepsKeys c c := fun _ h => h

theorem cacheKeepsKeys_trans {c1 c2 c3 : CacheStore}
    (h1 : cacheKeepsKeys c1 c2) (h2 : cacheKeepsKeys c2 c3) : cacheKeepsKeys c1 c3 :=
  fun k h => h2 k (h1 k h)

/-- Transfer of `allContactsCached` along id-, contact-ref- and
key-preservation. -/
theorem allContactsCached_transfer {s s' : PhysicsEngine}
    (hids : idsAt s' = idsAt s) (hrefs : contactRefs s' = contactRefs s)
    (hkeys : cacheKeepsKeys s.contactCache s'.contactCache)
    (h : allContactsCached s) : allContactsCached s' := by
  intro c' hc'
  have hmem : (c'.a, c'.b) ∈ contactRefs s :=
    hrefs ▸ List.mem_map_of_mem _ hc'
  obtain ⟨c, hc, hcc⟩ := List.mem_map.mp hmem
  have hca : c.a = c'.a := congrArg Prod.fst hcc
  have hcb : c.b = c'.b := congrArg Prod.snd hcc
  have hcache := h c hc
  unfold getContactCacheOf contactKeyOf at hcache ⊢
  rcases ha : s.bodies[c.a]? with _ | bodyA <;> rw [ha] at hcache
  · simp at hcache
  rcases hb : s.bodies[c.b]? with _ | bodyB <;> rw [hb] at hcache
  · simp at hcache
  have ha' : (s'.bodies[c'.a]?).map Rectangle.id = some bodyA.id := by
    rw [idsAt_getElem? hids, ← hca, ha]; rfl
  have hb' : (s'.bodies[c'.b]?).map Rectangle.id = some bodyB.id := by
    rw [idsAt_getElem? hids, ← hcb, hb]; rfl
  rcases ha2 : s'.bodies[c'.a]? with _ | bodyA' <;> rw [ha2] at ha'
  · simp at ha'
  rcases hb2 : s'.bodies[c'.b]? with _ | bodyB' <;> rw [hb2] at hb'
  · simp at hb'
  rw [Option.map_some', Option.some.injEq] at ha' hb'
  rw [Option.some_bind] at hcache ⊢
  rw [ha', hb']
  exact hkeys _ hcache

end PhysicsEngine
namespace PhysicsEngine

/-! #### Cache-store equality for the phases that never write the cache -/

theorem resetDeltaVelocities_cache (s : PhysicsEngine) :
    (resetDeltaVelocities s).contactCache = s.contactCache := rfl

theorem applyForces_cache (s : PhysicsEngine) :
    (applyForces s).contactCache = s.contactCache := rfl

theorem integrateMotion_cache (s : PhysicsEngine) :
    (integrateMotion s).contactCache = s.contactCache := rfl

theorem calculateCollisionMass_cache (s : PhysicsEngine) (ci i : ℕ) :
    (calculateCollisionMass s ci i).contactCache = s.contactCache := by
  unfold calculateCollisionMass
  split
  · rfl
  · split
    · rfl
    · split <;> rfl

theorem precomputeCollisionMasses_cache (s : PhysicsEngine) :
    (precomputeCollisionMasses s).contactCache = s.contactCache := by
  unfold precomputeCollisionMasses
  refine foldl_proj_eq ?_ _ s
  intro st ci
  split
  · rfl
  · exact foldl_proj_eq (fun st2 i => calculateCollisionMass_cache st2 ci i) _ st

theorem separatePointA_cache (st : PhysicsEngine) (idx : ℕ) (p d : Vector2) :
    (separatePointA st idx p d).contactCache = st.contactCache := by
  unfold separatePointA
  split
  · split <;> rfl
  · rfl

theorem separatePointB_cache (st : PhysicsEngine) (idx : ℕ) (p d : Vector2) :
    (separatePointB st idx p d).contactCache = st.contactCache := by
  unfold separatePointB
  split
  · split <;> rfl
  · rfl

theorem separateStep_cache (st : PhysicsEngine) (ci i : ℕ) :
    (separateStep st ci i).contactCache = st.contactCache := by
  unfold separateStep
  split
  · rfl
  · rw [separatePointB_cache, separatePointA_cache]

theorem separateObjects_cache (s : PhysicsEngine) :
    (separateObjects s).contactCache = s.contactCache := by
  unfold separateObjects
  refine foldl_proj_eq ?_ _ s
  intro st ci
  split
  · rfl
  · exact foldl_proj_eq (fun st2 i => separateStep_cache st2 ci i) _ st

theorem applyImpulseRealA_cache (s : PhysicsEngine) (idx : ℕ) (p imp : Vector2) :
    (applyImpulseRealA s idx p imp).contactCache = s.contactCache := by
  unfold applyImpulseRealA
  split
  · split <;> rfl
  · rfl

theorem applyImpulseRealB_cache (s : PhysicsEngine) (idx : ℕ) (p imp : Vector2) :
    (applyImpulseRealB s idx p imp).contactCache = s.contactCache := by
  unfold applyImpulseRealB
  split
  · split <;> rfl
  · rfl

theorem applyImpulseDeltaA_cache (s : PhysicsEngine) (idx : ℕ) (p imp : Vector2) :
    (applyImpulseDeltaA s idx p imp).contactCache = s.contactCache := by
  unfold applyImpulseDeltaA
  split
  · split <;> rfl
  · rfl

theorem applyImpulseDeltaB_cache (s : PhysicsEngine) (idx : ℕ) (p imp : Vector2) :
    (applyImpulseDeltaB s idx p imp).contactCache = s.contactCache := by
  unfold applyImpulseDeltaB
  split
  · split <;> rfl
  · rfl

theorem applyImpulse_noResting_cache (s : PhysicsEngine) (contact : Contact) (i : ℕ)
    (impulse : Vector2) (r d : Bool) :
    (applyImpulseToVelocities s contact i impulse r d false).contactCache = s.contactCache := by
  unfold applyImpulseToVelocities
  cases r <;> cases d <;>
    simp only [Bool.false_eq_true, if_false, if_true,
      applyImpulseDeltaB_cache, applyImpulseDeltaA_cache,
      applyImpulseRealB_cache, applyImpulseRealA_cache]

theorem restingForcesPoint_cache (T : Trig) (ci : ℕ) (cache : ContactCache)
    (st2 : PhysicsEngine) (i : ℕ) :
    (restingForcesPoint T ci cache st2 i).contactCache = st2.contactCache := by
  unfold restingForcesPoint
  split
  · rfl
  · split
    all_goals
      first
        | rw [applyImpulse_noResting_cache]
        | rfl

theorem applyRestingForces_cache (T : Trig) (s : PhysicsEngine) :
    (applyRestingForces T s).contactCache = s.contactCache := by
  unfold applyRestingForces
  refine foldl_proj_eq ?_ _ s
  intro st ci
  split
  · rfl
  · split
    all_goals
      first
        | split
          all_goals
            first
              | exact foldl_proj_eq (fun st2 i => restingForcesPoint_cache T ci _ st2 i) _ st
              | rfl
        | rfl

theorem normalCollisionPoint_cache (T : Trig) (ci : ℕ) (st2 : PhysicsEngine) (i : ℕ) :
    (normalCollisionPoint T ci st2 i).contactCache = st2.contactCache := by
  unfold normalCollisionPoint
  split
  · rfl
  · split
    all_goals
      first
        | rw [applyImpulse_noResting_cache]
        | rfl

theorem applyNormalCollision_cache (T : Trig) (s : PhysicsEngine) :
    (applyNormalCollision T s).contactCache = s.contactCache := by
  unfold applyNormalCollision
  refine foldl_proj_eq ?_ _ s
  intro st ci
  split
  · rfl
  · exact foldl_proj_eq (fun st2 i => normalCollisionPoint_cache T ci st2 i) _ st

theorem updateMouseInteraction_cache (s : PhysicsEngine) :
    (updateMouseInteraction s).contactCache = s.contactCache := by
  unfold updateMouseInteraction
  split
  · split
    · split <;> rfl
    · rfl
  · rfl

end PhysicsEngine
namespace PhysicsEngine

/-! #### Contact-list and body-list equalities per phase -/

theorem separatePointA_contacts (st : PhysicsEngine) (idx : ℕ) (p d : Vector2) :
    (separatePointA st idx p d).contacts = st.contacts := by
  unfold separatePointA
  split
  · split <;> rfl
  · rfl

theorem separatePointB_contacts (st : PhysicsEngine) (idx : ℕ) (p d : Vector2) :
    (separatePointB st idx p d).contacts = st.contacts := by
  unfold separatePointB
  split
  · split <;> rfl
  · rfl

theorem separateStep_contacts (st : PhysicsEngine) (ci i : ℕ) :
    (separateStep st ci i).contacts = st.contacts := by
  unfold separateStep
  split
  · rfl
  · rw [separatePointB_contacts, separatePointA_contacts]

theorem separateObjects_contacts (s : PhysicsEngine) :
    (separateObjects s).contacts = s.contacts := by
  unfold separateObjects
  refine foldl_proj_eq ?_ _ s
  intro st ci
  split
  · rfl
  · exact foldl_proj_eq (fun st2 i => separateStep_contacts st2 ci i) _ st

theorem applyImpulseRealA_contacts (s : PhysicsEngine) (idx : ℕ) (p imp : Vector2) :
    (applyImpulseRealA s idx p imp).contacts = s.contacts := by
  unfold applyImpulseRealA
  split
  · split <;> rfl
  · rfl

theorem applyImpulseRealB_contacts (s : PhysicsEngine) (idx : ℕ) (p imp : Vector2) :
    (applyImpulseRealB s idx p imp).contacts = s.contacts := by
  unfold applyImpulseRealB
  split
  · split <;> rfl
  · rfl

theorem applyImpulseDeltaA_contacts (s : PhysicsEngine) (idx : ℕ) (p imp : Vector2) :
    (applyImpulseDeltaA s idx p imp).contacts = s.contacts := by
  unfold applyImpulseDeltaA
  split
  · split <;> rfl
  · rfl

theorem applyImpulseDeltaB_contacts (s : PhysicsEngine) (idx : ℕ) (p imp : Vector2) :
    (applyImpulseDeltaB s idx p imp).contacts = s.contacts := by
  unfold applyImpulseDeltaB
  split
  · split <;> rfl
  · rfl

theorem applyImpulse_contacts (s : PhysicsEngine) (contact : Contact) (i : ℕ)
    (impulse : Vector2) (r d rr : Bool) :
    (applyImpulseToVelocities s contact i impulse r d rr).contacts = s.contacts := by
  unfold applyImpulseToVelocities
  cases r <;> cases d <;> cases rr <;>
    simp only [Bool.false_eq_true, if_false, if_true, applyImpulseResting_contacts,
      applyImpulseDeltaB_contacts, applyImpulseDeltaA_contacts,
      applyImpulseRealB_contacts, applyImpulseRealA_contacts]

theorem normalCollisionPoint_contacts (T : Trig) (ci : ℕ) (st2 : PhysicsEngine) (i : ℕ) :
    (normalCollisionPoint T ci st2 i).contacts = st2.contacts := by
  unfold normalCollisionPoint
  split
  · rfl
  · split
    all_goals
      first
        | rw [applyImpulse_contacts]
        | rfl

theorem applyNormalCollision_contacts (T : Trig) (s : PhysicsEngine) :
    (applyNormalCollision T s).contacts = s.contacts := by
  unfold applyNormalCollision
  refine foldl_proj_eq ?_ _ s
  intro st ci
  split
  · rfl
  · exact foldl_proj_eq (fun st2 i => normalCollisionPoint_contacts T ci st2 i) _ st

theorem updateMouseInteraction_contacts (s : PhysicsEngine) :
    (updateMouseInteraction s).contacts = s.contacts := by
  unfold updateMouseInteraction
  split
  · split
    · split <;> rfl
    · rfl
  · rfl

theorem calculateCollisionMass_bodies (s : PhysicsEngine) (ci i : ℕ) :
    (calculateCollisionMass s ci i).bodies = s.bodies := by
  unfold calculateCollisionMass
  split
  · rfl
  · split
    · rfl
    · split <;> rfl

theorem precomputeCollisionMasses_bodies (s : PhysicsEngine) :
    (precomputeCollisionMasses s).bodies = s.bodies := by
  unfold precomputeCollisionMasses
  refine foldl_proj_eq ?_ _ s
  intro st ci
  split
  · rfl
  · exact foldl_proj_eq (fun st2 i => calculateCollisionMass_bodies st2 ci i) _ st

theorem detectStep_bodies (T : Trig) (st : PhysicsEngine) (ij : ℕ × ℕ) :
    (detectStep T st ij).bodies = st.bodies := by
  unfold detectStep
  split
  · split <;> rfl
  · rfl

theorem detectCollisions_bodies (T : Trig) (s : PhysicsEngine) :
    (detectCollisions T s).bodies = s.bodies := by
  unfold detectCollisions
  exact foldl_proj_eq (detectStep_bodies T) _ _

end PhysicsEngine
namespace PhysicsEngine

/-! #### `keepsShape` for every phase between detection and eviction -/

theorem keepsShape_refl (s : PhysicsEngine) : keepsShape s s :=
  ⟨rfl, rfl, cacheKeepsKeys_refl _⟩

theorem keepsShape_trans {s t u : PhysicsEngine}
    (h1 : keepsShape s t) (h2 : keepsShape t u) : keepsShape s u :=
  ⟨h2.1.trans h1.1, h2.2.1.trans h1.2.1, cacheKeepsKeys_trans h1.2.2 h2.2.2⟩

theorem keepsShape_foldl {α : Type} {f : PhysicsEngine → α → PhysicsEngine}
    (hf : ∀ st x, keepsShape st (f st x)) :
    ∀ (l : List α) (s : PhysicsEngine), keepsShape s (List.foldl f s l) := by
  intro l
  induction l with
  | nil => intro s; exact keepsShape_refl s
  | cons x xs ih =>
    intro s
    rw [List.foldl_cons]
    exact keepsShape_trans (hf s x) (ih (f s x))

theorem keepsShape_of_parts {s s' : PhysicsEngine}
    (hids : idsAt s' = idsAt s) (hrefs : contactRefs s' = contactRefs s)
    (hcache : s'.contactCache = s.contactCache) : keepsShape s s' :=
  ⟨hids, hrefs, fun k h => hcache ▸ h⟩

theorem idsAt_map_preserving (f : Rectangle → Rectangle) (hf : ∀ b, (f b).id = b.id)
    (s : PhysicsEngine) :
    idsAt { s with bodies := s.bodies.map f } = idsAt s := by
  show (s.bodies.map f).map Rectangle.id = s.bodies.map Rectangle.id
  rw [List.map_map]
  exact List.map_eq_map_iff.mpr fun b _ => hf b

theorem keepsShape_resetDeltaVelocities (s : PhysicsEngine) :
    keepsShape s (resetDeltaVelocities s) := by
  unfold resetDeltaVelocities
  refine keepsShape_of_parts (idsAt_map_preserving _ ?_ s) rfl rfl
  intro b
  rfl

theorem keepsShape_applyForces (s : PhysicsEngine) :
    keepsShape s (applyForces s) := by
  unfold applyForces
  refine keepsShape_of_parts (idsAt_map_preserving _ ?_ s) rfl rfl
  intro b
  by_cases h : b.isStatic = true <;> simp [h]

theorem keepsShape_integrateMotion (s : PhysicsEngine) :
    keepsShape s (integrateMotion s) := by
  unfold integrateMotion
  refine keepsShape_of_parts (idsAt_map_preserving _ ?_ s) rfl rfl
  intro b
  by_cases h : b.isStatic = true <;> simp [h]

theorem keepsShape_calculateCollisionMass (s : PhysicsEngine) (ci i : ℕ) :
    keepsShape s (calculateCollisionMass s ci i) := by
  unfold calculateCollisionMass
  split
  · exact keepsShape_refl s
  · split
    · exact keepsShape_refl s
    · rename_i contact hc hflag
      split
      · rename_i bodyA bodyB ha hb
        exact keepsShape_of_parts rfl (contactRefs_set hc rfl rfl) rfl
      · exact keepsShape_refl s

theorem keepsShape_precomputeCollisionMasses (s : PhysicsEngine) :
    keepsShape s (precomputeCollisionMasses s) := by
  unfold precomputeCollisionMasses
  refine keepsShape_foldl ?_ _ s
  intro st ci
  split
  · exact keepsShape_refl st
  · exact keepsShape_foldl (fun st2 i => keepsShape_calculateCollisionMass st2 ci i) _ st

theorem keepsShape_separatePointA (st : PhysicsEngine) (idx : ℕ) (p d : Vector2) :
    keepsShape st (separatePointA st idx p d) := by
  unfold separatePointA
  split
  · rename_i bodyA hj
    split
    · exact keepsShape_refl st
    · exact keepsShape_of_parts (idsAt_set hj rfl) rfl rfl
  · exact keepsShape_refl st

theorem keepsShape_separatePointB (st : PhysicsEngine) (idx : ℕ) (p d : Vector2) :
    keepsShape st (separatePointB st idx p d) := by
  unfold separatePointB
  split
  · rename_i bodyB hj
    split
    · exact keepsShape_refl st
    · exact keepsShape_of_parts (idsAt_set hj rfl) rfl rfl
  · exact keepsShape_refl st

theorem keepsShape_separateStep (st : PhysicsEngine) (ci i : ℕ) :
    keepsShape st (separateStep st ci i) := by
  unfold separateStep
  split
  · exact keepsShape_refl st
  · exact keepsShape_trans (keepsShape_separatePointA st _ _ _)
      (keepsShape_separatePointB _ _ _ _)

theorem keepsShape_separateObjects (s : PhysicsEngine) :
    keepsShape s (separateObjects s) := by
  unfold separateObjects
  refine keepsShape_foldl ?_ _ s
  intro st ci
  split
  · exact keepsShape_refl st
  · exact keepsShape_foldl (fun st2 i => keepsShape_separateStep st2 ci i) _ st

theorem keepsShape_applyImpulseRealA (s : PhysicsEngine) (idx : ℕ) (p imp : Vector2) :
    keepsShape s (applyImpulseRealA s idx p imp) := by
  unfold applyImpulseRealA
  split
  · rename_i bodyA hj
    split
    · exact keepsShape_refl s
    · exact keepsShape_of_parts (idsAt_set hj rfl) rfl rfl
  · exact keepsShape_refl s

theorem keepsShape_applyImpulseRealB (s : PhysicsEngine) (idx : ℕ) (p imp : Vector2) :
    keepsShape s (applyImpulseRealB s idx p imp) := by
  unfold applyImpulseRealB
  split
  · rename_i bodyB hj
    split
    · exact keepsShape_refl s
    · exact keepsShape_of_parts (idsAt_set hj rfl) rfl rfl
  · exact keepsShape_refl s

theorem keepsShape_applyImpulseDeltaA (s : PhysicsEngine) (idx : ℕ) (p imp : Vector2) :
    keepsShape s (applyImpulseDeltaA s idx p imp) := by
  unfold applyImpulseDeltaA
  split
  · rename_i bodyA hj
    split
    · exact keepsShape_refl s
    · exact keepsShape_of_parts (idsAt_set hj rfl) rfl rfl
  · exact keepsShape_refl s

theorem keepsShape_applyImpulseDeltaB (s : PhysicsEngine) (idx : ℕ) (p imp : Vector2) :
    keepsShape s (applyImpulseDeltaB s idx p imp) := by
  unfold applyImpulseDeltaB
  split
  · rename_i bodyB hj
    split
    · exact keepsShape_refl s
    · exact keepsShape_of_parts (idsAt_set hj rfl) rfl rfl
  · exact keepsShape_refl s

theorem keepsShape_applyImpulseResting (s : PhysicsEngine) (contact : Contact)
    (p imp : Vector2) :
    keepsShape s (applyImpulseResting s contact p imp) := by
  refine ⟨?_, ?_, ?_⟩
  · show idsAt _ = idsAt s
    unfold idsAt
    rw [applyImpulseResting_bodies]
  · show contactRefs _ = contactRefs s
    unfold contactRefs
    rw [applyImpulseResting_contacts]
  · unfold applyImpulseResting
    split
    · dsimp only
      split
      · intro k h
        exact findEntry_setEntry_isSome h
      · exact cacheKeepsKeys_refl _
    · exact cacheKeepsKeys_refl _

theorem keepsShape_applyImpulse (s : PhysicsEngine) (contact : Contact) (i : ℕ)
    (impulse : Vector2) (r d rr : Bool) :
    keepsShape s (applyImpulseToVelocities s contact i impulse r d rr) := by
  unfold applyImpulseToVelocities
  have hReal : ∀ s0 : PhysicsEngine,
      keepsShape s0
        (if r then applyImpulseRealB (applyImpulseRealA s0 contact.a
            (contact.contactPoints.getD i ⟨0, 0⟩) impulse)
          contact.b (contact.contactPoints.getD i ⟨0, 0⟩) impulse else s0) := by
    intro s0
    cases r
    · exact keepsShape_refl s0
    · exact keepsShape_trans (keepsShape_applyImpulseRealA s0 _ _ _)
        (keepsShape_applyImpulseRealB _ _ _ _)
  have hDelta : ∀ s0 : PhysicsEngine,
      keepsShape s0
        (if d then applyImpulseDeltaB (applyImpulseDeltaA s0 contact.a
            (contact.contactPoints.getD i ⟨0, 0⟩) impulse)
          contact.b (contact.contactPoints.getD i ⟨0, 0⟩) impulse else s0) := by
    intro s0
    cases d
    · exact keepsShape_refl s0
    · exact keepsShape_trans (keepsShape_applyImpulseDeltaA s0 _ _ _)
        (keepsShape_applyImpulseDeltaB _ _ _ _)
  have hResting : ∀ s0 : PhysicsEngine,
      keepsShape s0
        (if rr then applyImpulseResting s0 contact
          (contact.contactPoints.getD i ⟨0, 0⟩) impulse else s0) := by
    intro s0
    cases rr
    · exact keepsShape_refl s0
    · exact keepsShape_applyImpulseResting s0 contact _ impulse
  exact keepsShape_trans (hReal s) (keepsShape_trans (hDelta _) (hResting _))

end PhysicsEngine
namespace PhysicsEngine

theorem keepsShape_restingForcesPoint (T : Trig) (ci : ℕ) (cache : ContactCache)
    (st2 : PhysicsEngine) (i : ℕ) :
    keepsShape st2 (restingForcesPoint T ci cache st2 i) := by
  unfold restingForcesPoint
  split
  · exact keepsShape_refl st2
  · rename_i contact hc
    split
    · rename_i bodyA bodyB ha hb
      refine keepsShape_trans ?_ (keepsShape_applyImpulse _ _ i _ true false false)
      exact keepsShape_of_parts rfl (contactRefs_set hc rfl rfl) rfl
    · exact keepsShape_refl st2

theorem keepsShape_applyRestingForces (T : Trig) (s : PhysicsEngine) :
    keepsShape s (applyRestingForces T s) := by
  unfold applyRestingForces
  refine keepsShape_foldl ?_ _ s
  intro st ci
  split
  · exact keepsShape_refl st
  · split
    all_goals
      first
        | split
          all_goals
            first
              | exact keepsShape_foldl (fun st2 i => keepsShape_restingForcesPoint T ci _ st2 i) _ st
              | exact keepsShape_refl st
        | exact keepsShape_refl st

theorem keepsShape_errorCorrectionPoint (T : Trig) (ci : ℕ) (st2 : PhysicsEngine) (i : ℕ) :
    keepsShape st2 (errorCorrectionPoint T ci st2 i) := by
  unfold errorCorrectionPoint
  split
  · exact keepsShape_refl st2
  · split
    all_goals
      first
        | exact keepsShape_applyImpulse _ _ i _ false false true
        | exact keepsShape_refl st2

theorem keepsShape_measureAndCorrectError (T : Trig) (s : PhysicsEngine) :
    keepsShape s (measureAndCorrectError T s) := by
  unfold measureAndCorrectError
  refine keepsShape_foldl ?_ _ s
  intro st ci
  split
  · exact keepsShape_refl st
  · split
    all_goals
      first
        | split
          all_goals
            first
              | exact keepsShape_foldl (fun st2 i => keepsShape_errorCorrectionPoint T ci st2 i) _ st
              | exact keepsShape_refl st
        | exact keepsShape_refl st

theorem keepsShape_normalCollisionPoint (T : Trig) (ci : ℕ) (st2 : PhysicsEngine) (i : ℕ) :
    keepsShape st2 (normalCollisionPoint T ci st2 i) := by
  unfold normalCollisionPoint
  split
  · exact keepsShape_refl st2
  · split
    all_goals
      first
        | exact keepsShape_applyImpulse _ _ i _ true false false
        | exact keepsShape_refl st2

theorem keepsShape_applyNormalCollision (T : Trig) (s : PhysicsEngine) :
    keepsShape s (applyNormalCollision T s) := by
  unfold applyNormalCollision
  refine keepsShape_foldl ?_ _ s
  intro st ci
  split
  · exact keepsShape_refl st
  · exact keepsShape_foldl (fun st2 i => keepsShape_normalCollisionPoint T ci st2 i) _ st

theorem keepsShape_updateMouseInteraction (s : PhysicsEngine) :
    keepsShape s (updateMouseInteraction s) := by
  unfold updateMouseInteraction
  split
  · split
    · split
      · rename_i gi hmouse body hj
        exact keepsShape_of_parts (idsAt_set hj rfl) rfl rfl
      · exact keepsShape_refl s
    · exact keepsShape_refl s
  · exact keepsShape_refl s

end PhysicsEngine
namespace PhysicsEngine

/-! ### C9: detection caches every contact pair before the solver runs -/

theorem findEntry_append_self_isSome (k : ℕ × ℕ) (e : ContactCache) :
    ∀ c : CacheStore, (findEntry k (c ++ [(k, e)])).isSome := by
  intro c
  induction c with
  | nil => simp [findEntry]
  | cons ke rest ih =>
    by_cases hk : ke.1 = k
    · simp [findEntry, hk]
    · simpa [findEntry, hk] using ih

theorem detectStep_cached (T : Trig) (st : PhysicsEngine) (ij : ℕ × ℕ)
    (h : allContactsCached st) : allContactsCached (detectStep T st ij) := by
  unfold detectStep
  split
  · rename_i bodyA bodyB ha hb
    split
    · exact h
    · rename_i geom contactPoints normal penetrations hsat
      dsimp only
      have hkeep : cacheKeepsKeys st.contactCache
          (match findEntry (generateKey bodyA.id bodyB.id)
              (if (findEntry (generateKey bodyA.id bodyB.id) st.contactCache).isSome then
                st.contactCache
              else st.contactCache ++ [(generateKey bodyA.id bodyB.id, ContactCache.fresh)]) with
            | some e => setEntry (generateKey bodyA.id bodyB.id)
                { e with lastUpdateTime := st.currentTime }
                (if (findEntry (generateKey bodyA.id bodyB.id) st.contactCache).isSome then
                  st.contactCache
                else st.contactCache ++ [(generateKey bodyA.id bodyB.id, ContactCache.fresh)])
            | none =>
                (if (findEntry (generateKey bodyA.id bodyB.id) st.contactCache).isSome then
                  st.contactCache
                else st.contactCache ++ [(generateKey bodyA.id bodyB.id, ContactCache.fresh)])) := by
        have hkeep1 : cacheKeepsKeys st.contactCache
            (if (findEntry (generateKey bodyA.id bodyB.id) st.contactCache).isSome then
              st.contactCache
            else st.contactCache ++ [(generateKey bodyA.id bodyB.id, ContactCache.fresh)]) := by
          split
          · exact cacheKeepsKeys_refl _
          · intro k hk
            exact findEntry_append_isSome _ hk
        split
        · intro k hk
          exact findEntry_setEntry_isSome (hkeep1 k hk)
        · exact hkeep1
      have hpresent : (findEntry (generateKey bodyA.id bodyB.id)
          (match findEntry (generateKey bodyA.id bodyB.id)
              (if (findEntry (generateKey bodyA.id bodyB.id) st.contactCache).isSome then
                st.contactCache
              else st.contactCache ++ [(generateKey bodyA.id bodyB.id, ContactCache.fresh)]) with
            | some e => setEntry (generateKey bodyA.id bodyB.id)
                { e with lastUpdateTime := st.currentTime }
                (if (findEntry (generateKey bodyA.id bodyB.id) st.contactCache).isSome then
                  st.contactCache
                else st.contactCache ++ [(generateKey bodyA.id bodyB.id, ContactCache.fresh)])
            | none =>
                (if (findEntry (generateKey bodyA.id bodyB.id) st.contactCache).isSome then
                  st.contactCache
                else st.contactCache ++ [(generateKey bodyA.id bodyB.id, ContactCache.fresh)]))).isSome := by
        have hc1 : (findEntry (generateKey bodyA.id bodyB.id)
            (if (findEntry (generateKey bodyA.id bodyB.id) st.contactCache).isSome then
              st.contactCache
            else st.contactCache ++ [(generateKey bodyA.id bodyB.id, ContactCache.fresh)])).isSome := by
          split
          · rename_i hs
            exact hs
          · exact findEntry_append_self_isSome _ _ _
        split
        · rename_i e he
          rw [findEntry_setEntry_self he]
          rfl
        · exact hc1
      intro c hc
      rcases List.mem_append.mp hc with hold | hnew
      · have := h c hold
        unfold getContactCacheOf contactKeyOf at this ⊢
        rcases hca : st.bodies[c.a]? with _ | cA <;> rw [hca] at this
        · simp at this
        rcases hcb : st.bodies[c.b]? with _ | cB <;> rw [hcb] at this
        · simp at this
        rw [Option.some_bind] at this ⊢
        exact hkeep _ this
      · rw [List.mem_singleton.mp hnew]
        unfold getContactCacheOf contactKeyOf
        dsimp only [mkContact]
        rw [ha, hb, Option.some_bind]
        exact hpresent
  · exact h

theorem detectCollisions_cached (T : Trig) (s : PhysicsEngine) :
    allContactsCached (detectCollisions T s) := by
  unfold detectCollisions
  refine foldl_invariant (fun st ij h => detectStep_cached T st ij h) _ _ ?_
  intro c hc
  simp at hc

end PhysicsEngine
namespace PhysicsEngine

theorem keepsShape_detect_to_preResting (T : Trig) (s : PhysicsEngine) :
    keepsShape (detectCollisions T (incTime s)) (preRestingState T s) := by
  unfold preRestingState
  exact keepsShape_trans (keepsShape_resetDeltaVelocities _)
    (keepsShape_trans (keepsShape_applyForces _)
      (keepsShape_trans (keepsShape_integrateMotion _)
        (keepsShape_trans (keepsShape_precomputeCollisionMasses _)
          (keepsShape_separateObjects _))))

/-- **C9** — During every tick, every contact of the current contact
list has a contact-cache entry under the pair's canonical key by the
time each cache-reading solver phase runs: collision detection creates
(or refreshes) the entry before any pass reads it, and no later phase
removes entries before eviction, so every `getContactCache` lookup
performed by the resting-force, error-correction, and resting-decay
phases finds an entry.  The final conjunct checks the three
intermediate states really are the tick's internal states. -/
theorem solver_cache_lookups_succeed (T : Trig) (s : PhysicsEngine) :
    allContactsCached (preRestingState T s) ∧
    allContactsCached (preErrorState T s) ∧
    allContactsCached (preDecayState T s) ∧
    (s.isPaused = false →
      update T s = cleanupContactCache (applyRestingDecay (preDecayState T s))) := by
  have h0 : allContactsCached (detectCollisions T (incTime s)) :=
    detectCollisions_cached T (incTime s)
  have k1 := keepsShape_detect_to_preResting T s
  have h1 : allContactsCached (preRestingState T s) :=
    allContactsCached_transfer k1.1 k1.2.1 k1.2.2 h0
  have k2 : keepsShape (preRestingState T s) (preErrorState T s) :=
    keepsShape_applyRestingForces T _
  have h2 : allContactsCached (preErrorState T s) :=
    allContactsCached_transfer k2.1 k2.2.1 k2.2.2 h1
  have k3 : keepsShape (preErrorState T s) (preDecayState T s) := by
    unfold preDecayState
    exact keepsShape_trans (keepsShape_measureAndCorrectError T _)
      (keepsShape_trans (keepsShape_applyNormalCollision T _)
        (keepsShape_updateMouseInteraction _))
  have h3 : allContactsCached (preDecayState T s) :=
    allContactsCached_transfer k3.1 k3.2.1 k3.2.2 h2
  refine ⟨h1, h2, h3, ?_⟩
  intro hpause
  unfold update preDecayState preErrorState preRestingState
  rw [if_neg (by rw [hpause]; exact Bool.false_ne_true)]

/-- Closed witness for C9 at a concrete non-paused state. -/
theorem solver_cache_lookups_succeed_witness :
    allContactsCached (preRestingState trig0 sPick) ∧
    update trig0 sPick =
      cleanupContactCache (applyRestingDecay (preDecayState trig0 sPick)) :=
  ⟨(solver_cache_lookups_succeed trig0 sPick).1,
   (solver_cache_lookups_succeed trig0 sPick).2.2.2 rfl⟩

end PhysicsEngine
namespace PhysicsEngine

/-! ### C7: frame facts (pause flag, tick counter) for every phase -/

theorem detectStep_frame (T : Trig) (st : PhysicsEngine) (ij : ℕ × ℕ) :
    frameOf (detectStep T st ij) = frameOf st := by
  unfold detectStep
  split
  · split <;> rfl
  · rfl

theorem detectCollisions_frame (T : Trig) (s : PhysicsEngine) :
    frameOf (detectCollisions T s) = frameOf s := by
  unfold detectCollisions
  exact foldl_proj_eq (detectStep_frame T) _ _

theorem calculateCollisionMass_frame (s : PhysicsEngine) (ci i : ℕ) :
    frameOf (calculateCollisionMass s ci i) = frameOf s := by
  unfold calculateCollisionMass
  split
  · rfl
  · split
    · rfl
    · split <;> rfl

theorem precomputeCollisionMasses_frame (s : PhysicsEngine) :
    frameOf (precomputeCollisionMasses s) = frameOf s := by
  unfold precomputeCollisionMasses
  refine foldl_proj_eq ?_ _ s
  intro st ci
  split
  · rfl
  · exact foldl_proj_eq (fun st2 i => calculateCollisionMass_frame st2 ci i) _ st

theorem separatePointA_frame (st : PhysicsEngine) (idx : ℕ) (p d : Vector2) :
    frameOf (separatePointA st idx p d) = frameOf st := by
  unfold separatePointA
  split
  · split <;> rfl
  · rfl

theorem separatePointB_frame (st : PhysicsEngine) (idx : ℕ) (p d : Vector2) :
    frameOf (separatePointB st idx p d) = frameOf st := by
  unfold separatePointB
  split
  · split <;> rfl
  · rfl

theorem separateStep_frame (st : PhysicsEngine) (ci i : ℕ) :
    frameOf (separateStep st ci i) = frameOf st := by
  unfold separateStep
  split
  · rfl
  · rw [separatePointB_frame, separatePointA_frame]

theorem separateObjects_frame (s : PhysicsEngine) :
    frameOf (separateObjects s) = frameOf s := by
  unfold separateObjects
  refine foldl_proj_eq ?_ _ s
  intro st ci
  split
  · rfl
  · exact foldl_proj_eq (fun st2 i => separateStep_frame st2 ci i) _ st

theorem applyImpulseRealA_frame (s : PhysicsEngine) (idx : ℕ) (p imp : Vector2) :
    frameOf (applyImpulseRealA s idx p imp) = frameOf s := by
  unfold applyImpulseRealA
  split
  · split <;> rfl
  · rfl

theorem applyImpulseRealB_frame (s : PhysicsEngine) (idx : ℕ) (p imp : Vector2) :
    frameOf (applyImpulseRealB s idx p imp) = frameOf s := by
  unfold applyImpulseRealB
  split
  · split <;> rfl
  · rfl

theorem applyImpulseDeltaA_frame (s : PhysicsEngine) (idx : ℕ) (p imp : Vector2) :
    frameOf (applyImpulseDeltaA s idx p imp) = frameOf s := by
  unfold applyImpulseDeltaA
  split
  · split <;> rfl
  · rfl

theorem applyImpulseDeltaB_frame (s : PhysicsEngine) (idx : ℕ) (p imp : Vector2) :
    frameOf (applyImpulseDeltaB s idx p imp) = frameOf s := by
  unfold applyImpulseDeltaB
  split
  · split <;> rfl
  · rfl

theorem applyImpulseResting_frame (s : PhysicsEngine) (contact : Contact)
    (p imp : Vector2) :
    frameOf (applyImpulseResting s contact p imp) = frameOf s := by
  unfold applyImpulseResting
  split
  · dsimp only
    split <;> rfl
  · rfl

theorem applyImpulse_frame (s : PhysicsEngine) (contact : Contact) (i : ℕ)
    (impulse : Vector2) (r d rr : Bool) :
    frameOf (applyImpulseToVelocities s contact i impulse r d rr) = frameOf s := by
  unfold applyImpulseToVelocities
  cases r <;> cases d <;> cases rr <;>
    simp only [Bool.false_eq_true, if_false, if_true, applyImpulseResting_frame,
      applyImpulseDeltaB_frame, applyImpulseDeltaA_frame,
      applyImpulseRealB_frame, applyImpulseRealA_frame]

theorem restingForcesPoint_frame (T : Trig) (ci : ℕ) (cache : ContactCache)
    (st2 : PhysicsEngine) (i : ℕ) :
    frameOf (restingForcesPoint T ci cache st2 i) = frameOf st2 := by
  unfold restingForcesPoint
  split
  · rfl
  · split
    all_goals
      first
        | (rw [applyImpulse_frame]; try rfl)
        | rfl

theorem applyRestingForces_frame (T : Trig) (s : PhysicsEngine) :
    frameOf (applyRestingForces T s) = frameOf s := by
  unfold applyRestingForces
  refine foldl_proj_eq ?_ _ s
  intro st ci
  split
  · rfl
  · split
    all_goals
      first
        | split
          all_goals
            first
              | exact foldl_proj_eq (fun st2 i => restingForcesPoint_frame T ci _ st2 i) _ st
              | rfl
        | rfl

theorem errorCorrectionPoint_frame (T : Trig) (ci : ℕ) (st2 : PhysicsEngine) (i : ℕ) :
    frameOf (errorCorrectionPoint T ci st2 i) = frameOf st2 := by
  unfold errorCorrectionPoint
  split
  · rfl
  · split
    all_goals
      first
        | (rw [applyImpulse_frame]; try rfl)
        | rfl

theorem measureAndCorrectError_frame (T : Trig) (s : PhysicsEngine) :
    frameOf (measureAndCorrectError T s) = frameOf s := by
  unfold measureAndCorrectError
  refine foldl_proj_eq ?_ _ s
  intro st ci
  split
  · rfl
  · split
    all_goals
      first
        | split
          all_goals
            first
              | exact foldl_proj_eq (fun st2 i => errorCorrectionPoint_frame T ci st2 i) _ st
              | rfl
        | rfl

theorem normalCollisionPoint_frame (T : Trig) (ci : ℕ) (st2 : PhysicsEngine) (i : ℕ) :
    frameOf (normalCollisionPoint T ci st2 i) = frameOf st2 := by
  unfold normalCollisionPoint
  split
  · rfl
  · split
    all_goals
      first
        | (rw [applyImpulse_frame]; try rfl)
        | rfl

theorem applyNormalCollision_frame (T : Trig) (s : PhysicsEngine) :
    frameOf (applyNormalCollision T s) = frameOf s := by
  unfold applyNormalCollision
  refine foldl_proj_eq ?_ _ s
  intro st ci
  split
  · rfl
  · exact foldl_proj_eq (fun st2 i => normalCollisionPoint_frame T ci st2 i) _ st

theorem updateMouseInteraction_frame (s : PhysicsEngine) :
    frameOf (updateMouseInteraction s) = frameOf s := by
  unfold updateMouseInteraction
  split
  · split
    · split <;> rfl
    · rfl
  · rfl

theorem update_frame (T : Trig) (s : PhysicsEngine) (hpause : s.isPaused = false) :
    (update T s).isPaused = false ∧ (update T s).currentTime = s.currentTime + 1 := by
  have hfr : frameOf (update T s) = frameOf (incTime s) := by
    unfold update
    rw [if_neg (by rw [hpause]; exact Bool.false_ne_true)]
    rw [restingDecay_eq_id]
    rw [show ∀ s0 : PhysicsEngine, frameOf (cleanupContactCache s0) = frameOf s0 from
      fun _ => rfl]
    rw [updateMouseInteraction_frame, applyNormalCollision_frame, measureAndCorrectError_frame,
      applyRestingForces_frame, separateObjects_frame, precomputeCollisionMasses_frame]
    rw [show ∀ s0 : PhysicsEngine, frameOf (integrateMotion s0) = frameOf s0 from fun _ => rfl]
    rw [show ∀ s0 : PhysicsEngine, frameOf (applyForces s0) = frameOf s0 from fun _ => rfl]
    rw [show ∀ s0 : PhysicsEngine, frameOf (resetDeltaVelocities s0) = frameOf s0 from
      fun _ => rfl]
    rw [detectCollisions_frame]
  exact ⟨(congrArg Prod.fst hfr).trans hpause, congrArg Prod.snd hfr⟩

end PhysicsEngine
namespace PhysicsEngine

/-! ### C7: exact cache-entry tracking across one tick -/

theorem foldl_invariant_mem {α : Type} {P : PhysicsEngine → Prop}
    {f : PhysicsEngine → α → PhysicsEngine} :
    ∀ (l : List α), (∀ st x, x ∈ l → P st → P (f st x)) →
      ∀ s, P s → P (List.foldl f s l) := by
  intro l
  induction l with
  | nil => intro _ s h; exact h
  | cons x xs ih =>
    intro hf s h
    rw [List.foldl_cons]
    exact ih (fun st y hy => hf st y (List.mem_cons_of_mem _ hy)) _
      (hf s x (List.mem_cons_self x xs) h)

theorem findEntry_eq_none_iff (k : ℕ × ℕ) :
    ∀ c : CacheStore, findEntry k c = none ↔ k ∉ c.map Prod.fst := by
  intro c
  induction c with
  | nil => simp [findEntry]
  | cons ke rest ih =>
    by_cases hk : ke.1 = k
    · simp [findEntry, hk]
    · simp [findEntry, hk, ih, Ne.symm hk]

theorem findEntry_filter_none {k : ℕ × ℕ} {p : (ℕ × ℕ) × ContactCache → Bool} :
    ∀ {c : CacheStore}, findEntry k c = none → findEntry k (c.filter p) = none := by
  intro c
  induction c with
  | nil => intro _; rfl
  | cons ke rest ih =>
    intro h
    by_cases hk : ke.1 = k
    · simp [findEntry, hk] at h
    · simp only [findEntry, if_neg hk] at h
      by_cases hp : p ke = true
      · simp only [List.filter_cons_of_pos hp, findEntry, if_neg hk]
        exact ih h
      · rw [List.filter_cons_of_neg (by simpa using hp)]
        exact ih h

theorem findEntry_filter_of_true {k : ℕ × ℕ} {e : ContactCache}
    {p : (ℕ × ℕ) × ContactCache → Bool} :
    ∀ {c : CacheStore}, findEntry k c = some e → p (k, e) = true →
      findEntry k (c.filter p) = some e := by
  intro c
  induction c with
  | nil => intro h _; simp [findEntry] at h
  | cons ke rest ih =>
    intro h hp
    by_cases hk : ke.1 = k
    · simp only [findEntry, if_pos hk, Option.some.injEq] at h
      obtain ⟨k1, e1⟩ := ke
      simp only at hk
      subst hk
      subst h
      rw [List.filter_cons_of_pos hp]
      simp [findEntry]
    · simp only [findEntry, if_neg hk] at h
      by_cases hq : p ke = true
      · rw [List.filter_cons_of_pos hq]
        simp only [findEntry, if_neg hk]
        exact ih h hp
      · rw [List.filter_cons_of_neg (by simpa using hq)]
        exact ih h hp

theorem findEntry_filter_of_false {k : ℕ × ℕ} {e : ContactCache}
    {p : (ℕ × ℕ) × ContactCache → Bool} :
    ∀ {c : CacheStore}, NodupKeys c → findEntry k c = some e → p (k, e) = false →
      findEntry k (c.filter p) = none := by
  intro c
  induction c with
  | nil => intro _ h _; simp [findEntry] at h
  | cons ke rest ih =>
    intro hnodup h hp
    have hnodup' : NodupKeys rest := (List.nodup_cons.mp hnodup).2
    obtain ⟨k1, e1⟩ := ke
    by_cases hk : k1 = k
    · simp only [findEntry, if_pos hk, Option.some.injEq] at h
      subst h
      subst hk
      rw [List.filter_cons_of_neg (by simpa using hp)]
      have hknotin : k1 ∉ rest.map Prod.fst := by
        have := List.nodup_cons.mp (show (k1 :: rest.map Prod.fst).Nodup from hnodup)
        exact this.1
      exact findEntry_filter_none ((findEntry_eq_none_iff k1 rest).mpr hknotin)
    · simp only [findEntry, if_neg hk] at h
      by_cases hq : p (k1, e1) = true
      · rw [List.filter_cons_of_pos hq]
        simp only [findEntry, if_neg hk]
        exact ih hnodup' h hp
      · rw [List.filter_cons_of_neg (by simpa using hq)]
        exact ih hnodup' h hp

theorem findEntry_append_of_isSome {k : ℕ × ℕ} (d : CacheStore) :
    ∀ {c : CacheStore}, (findEntry k c).isSome → findEntry k (c ++ d) = findEntry k c := by
  intro c
  induction c with
  | nil => intro h; simp [findEntry] at h
  | cons ke rest ih =>
    intro h
    by_cases hk : ke.1 = k
    · simp [findEntry, hk]
    · have h' : (findEntry k rest).isSome := by
        simpa [findEntry, hk] using h
      simp only [List.cons_append, findEntry, if_neg hk]
      exact ih h'

theorem setEntry_keys (k : ℕ × ℕ) (e : ContactCache) :
    ∀ c : CacheStore, (setEntry k e c).map Prod.fst = c.map Prod.fst := by
  intro c
  induction c with
  | nil => rfl
  | cons ke rest ih =>
    by_cases hk : ke.1 = k
    · simp [setEntry, hk]
    · simp [setEntry, hk, ih]

theorem nodupKeys_append_fresh {k : ℕ × ℕ} {e : ContactCache} {c : CacheStore}
    (hnodup : NodupKeys c) (habs : findEntry k c = none) :
    NodupKeys (c ++ [(k, e)]) := by
  unfold NodupKeys at hnodup ⊢
  rw [List.map_append]
  simp only [List.map_cons, List.map_nil]
  rw [List.nodup_append]
  refine ⟨hnodup, List.nodup_singleton k, ?_⟩
  intro a ha
  simp only [List.mem_singleton]
  intro hak
  subst hak
  exact ((findEntry_eq_none_iff a c).mp habs) ha

end PhysicsEngine
namespace PhysicsEngine

/-! ### C7: how the detection loop treats a fixed cache key -/

theorem findEntry_append_singleton_ne {k k' : ℕ × ℕ} (hne : k' ≠ k) (e : ContactCache) :
    ∀ c : CacheStore, findEntry k (c ++ [(k', e)]) = findEntry k c := by
  intro c
  induction c with
  | nil => simp [findEntry, hne]
  | cons ke rest ih =>
    by_cases hk : ke.1 = k
    · simp [findEntry, hk]
    · simp only [List.cons_append, findEntry, if_neg hk]
      exact ih

theorem detectStep_findEntry_untouched (T : Trig) {s : PhysicsEngine} {k : ℕ × ℕ}
    (st : PhysicsEngine) (ij : ℕ × ℕ) (hij : ij ∈ pairIndices s.bodies.length)
    (hk : k ∉ detectedKeys T s.bodies) (hb : st.bodies = s.bodies)
    (hfe : findEntry k st.contactCache = findEntry k s.contactCache) :
    findEntry k (detectStep T st ij).contactCache = findEntry k s.contactCache := by
  unfold detectStep
  split
  · rename_i bodyA bodyB ha hbB
    split
    · exact hfe
    · rename_i geom contactPoints normal penetrations hsat
      dsimp only
      have hmem : generateKey bodyA.id bodyB.id ∈ detectedKeys T s.bodies := by
        unfold detectedKeys
        refine List.mem_filterMap.mpr ⟨ij, hij, ?_⟩
        dsimp only
        rw [← hb, ha, hbB]
        dsimp only
        rw [hsat]
      have hne : generateKey bodyA.id bodyB.id ≠ k := fun h => hk (h ▸ hmem)
      have hc1 : findEntry k
          (if (findEntry (generateKey bodyA.id bodyB.id) st.contactCache).isSome then
            st.contactCache
          else st.contactCache ++ [(generateKey bodyA.id bodyB.id, ContactCache.fresh)]) =
          findEntry k st.contactCache := by
        split
        · rfl
        · exact findEntry_append_singleton_ne hne _ _
      split
      · rw [findEntry_setEntry_ne hne, hc1, hfe]
      · rw [hc1, hfe]
  · exact hfe

theorem detectCollisions_findEntry_untouched (T : Trig) (s : PhysicsEngine) (k : ℕ × ℕ)
    (hk : k ∉ detectedKeys T s.bodies) :
    findEntry k (detectCollisions T s).contactCache = findEntry k s.contactCache := by
  unfold detectCollisions
  refine (@foldl_invariant_mem _ (fun st => st.bodies = s.bodies ∧
    findEntry k st.contactCache = findEntry k s.contactCache) _ _ ?_
    { s with contacts := [] } ⟨rfl, rfl⟩).2
  intro st ij hij hP
  exact ⟨(detectStep_bodies T st ij).trans hP.1,
    detectStep_findEntry_untouched T st ij hij hk hP.1 hP.2⟩

theorem detectStep_refresh_step (T : Trig) {s : PhysicsEngine} {k : ℕ × ℕ}
    (st : PhysicsEngine) (ij : ℕ × ℕ)
    (ht : st.currentTime = s.currentTime)
    (h : ∃ e, findEntry k st.contactCache = some e ∧ e.lastUpdateTime = s.currentTime) :
    ∃ e, findEntry k (detectStep T st ij).contactCache = some e ∧
      e.lastUpdateTime = s.currentTime := by
  obtain ⟨e0, he0, hte0⟩ := h
  unfold detectStep
  split
  · rename_i bodyA bodyB ha hbB
    split
    · exact ⟨e0, he0, hte0⟩
    · rename_i geom contactPoints normal penetrations hsat
      dsimp only
      by_cases hkey : generateKey bodyA.id bodyB.id = k
      · subst hkey
        have hsome : (findEntry (generateKey bodyA.id bodyB.id) st.contactCache).isSome = true := by
          rw [he0]
          rfl
        have hif : (if (findEntry (generateKey bodyA.id bodyB.id) st.contactCache).isSome then
            st.contactCache
          else st.contactCache ++ [(generateKey bodyA.id bodyB.id, ContactCache.fresh)]) =
            st.contactCache := by
          rw [hsome]
          rfl
        rw [hif, he0]
        dsimp only
        exact ⟨_, findEntry_setEntry_self he0, ht⟩
      · have hc1 : findEntry k
            (if (findEntry (generateKey bodyA.id bodyB.id) st.contactCache).isSome then
              st.contactCache
            else st.contactCache ++ [(generateKey bodyA.id bodyB.id, ContactCache.fresh)]) =
            findEntry k st.contactCache := by
          split
          · rfl
          · exact findEntry_append_singleton_ne hkey _ _
        split
        · rw [findEntry_setEntry_ne hkey, hc1]
          exact ⟨e0, he0, hte0⟩
        · rw [hc1]
          exact ⟨e0, he0, hte0⟩
  · exact ⟨e0, he0, hte0⟩

theorem detectStep_refresh_self (T : Trig) {s : PhysicsEngine} {k : ℕ × ℕ}
    (st : PhysicsEngine) (ij : ℕ × ℕ) (hb : st.bodies = s.bodies)
    (ht : st.currentTime = s.currentTime)
    {bodyA bodyB : Rectangle}
    (ha : s.bodies[ij.1]? = some bodyA) (hbB : s.bodies[ij.2]? = some bodyB)
    (hsat : (checkSATCollision T bodyA bodyB).isSome)
    (hkey : generateKey bodyA.id bodyB.id = k) :
    ∃ e, findEntry k (detectStep T st ij).contactCache = some e ∧
      e.lastUpdateTime = s.currentTime := by
  subst hkey
  obtain ⟨g, hg⟩ := Option.isSome_iff_exists.mp hsat
  obtain ⟨cp, nrm, pen⟩ := g
  unfold detectStep
  rw [hb, ha, hbB]
  dsimp only
  rw [hg]
  dsimp only
  have hc1 : (findEntry (generateKey bodyA.id bodyB.id)
      (if (findEntry (generateKey bodyA.id bodyB.id) st.contactCache).isSome then
        st.contactCache
      else st.contactCache ++ [(generateKey bodyA.id bodyB.id, ContactCache.fresh)])).isSome := by
    split
    · rename_i hs
      exact hs
    · exact findEntry_append_self_isSome _ _ _
  obtain ⟨e1, he1⟩ := Option.isSome_iff_exists.mp hc1
  rw [he1]
  dsimp only
  exact ⟨_, findEntry_setEntry_self he1, ht⟩

theorem detectFold_refresh (T : Trig) {s : PhysicsEngine} {k : ℕ × ℕ} :
    ∀ (l : List (ℕ × ℕ)) (st : PhysicsEngine),
      st.bodies = s.bodies → st.currentTime = s.currentTime →
      ((∃ ij ∈ l, ∃ bodyA bodyB : Rectangle, s.bodies[ij.1]? = some bodyA ∧
          s.bodies[ij.2]? = some bodyB ∧ (checkSATCollision T bodyA bodyB).isSome ∧
          generateKey bodyA.id bodyB.id = k) ∨
        (∃ e, findEntry k st.contactCache = some e ∧ e.lastUpdateTime = s.currentTime)) →
      ∃ e, findEntry k (List.foldl (detectStep T) st l).contactCache = some e ∧
        e.lastUpdateTime = s.currentTime := by
  intro l
  induction l with
  | nil =>
    intro st _ _ h
    rcases h with h | h
    · obtain ⟨ij, hij, _⟩ := h
      exact absurd hij (List.not_mem_nil ij)
    · exact h
  | cons ij rest ih =>
    intro st hb ht h
    rw [List.foldl_cons]
    have hb' : (detectStep T st ij).bodies = s.bodies := (detectStep_bodies T st ij).trans hb
    have ht' : (detectStep T st ij).currentTime = s.currentTime :=
      (congrArg Prod.snd (detectStep_frame T st ij)).trans ht
    rcases h with ⟨ij0, hij0, bodyA, bodyB, ha, hbB, hsat, hkey⟩ | h
    · rcases List.mem_cons.mp hij0 with heq | hmem
      · subst heq
        exact ih (detectStep T st ij0) hb' ht'
          (Or.inr (detectStep_refresh_self T st ij0 hb ht ha hbB hsat hkey))
      · exact ih (detectStep T st ij) hb' ht'
          (Or.inl ⟨ij0, hmem, bodyA, bodyB, ha, hbB, hsat, hkey⟩)
    · exact ih (detectStep T st ij) hb' ht'
        (Or.inr (detectStep_refresh_step T st ij ht h))

theorem detectCollisions_refreshes (T : Trig) (s : PhysicsEngine) (k : ℕ × ℕ)
    (hk : k ∈ detectedKeys T s.bodies) :
    ∃ e, findEntry k (detectCollisions T s).contactCache = some e ∧
      e.lastUpdateTime = s.currentTime := by
  unfold detectCollisions
  refine detectFold_refresh T _ _ rfl rfl (Or.inl ?_)
  unfold detectedKeys at hk
  obtain ⟨ij, hij, hf⟩ := List.mem_filterMap.mp hk
  refine ⟨ij, hij, ?_⟩
  rcases ha : s.bodies[ij.1]? with _ | bodyA <;> rw [ha] at hf
  · simp at hf
  rcases hbB : s.bodies[ij.2]? with _ | bodyB <;> rw [hbB] at hf
  · simp at hf
  dsimp only at hf
  rcases hs : checkSATCollision T bodyA bodyB with _ | g <;> rw [hs] at hf
  · simp at hf
  dsimp only at hf
  exact ⟨bodyA, bodyB, rfl, rfl, by rw [hs]; rfl, Option.some.inj hf⟩

theorem detectStep_contactKeys (T : Trig) {s : PhysicsEngine} (st : PhysicsEngine)
    (ij : ℕ × ℕ) (hij : ij ∈ pairIndices s.bodies.length)
    (hb : st.bodies = s.bodies)
    (hall : ∀ c ∈ st.contacts, ∀ k0 : ℕ × ℕ,
      contactKeyOf st c = some k0 → k0 ∈ detectedKeys T s.bodies) :
    ∀ c ∈ (detectStep T st ij).contacts, ∀ k0 : ℕ × ℕ,
      contactKeyOf (detectStep T st ij) c = some k0 → k0 ∈ detectedKeys T s.bodies := by
  unfold detectStep
  split
  · rename_i bodyA bodyB ha hbB
    split
    · exact hall
    · rename_i geom contactPoints normal penetrations hsat
      dsimp only
      intro c hc k0 hk0
      rcases List.mem_append.mp hc with hold | hnew
      · exact hall c hold k0 hk0
      · rw [List.mem_singleton.mp hnew] at hk0
        unfold contactKeyOf at hk0
        dsimp only [mkContact] at hk0
        rw [ha, hbB] at hk0
        dsimp only at hk0
        unfold detectedKeys
        refine List.mem_filterMap.mpr ⟨ij, hij, ?_⟩
        dsimp only
        rw [← hb, ha, hbB]
        dsimp only
        rw [hsat]
        exact hk0
  · exact hall

theorem detectCollisions_contactKeys (T : Trig) (s : PhysicsEngine) :
    ∀ c ∈ (detectCollisions T s).contacts, ∀ k0 : ℕ × ℕ,
      contactKeyOf (detectCollisions T s) c = some k0 → k0 ∈ detectedKeys T s.bodies := by
  unfold detectCollisions
  refine (@foldl_invariant_mem _ (fun st => st.bodies = s.bodies ∧
    ∀ c ∈ st.contacts, ∀ k0 : ℕ × ℕ,
      contactKeyOf st c = some k0 → k0 ∈ detectedKeys T s.bodies) _ _ ?_
    { s with contacts := [] } ⟨rfl, by intro c hc; simp at hc⟩).2
  intro st ij hij hP
  exact ⟨(detectStep_bodies T st ij).trans hP.1,
    detectStep_contactKeys T st ij hij hP.1 hP.2⟩

end PhysicsEngine
namespace PhysicsEngine

/-! ### C7: the error-correction pass keeps cache keys and stamps -/

theorem applyImpulseResting_stamp (s : PhysicsEngine) (contact : Contact)
    (contactPoint impulse : Vector2) (k : ℕ × ℕ) :
    cacheStamp k (applyImpulseResting s contact contactPoint impulse) = cacheStamp k s := by
  unfold applyImpulseResting
  rcases s.bodies[contact.a]? with _ | bodyA <;> rcases s.bodies[contact.b]? with _ | bodyB <;>
    simp only
  rcases hcache : findEntry (generateKey bodyA.id bodyB.id) s.contactCache with _ | cache
  · rfl
  unfold cacheStamp
  dsimp only
  by_cases hkey : generateKey bodyA.id bodyB.id = k
  · subst hkey
    rw [findEntry_setEntry_self hcache, hcache]
    split <;> split <;> rfl
  · rw [findEntry_setEntry_ne hkey]

theorem applyImpulseResting_keys (s : PhysicsEngine) (contact : Contact)
    (contactPoint impulse : Vector2) :
    cacheKeys (applyImpulseResting s contact contactPoint impulse) = cacheKeys s := by
  unfold applyImpulseResting
  rcases s.bodies[contact.a]? with _ | bodyA <;> rcases s.bodies[contact.b]? with _ | bodyB <;>
    simp only
  rcases hcache : findEntry (generateKey bodyA.id bodyB.id) s.contactCache with _ | cache
  · rfl
  unfold cacheKeys
  dsimp only
  exact setEntry_keys _ _ _

theorem applyImpulseResting_cache_other (s : PhysicsEngine) (contact : Contact)
    (contactPoint impulse : Vector2) (k : ℕ × ℕ)
    (hk : contactKeyOf s contact ≠ some k) :
    findEntry k (applyImpulseResting s contact contactPoint impulse).contactCache =
      findEntry k s.contactCache := by
  unfold applyImpulseResting
  rcases ha : s.bodies[contact.a]? with _ | bodyA <;>
    rcases hb : s.bodies[contact.b]? with _ | bodyB <;> simp only
  rcases hcache : findEntry (generateKey bodyA.id bodyB.id) s.contactCache with _ | cache
  · rfl
  have hne : generateKey bodyA.id bodyB.id ≠ k := by
    intro h
    apply hk
    unfold contactKeyOf
    rw [ha, hb]
    exact congrArg some h
  dsimp only
  exact findEntry_setEntry_ne hne _

theorem errorCorrectionPoint_stamp (T : Trig) (ci : ℕ) (st2 : PhysicsEngine) (i : ℕ)
    (k : ℕ × ℕ) :
    cacheStamp k (errorCorrectionPoint T ci st2 i) = cacheStamp k st2 := by
  unfold errorCorrectionPoint
  split
  · rfl
  · split
    all_goals
      first
        | rw [applyImpulseToVelocities_resting_only, applyImpulseResting_stamp]
        | rfl

theorem errorCorrectionPoint_keys (T : Trig) (ci : ℕ) (st2 : PhysicsEngine) (i : ℕ) :
    cacheKeys (errorCorrectionPoint T ci st2 i) = cacheKeys st2 := by
  unfold errorCorrectionPoint
  split
  · rfl
  · split
    all_goals
      first
        | rw [applyImpulseToVelocities_resting_only, applyImpulseResting_keys]
        | rfl

theorem errorCorrectionPoint_cache_other (T : Trig) (ci : ℕ) (st2 : PhysicsEngine) (i : ℕ)
    (k : ℕ × ℕ)
    (hk : ∀ c, st2.contacts[ci]? = some c → contactKeyOf st2 c ≠ some k) :
    findEntry k (errorCorrectionPoint T ci st2 i).contactCache =
      findEntry k st2.contactCache := by
  unfold errorCorrectionPoint
  split
  · rfl
  · rename_i contact hC
    split
    all_goals
      first
        | (rw [applyImpulseToVelocities_resting_only]
           exact applyImpulseResting_cache_other st2 contact _ _ k (hk contact hC))
        | rfl

theorem measureAndCorrectError_stamp (T : Trig) (s : PhysicsEngine) (k : ℕ × ℕ) :
    cacheStamp k (measureAndCorrectError T s) = cacheStamp k s := by
  unfold measureAndCorrectError
  refine foldl_proj_eq ?_ _ s
  intro st ci
  split
  · rfl
  · split
    all_goals
      first
        | split
          all_goals
            first
              | exact foldl_proj_eq (fun st2 i => errorCorrectionPoint_stamp T ci st2 i k) _ st
              | rfl
        | rfl

theorem measureAndCorrectError_keys (T : Trig) (s : PhysicsEngine) :
    cacheKeys (measureAndCorrectError T s) = cacheKeys s := by
  unfold measureAndCorrectError
  refine foldl_proj_eq ?_ _ s
  intro st ci
  split
  · rfl
  · split
    all_goals
      first
        | split
          all_goals
            first
              | exact foldl_proj_eq (fun st2 i => errorCorrectionPoint_keys T ci st2 i) _ st
              | rfl
        | rfl

theorem measure_cache_other (T : Trig) (s : PhysicsEngine) (k : ℕ × ℕ)
    (hk : ∀ c ∈ s.contacts, contactKeyOf s c ≠ some k) :
    findEntry k (measureAndCorrectError T s).contactCache = findEntry k s.contactCache := by
  have hkey2 : ∀ st2 : PhysicsEngine, st2.bodies = s.bodies → st2.contacts = s.contacts →
      ∀ (ci : ℕ) (c : Contact), st2.contacts[ci]? = some c → contactKeyOf st2 c ≠ some k := by
    intro st2 hb2 hc2 ci c hCc
    have hmem : c ∈ s.contacts := by
      rw [hc2] at hCc
      exact List.getElem?_mem hCc
    have hco : contactKeyOf st2 c = contactKeyOf s c := by
      unfold contactKeyOf
      rw [hb2]
    rw [hco]
    exact hk c hmem
  unfold measureAndCorrectError
  refine (@foldl_invariant _ (fun st => st.bodies = s.bodies ∧ st.contacts = s.contacts ∧
    findEntry k st.contactCache = findEntry k s.contactCache) _ ?_ _ s
    ⟨rfl, rfl, rfl⟩).2.2
  intro st ci hP
  obtain ⟨hbst, hcst, hfst⟩ := hP
  split
  · exact ⟨hbst, hcst, hfst⟩
  · split
    all_goals
      first
        | (split
           all_goals
             first
               | (refine @foldl_invariant _ (fun st3 => st3.bodies = s.bodies ∧
                    st3.contacts = s.contacts ∧
                    findEntry k st3.contactCache = findEntry k s.contactCache) _ ?_ _ st
                    ⟨hbst, hcst, hfst⟩
                  intro st2 i hP2
                  obtain ⟨hb2, hc2, hf2⟩ := hP2
                  exact ⟨(errorCorrectionPoint_bodies T ci st2 i).trans hb2,
                    (errorCorrectionPoint_contacts T ci st2 i).trans hc2,
                    (errorCorrectionPoint_cache_other T ci st2 i k
                      (fun c hCc => hkey2 st2 hb2 hc2 ci c hCc)).trans hf2⟩)
               | exact ⟨hbst, hcst, hfst⟩)
        | exact ⟨hbst, hcst, hfst⟩

/-! ### C7: key-set discipline of the cache across the tick -/

theorem nodupKeys_filter {c : CacheStore} {p : (ℕ × ℕ) × ContactCache → Bool}
    (h : NodupKeys c) : NodupKeys (c.filter p) :=
  List.Nodup.sublist (List.Sublist.map Prod.fst (List.filter_sublist c)) h

theorem detectStep_nodup (T : Trig) (st : PhysicsEngine) (ij : ℕ × ℕ)
    (h : NodupKeys st.contactCache) : NodupKeys (detectStep T st ij).contactCache := by
  unfold detectStep
  split
  · rename_i bodyA bodyB ha hbB
    split
    · exact h
    · rename_i geom contactPoints normal penetrations hsat
      dsimp only
      have h1 : NodupKeys
          (if (findEntry (generateKey bodyA.id bodyB.id) st.contactCache).isSome then
            st.contactCache
          else st.contactCache ++ [(generateKey bodyA.id bodyB.id, ContactCache.fresh)]) := by
        split
        · exact h
        · rename_i hno
          exact nodupKeys_append_fresh h (Option.not_isSome_iff_eq_none.mp hno)
      split
      · unfold NodupKeys
        rw [setEntry_keys]
        exact h1
      · exact h1
  · exact h

theorem detectCollisions_nodup (T : Trig) (s : PhysicsEngine)
    (h : NodupKeys s.contactCache) : NodupKeys (detectCollisions T s).contactCache := by
  unfold detectCollisions
  exact @foldl_invariant _ (fun st => NodupKeys st.contactCache) _
    (fun st ij hP => detectStep_nodup T st ij hP) _ { s with contacts := [] } h

end PhysicsEngine
namespace PhysicsEngine

/-! ### C7: single-tick tracking of one cache entry -/

theorem update_decomp (T : Trig) (s : PhysicsEngine) (hpause : s.isPaused = false) :
    update T s = cleanupContactCache (preDecayState T s) := by
  unfold update preDecayState preErrorState preRestingState
  rw [if_neg (by rw [hpause]; exact Bool.false_ne_true)]
  rw [restingDecay_eq_id]

theorem preError_cache (T : Trig) (s : PhysicsEngine) :
    (preErrorState T s).contactCache = (detectCollisions T (incTime s)).contactCache := by
  unfold preErrorState preRestingState
  rw [applyRestingForces_cache, separateObjects_cache, precomputeCollisionMasses_cache,
    integrateMotion_cache, applyForces_cache, resetDeltaVelocities_cache]

theorem preDecay_cache (T : Trig) (s : PhysicsEngine) :
    (preDecayState T s).contactCache =
      (measureAndCorrectError T (preErrorState T s)).contactCache := by
  unfold preDecayState
  rw [updateMouseInteraction_cache, applyNormalCollision_cache]

theorem preDecay_time (T : Trig) (s : PhysicsEngine) :
    (preDecayState T s).currentTime = s.currentTime + 1 := by
  unfold preDecayState preErrorState preRestingState
  rw [show ∀ s0 : PhysicsEngine, (updateMouseInteraction s0).currentTime = s0.currentTime from
    fun s0 => congrArg Prod.snd (updateMouseInteraction_frame s0)]
  rw [show ∀ s0 : PhysicsEngine, (applyNormalCollision T s0).currentTime = s0.currentTime from
    fun s0 => congrArg Prod.snd (applyNormalCollision_frame T s0)]
  rw [show ∀ s0 : PhysicsEngine, (measureAndCorrectError T s0).currentTime = s0.currentTime from
    fun s0 => congrArg Prod.snd (measureAndCorrectError_frame T s0)]
  rw [show ∀ s0 : PhysicsEngine, (applyRestingForces T s0).currentTime = s0.currentTime from
    fun s0 => congrArg Prod.snd (applyRestingForces_frame T s0)]
  rw [show ∀ s0 : PhysicsEngine, (separateObjects s0).currentTime = s0.currentTime from
    fun s0 => congrArg Prod.snd (separateObjects_frame s0)]
  rw [show ∀ s0 : PhysicsEngine, (precomputeCollisionMasses s0).currentTime = s0.currentTime from
    fun s0 => congrArg Prod.snd (precomputeCollisionMasses_frame s0)]
  rw [show ∀ s0 : PhysicsEngine, (integrateMotion s0).currentTime = s0.currentTime from
    fun _ => rfl]
  rw [show ∀ s0 : PhysicsEngine, (applyForces s0).currentTime = s0.currentTime from
    fun _ => rfl]
  rw [show ∀ s0 : PhysicsEngine, (resetDeltaVelocities s0).currentTime = s0.currentTime from
    fun _ => rfl]
  rw [show ∀ s0 : PhysicsEngine, (detectCollisions T s0).currentTime = s0.currentTime from
    fun s0 => congrArg Prod.snd (detectCollisions_frame T s0)]
  rfl

theorem contactKey_mem_transfer {s s' : PhysicsEngine}
    (hids : idsAt s' = idsAt s) (hrefs : contactRefs s' = contactRefs s)
    {c' : Contact} (hc' : c' ∈ s'.contacts) {k : ℕ × ℕ}
    (hk : contactKeyOf s' c' = some k) :
    ∃ c ∈ s.contacts, contactKeyOf s c = some k := by
  have hmem : (c'.a, c'.b) ∈ contactRefs s :=
    hrefs ▸ List.mem_map_of_mem _ hc'
  obtain ⟨c, hc, hcc⟩ := List.mem_map.mp hmem
  have hca : c.a = c'.a := congrArg Prod.fst hcc
  have hcb : c.b = c'.b := congrArg Prod.snd hcc
  refine ⟨c, hc, ?_⟩
  unfold contactKeyOf at hk ⊢
  rcases ha' : s'.bodies[c'.a]? with _ | bodyA' <;> rw [ha'] at hk
  · simp at hk
  rcases hb' : s'.bodies[c'.b]? with _ | bodyB' <;> rw [hb'] at hk
  · simp at hk
  have ha : (s.bodies[c.a]?).map Rectangle.id = some bodyA'.id := by
    rw [← idsAt_getElem? hids, hca, ha']
    rfl
  have hb : (s.bodies[c.b]?).map Rectangle.id = some bodyB'.id := by
    rw [← idsAt_getElem? hids, hcb, hb']
    rfl
  rcases ha2 : s.bodies[c.a]? with _ | bodyA <;> rw [ha2] at ha
  · simp at ha
  rcases hb2 : s.bodies[c.b]? with _ | bodyB <;> rw [hb2] at hb
  · simp at hb
  rw [Option.map_some', Option.some.injEq] at ha hb
  dsimp only at hk ⊢
  rw [ha, hb]
  exact hk

theorem update_nodup (T : Trig) (s : PhysicsEngine) (hpause : s.isPaused = false)
    (hnd : NodupKeys s.contactCache) : NodupKeys (update T s).contactCache := by
  have hndD : NodupKeys (detectCollisions T (incTime s)).contactCache :=
    detectCollisions_nodup T (incTime s) hnd
  have hkeys : cacheKeys (preDecayState T s) = cacheKeys (detectCollisions T (incTime s)) :=
    ((congrArg (List.map Prod.fst) (preDecay_cache T s)).trans
      (measureAndCorrectError_keys T (preErrorState T s))).trans
      (congrArg (List.map Prod.fst) (preError_cache T s))
  rw [update_decomp T s hpause]
  unfold cleanupContactCache
  dsimp only
  refine nodupKeys_filter ?_
  unfold NodupKeys
  rw [show (preDecayState T s).contactCache.map Prod.fst = cacheKeys (preDecayState T s) from
    rfl, hkeys]
  exact hndD

theorem update_cache_untouched (T : Trig) (s : PhysicsEngine) (k : ℕ × ℕ) (e : ContactCache)
    (hpause : s.isPaused = false) (hnd : NodupKeys s.contactCache)
    (hk : k ∉ detectedKeys T s.bodies)
    (he : findEntry k s.contactCache = some e) :
    findEntry k (update T s).contactCache =
      if ((s.currentTime : ℤ) + 1) - (e.lastUpdateTime : ℤ) > (cacheTimeout : ℤ) then none
      else some e := by
  have hkD : k ∉ detectedKeys T (incTime s).bodies := hk
  have hDfe : findEntry k (detectCollisions T (incTime s)).contactCache = some e :=
    (detectCollisions_findEntry_untouched T (incTime s) k hkD).trans he
  have hshape : keepsShape (detectCollisions T (incTime s)) (preErrorState T s) :=
    keepsShape_trans (keepsShape_detect_to_preResting T s)
      (keepsShape_applyRestingForces T (preRestingState T s))
  have hnok : ∀ c ∈ (preErrorState T s).contacts,
      contactKeyOf (preErrorState T s) c ≠ some k := by
    intro c hc hkey
    obtain ⟨c0, hc0, hk0⟩ := contactKey_mem_transfer hshape.1 hshape.2.1 hc hkey
    exact hkD (detectCollisions_contactKeys T (incTime s) c0 hc0 k hk0)
  have hEfe : findEntry k (preErrorState T s).contactCache = some e := by
    rw [preError_cache T s]
    exact hDfe
  have hPfe : findEntry k (preDecayState T s).contactCache = some e := by
    rw [preDecay_cache T s]
    exact (measure_cache_other T (preErrorState T s) k hnok).trans hEfe
  have hndD : NodupKeys (detectCollisions T (incTime s)).contactCache :=
    detectCollisions_nodup T (incTime s) hnd
  have hkeys : cacheKeys (preDecayState T s) = cacheKeys (detectCollisions T (incTime s)) :=
    ((congrArg (List.map Prod.fst) (preDecay_cache T s)).trans
      (measureAndCorrectError_keys T (preErrorState T s))).trans
      (congrArg (List.map Prod.fst) (preError_cache T s))
  have hndP : NodupKeys (preDecayState T s).contactCache := by
    unfold NodupKeys
    rw [show (preDecayState T s).contactCache.map Prod.fst = cacheKeys (preDecayState T s) from
      rfl, hkeys]
    exact hndD
  rw [update_decomp T s hpause]
  unfold cleanupContactCache
  dsimp only
  by_cases hev : ((s.currentTime : ℤ) + 1) - (e.lastUpdateTime : ℤ) > (cacheTimeout : ℤ)
  · rw [if_pos hev]
    refine findEntry_filter_of_false hndP hPfe ?_
    dsimp only
    rw [preDecay_time T s]
    simp only [Bool.not_eq_false', decide_eq_true_eq]
    omega
  · rw [if_neg hev]
    refine findEntry_filter_of_true hPfe ?_
    dsimp only
    rw [preDecay_time T s]
    simp only [Bool.not_eq_true', decide_eq_false_iff_not]
    omega

theorem update_cache_absent (T : Trig) (s : PhysicsEngine) (k : ℕ × ℕ)
    (hpause : s.isPaused = false) (hk : k ∉ detectedKeys T s.bodies)
    (he : findEntry k s.contactCache = none) :
    findEntry k (update T s).contactCache = none := by
  have hkD : k ∉ detectedKeys T (incTime s).bodies := hk
  have hDfe : findEntry k (detectCollisions T (incTime s)).contactCache = none :=
    (detectCollisions_findEntry_untouched T (incTime s) k hkD).trans he
  have hshape : keepsShape (detectCollisions T (incTime s)) (preErrorState T s) :=
    keepsShape_trans (keepsShape_detect_to_preResting T s)
      (keepsShape_applyRestingForces T (preRestingState T s))
  have hnok : ∀ c ∈ (preErrorState T s).contacts,
      contactKeyOf (preErrorState T s) c ≠ some k := by
    intro c hc hkey
    obtain ⟨c0, hc0, hk0⟩ := contactKey_mem_transfer hshape.1 hshape.2.1 hc hkey
    exact hkD (detectCollisions_contactKeys T (incTime s) c0 hc0 k hk0)
  have hEfe : findEntry k (preErrorState T s).contactCache = none := by
    rw [preError_cache T s]
    exact hDfe
  have hPfe : findEntry k (preDecayState T s).contactCache = none := by
    rw [preDecay_cache T s]
    exact (measure_cache_other T (preErrorState T s) k hnok).trans hEfe
  rw [update_decomp T s hpause]
  unfold cleanupContactCache
  dsimp only
  exact findEntry_filter_none hPfe

theorem update_cache_refreshed (T : Trig) (s2 : PhysicsEngine)
    (hpause : s2.isPaused = false) (k : ℕ × ℕ) (hk : k ∈ detectedKeys T s2.bodies) :
    ∃ e2, findEntry k (update T s2).contactCache = some e2 ∧
      e2.lastUpdateTime = s2.currentTime + 1 := by
  obtain ⟨e0, he0, ht0⟩ := detectCollisions_refreshes T (incTime s2) k hk
  have hstampE : cacheStamp k (preErrorState T s2) = some (s2.currentTime + 1) := by
    unfold cacheStamp
    rw [preError_cache T s2, he0, Option.map_some']
    rw [ht0]
    rfl
  have hstampM : cacheStamp k (measureAndCorrectError T (preErrorState T s2)) =
      some (s2.currentTime + 1) :=
    (measureAndCorrectError_stamp T (preErrorState T s2) k).trans hstampE
  rcases hM : findEntry k (measureAndCorrectError T (preErrorState T s2)).contactCache
    with _ | e1
  · exfalso
    unfold cacheStamp at hstampM
    rw [hM] at hstampM
    simp at hstampM
  · have ht1 : e1.lastUpdateTime = s2.currentTime + 1 := by
      unfold cacheStamp at hstampM
      rw [hM, Option.map_some'] at hstampM
      exact Option.some.inj hstampM
    have hPfe : findEntry k (preDecayState T s2).contactCache = some e1 := by
      rw [preDecay_cache T s2]
      exact hM
    refine ⟨e1, ?_, ht1⟩
    rw [update_decomp T s2 hpause]
    unfold cleanupContactCache
    dsimp only
    refine findEntry_filter_of_true hPfe ?_
    dsimp only
    rw [preDecay_time T s2]
    simp only [Bool.not_eq_true', decide_eq_false_iff_not]
    omega

end PhysicsEngine
namespace PhysicsEngine

/-! ### C7: the cache-entry eviction lifecycle -/

/-- **C7** — Lifecycle of a contact-cache entry.  For a running (non-
paused) engine whose cache has pairwise-distinct keys and holds an entry
`e` under key `k` with `lastUpdateTime` equal to the current tick: the
eviction window is `cacheTimeout = hz · 0.5` (half a second of ticks);
if the pair never collides again during the next `n` ticks, the entry is
still present — and untouched — after every tick up to `cacheTimeout`
ticks, and is absent after every tick strictly beyond `cacheTimeout`
ticks; and at any tick whose detection pass still reports the pair
colliding, the entry survives with `lastUpdateTime` refreshed to the new
current tick. -/
theorem cache_eviction_lifecycle (T : Trig) (s : PhysicsEngine) (k : ℕ × ℕ)
    (e : ContactCache) (n : ℕ)
    (hpause : s.isPaused = false)
    (hnd : NodupKeys s.contactCache)
    (he : findEntry k s.contactCache = some e)
    (hstamp : e.lastUpdateTime = s.currentTime)
    (hmiss : ∀ m, m < n → k ∉ detectedKeys T ((update T)^[m] s).bodies) :
    (cacheTimeout : ℚ) = (hz : ℚ) * (1 / 2) ∧
    (cacheTimeout < n → findEntry k ((update T)^[n] s).contactCache = none) ∧
    (n ≤ cacheTimeout → findEntry k ((update T)^[n] s).contactCache = some e) ∧
    (∀ s2 : PhysicsEngine, s2.isPaused = false → k ∈ detectedKeys T s2.bodies →
      ∃ e2, findEntry k (update T s2).contactCache = some e2 ∧
        e2.lastUpdateTime = s2.currentTime + 1) := by
  have main : ∀ m, m ≤ n →
      ((update T)^[m] s).isPaused = false ∧
      ((update T)^[m] s).currentTime = s.currentTime + m ∧
      NodupKeys ((update T)^[m] s).contactCache ∧
      (m ≤ cacheTimeout → findEntry k ((update T)^[m] s).contactCache = some e) ∧
      (cacheTimeout < m → findEntry k ((update T)^[m] s).contactCache = none) := by
    intro m
    induction m with
    | zero =>
      intro _
      exact ⟨hpause, rfl, hnd, fun _ => he, fun h => absurd h (Nat.not_lt_zero _)⟩
    | succ m ih =>
      intro hm1
      obtain ⟨hp, ht, hn2, hsome, hnone⟩ := ih (Nat.le_of_succ_le hm1)
      have hkm : k ∉ detectedKeys T ((update T)^[m] s).bodies :=
        hmiss m (Nat.lt_of_succ_le hm1)
      rw [Function.iterate_succ_apply']
      refine ⟨(update_frame T _ hp).1, ?_, update_nodup T _ hp hn2, ?_, ?_⟩
      · rw [(update_frame T _ hp).2, ht]
        omega
      · intro hle
        have hu := update_cache_untouched T ((update T)^[m] s) k e hp hn2 hkm
          (hsome (Nat.le_of_succ_le hle))
        rw [hu, ht, hstamp]
        split
        · rename_i hcond
          exfalso
          omega
        · rfl
      · intro hgt
        by_cases hcase : m ≤ cacheTimeout
        · have hu := update_cache_untouched T ((update T)^[m] s) k e hp hn2 hkm (hsome hcase)
          rw [hu, ht, hstamp]
          split
          · rfl
          · rename_i hcond
            exfalso
            omega
        · exact update_cache_absent T ((update T)^[m] s) k hp hkm (hnone (by omega))
  refine ⟨by norm_num [cacheTimeout, hz], fun hlt => (main n le_rfl).2.2.2.2 hlt,
    fun hle => (main n le_rfl).2.2.2.1 hle,
    fun s2 hp2 hk2 => update_cache_refreshed T s2 hp2 k hk2⟩

/-- Closed witness for C7: in the concrete empty-world state whose cache
holds one entry under `(0, 1)` stamped at tick 0, the entry is gone
after 31 ticks (the window being `30 = 60 · 0.5` ticks). -/
theorem cache_eviction_lifecycle_witness :
    findEntry (0, 1) ((update trig0)^[31] sEmptyCache).contactCache = none ∧
    (cacheTimeout : ℚ) = (hz : ℚ) * (1 / 2) := by
  have h := cache_eviction_lifecycle trig0 sEmptyCache (0, 1) ContactCache.fresh 31 rfl
    (by unfold NodupKeys; decide) rfl rfl (by decide)
  exact ⟨h.2.1 (by decide), h.1⟩

end PhysicsEngine
namespace PhysicsEngine

/-! ### C4: id-shift and key-shift basics -/

theorem idShift_position (δ : ℕ) (b : Rectangle) : (idShift δ b).position = b.position := rfl

theorem idShift_velocity (δ : ℕ) (b : Rectangle) : (idShift δ b).velocity = b.velocity := rfl

theorem idShift_deltaVelocity (δ : ℕ) (b : Rectangle) :
    (idShift δ b).deltaVelocity = b.deltaVelocity := rfl

theorem idShift_angle (δ : ℕ) (b : Rectangle) : (idShift δ b).angle = b.angle := rfl

theorem idShift_angularVelocity (δ : ℕ) (b : Rectangle) :
    (idShift δ b).angularVelocity = b.angularVelocity := rfl

theorem idShift_deltaAngularVelocity (δ : ℕ) (b : Rectangle) :
    (idShift δ b).deltaAngularVelocity = b.deltaAngularVelocity := rfl

theorem idShift_width (δ : ℕ) (b : Rectangle) : (idShift δ b).width = b.width := rfl

theorem idShift_height (δ : ℕ) (b : Rectangle) : (idShift δ b).height = b.height := rfl

theorem idShift_isStatic (δ : ℕ) (b : Rectangle) : (idShift δ b).isStatic = b.isStatic := rfl

theorem idShift_invMass (δ : ℕ) (b : Rectangle) : (idShift δ b).invMass = b.invMass := rfl

theorem idShift_invInertia (δ : ℕ) (b : Rectangle) :
    (idShift δ b).invInertia = b.invInertia := rfl

theorem idShift_staticFriction (δ : ℕ) (b : Rectangle) :
    (idShift δ b).staticFriction = b.staticFriction := rfl

theorem idShift_dynamicFriction (δ : ℕ) (b : Rectangle) :
    (idShift δ b).dynamicFriction = b.dynamicFriction := rfl

theorem idShift_id (δ : ℕ) (b : Rectangle) : (idShift δ b).id = b.id + δ := rfl

theorem idShift_getVertices (T : Trig) (δ : ℕ) (b : Rectangle) :
    (idShift δ b).getVertices T = b.getVertices T := rfl

theorem relabel_mk (δ : ℕ) (s : PhysicsEngine) :
    relabel δ s = PhysicsEngine.mk s.worldWidth s.worldHeight (s.bodies.map (idShift δ))
      s.contacts (cacheShift δ s.contactCache) s.isPaused s.currentTime s.mousePosition
      s.grabbedBody s.grabOffset s.isMouseDown := rfl

theorem relabel_getElem (δ : ℕ) (s : PhysicsEngine) (i : ℕ) :
    (relabel δ s).bodies[i]? = (s.bodies[i]?).map (idShift δ) :=
  List.getElem?_map ..

theorem keyShift_inj {δ : ℕ} {k1 k2 : ℕ × ℕ} (h : keyShift δ k1 = keyShift δ k2) :
    k1 = k2 := by
  unfold keyShift at h
  have h1 := congrArg Prod.fst h
  have h2 := congrArg Prod.snd h
  dsimp only at h1 h2
  exact Prod.ext (by omega) (by omega)

theorem generateKey_shift (δ a b : ℕ) :
    generateKey (a + δ) (b + δ) = keyShift δ (generateKey a b) := by
  unfold generateKey keyShift
  exact Prod.ext (by dsimp only; omega) (by dsimp only; omega)

theorem findEntry_shift (δ : ℕ) (k : ℕ × ℕ) :
    ∀ c : CacheStore, findEntry (keyShift δ k) (cacheShift δ c) = findEntry k c := by
  intro c
  induction c with
  | nil => rfl
  | cons ke rest ih =>
    by_cases hk : ke.1 = k
    · simp [cacheShift, findEntry, hk]
    · have hk' : ¬(keyShift δ ke.1 = keyShift δ k) := fun h => hk (keyShift_inj h)
      simp only [cacheShift, List.map_cons, findEntry, if_neg hk', if_neg hk]
      exact ih

theorem setEntry_shift (δ : ℕ) (k : ℕ × ℕ) (e : ContactCache) :
    ∀ c : CacheStore, setEntry (keyShift δ k) e (cacheShift δ c) =
      cacheShift δ (setEntry k e c) := by
  intro c
  induction c with
  | nil => rfl
  | cons ke rest ih =>
    by_cases hk : ke.1 = k
    · simp [cacheShift, setEntry, hk]
    · have hk' : ¬(keyShift δ ke.1 = keyShift δ k) := fun h => hk (keyShift_inj h)
      simp only [cacheShift, List.map_cons, setEntry, if_neg hk', if_neg hk, List.cons.injEq,
        true_and, and_true, eq_self_iff_true]
      exact ih

theorem cacheShift_append (δ : ℕ) (c d : CacheStore) :
    cacheShift δ (c ++ d) = cacheShift δ c ++ cacheShift δ d :=
  List.map_append _ c d

theorem cacheShift_filter (δ : ℕ) (q : ContactCache → Bool) (c : CacheStore) :
    (cacheShift δ c).filter (fun ke => q ke.2) = cacheShift δ (c.filter fun ke => q ke.2) := by
  induction c with
  | nil => rfl
  | cons ke rest ih =>
    simp only [cacheShift, List.map_cons, List.filter_cons] at ih ⊢
    by_cases hq : q ke.2 = true
    · rw [if_pos hq, if_pos hq, List.map_cons]
      exact congrArg _ ih
    · rw [if_neg hq, if_neg hq]
      exact ih

theorem foldl_relabel {α : Type} (δ : ℕ) {f : PhysicsEngine → α → PhysicsEngine}
    (hf : ∀ st x, f (relabel δ st) x = relabel δ (f st x)) :
    ∀ (l : List α) (s : PhysicsEngine),
      List.foldl f (relabel δ s) l = relabel δ (List.foldl f s l) := by
  intro l
  induction l with
  | nil => intro s; rfl
  | cons x xs ih =>
    intro s
    rw [List.foldl_cons, List.foldl_cons, hf, ih]

theorem checkSATCollision_idShift (T : Trig) (δ : ℕ) (a b : Rectangle) :
    checkSATCollision T (idShift δ a) (idShift δ b) = checkSATCollision T a b := rfl

theorem separatePointA_relabel (δ : ℕ) (st : PhysicsEngine) (idx : ℕ)
    (p d : Vector2) :
    separatePointA (relabel δ st) idx p d = relabel δ (separatePointA st idx p d) := by
  unfold separatePointA
  rw [relabel_getElem δ st idx]
  rcases hb : st.bodies[idx]? with _ | bodyA
  · rfl
  · dsimp only [Option.map_some']
    rw [idShift_isStatic]
    by_cases hstat : bodyA.isStatic = true
    · rw [if_pos hstat, if_pos hstat]
    · rw [if_neg hstat, if_neg hstat]
      simp only [relabel_mk, idShift, List.map_set, PhysicsEngine.mk.injEq, Rectangle.mk.injEq]

end PhysicsEngine
namespace PhysicsEngine

/-! ### C4: relabelling commutes with the per-point solver blocks -/

theorem relabel_withContacts (δ : ℕ) (s : PhysicsEngine) (X : List Contact) :
    ({ relabel δ s with contacts := X } : PhysicsEngine) =
      relabel δ { s with contacts := X } := rfl

theorem relabel_withCache (δ : ℕ) (s : PhysicsEngine) (C : CacheStore) :
    ({ relabel δ s with contactCache := cacheShift δ C } : PhysicsEngine) =
      relabel δ { s with contactCache := C } := rfl

theorem applyImpulseToVelocities_real_only (s : PhysicsEngine) (contact : Contact) (i : ℕ)
    (impulse : Vector2) :
    applyImpulseToVelocities s contact i impulse true false false =
      applyImpulseRealB (applyImpulseRealA s contact.a (contact.contactPoints.getD i ⟨0, 0⟩)
        impulse) contact.b (contact.contactPoints.getD i ⟨0, 0⟩) impulse := rfl

theorem separatePointB_relabel (δ : ℕ) (st : PhysicsEngine) (idx : ℕ)
    (p d : Vector2) :
    separatePointB (relabel δ st) idx p d = relabel δ (separatePointB st idx p d) := by
  unfold separatePointB
  rw [relabel_getElem δ st idx]
  rcases hb : st.bodies[idx]? with _ | bodyB
  · rfl
  · dsimp only [Option.map_some']
    rw [idShift_isStatic]
    by_cases hstat : bodyB.isStatic = true
    · rw [if_pos hstat, if_pos hstat]
    · rw [if_neg hstat, if_neg hstat]
      simp only [relabel_mk, idShift, List.map_set, PhysicsEngine.mk.injEq, Rectangle.mk.injEq]

theorem applyImpulseRealA_relabel (δ : ℕ) (st : PhysicsEngine) (idx : ℕ)
    (p imp : Vector2) :
    applyImpulseRealA (relabel δ st) idx p imp = relabel δ (applyImpulseRealA st idx p imp) := by
  unfold applyImpulseRealA
  rw [relabel_getElem δ st idx]
  rcases hb : st.bodies[idx]? with _ | bodyA
  · rfl
  · dsimp only [Option.map_some']
    rw [idShift_isStatic]
    by_cases hstat : bodyA.isStatic = true
    · rw [if_pos hstat, if_pos hstat]
    · rw [if_neg hstat, if_neg hstat]
      simp only [relabel_mk, idShift, List.map_set, PhysicsEngine.mk.injEq, Rectangle.mk.injEq]

theorem applyImpulseRealB_relabel (δ : ℕ) (st : PhysicsEngine) (idx : ℕ)
    (p imp : Vector2) :
    applyImpulseRealB (relabel δ st) idx p imp = relabel δ (applyImpulseRealB st idx p imp) := by
  unfold applyImpulseRealB
  rw [relabel_getElem δ st idx]
  rcases hb : st.bodies[idx]? with _ | bodyB
  · rfl
  · dsimp only [Option.map_some']
    rw [idShift_isStatic]
    by_cases hstat : bodyB.isStatic = true
    · rw [if_pos hstat, if_pos hstat]
    · rw [if_neg hstat, if_neg hstat]
      simp only [relabel_mk, idShift, List.map_set, PhysicsEngine.mk.injEq, Rectangle.mk.injEq]

theorem applyImpulseDeltaA_relabel (δ : ℕ) (st : PhysicsEngine) (idx : ℕ)
    (p imp : Vector2) :
    applyImpulseDeltaA (relabel δ st) idx p imp =
      relabel δ (applyImpulseDeltaA st idx p imp) := by
  unfold applyImpulseDeltaA
  rw [relabel_getElem δ st idx]
  rcases hb : st.bodies[idx]? with _ | bodyA
  · rfl
  · dsimp only [Option.map_some']
    rw [idShift_isStatic]
    by_cases hstat : bodyA.isStatic = true
    · rw [if_pos hstat, if_pos hstat]
    · rw [if_neg hstat, if_neg hstat]
      simp only [relabel_mk, idShift, List.map_set, PhysicsEngine.mk.injEq, Rectangle.mk.injEq]

theorem applyImpulseDeltaB_relabel (δ : ℕ) (st : PhysicsEngine) (idx : ℕ)
    (p imp : Vector2) :
    applyImpulseDeltaB (relabel δ st) idx p imp =
      relabel δ (applyImpulseDeltaB st idx p imp) := by
  unfold applyImpulseDeltaB
  rw [relabel_getElem δ st idx]
  rcases hb : st.bodies[idx]? with _ | bodyB
  · rfl
  · dsimp only [Option.map_some']
    rw [idShift_isStatic]
    by_cases hstat : bodyB.isStatic = true
    · rw [if_pos hstat, if_pos hstat]
    · rw [if_neg hstat, if_neg hstat]
      simp only [relabel_mk, idShift, List.map_set, PhysicsEngine.mk.injEq, Rectangle.mk.injEq]

theorem calculateCollisionMass_relabel (δ : ℕ) (s : PhysicsEngine) (ci i : ℕ) :
    calculateCollisionMass (relabel δ s) ci i = relabel δ (calculateCollisionMass s ci i) := by
  unfold calculateCollisionMass
  rw [show (relabel δ s).contacts = s.contacts from rfl]
  rcases hc : s.contacts[ci]? with _ | contact
  · rfl
  dsimp only
  by_cases hm : contact.collisionMassesCalculated.getD i false = true
  · rw [if_pos hm, if_pos hm]
  · rw [if_neg hm, if_neg hm]
    rw [relabel_getElem δ s contact.a, relabel_getElem δ s contact.b]
    rcases ha : s.bodies[contact.a]? with _ | bodyA <;>
      rcases hb : s.bodies[contact.b]? with _ | bodyB
    · rfl
    · rfl
    · rfl
    dsimp only [Option.map_some']
    simp only [idShift_position, idShift_invMass, idShift_invInertia]
    rw [relabel_withContacts]

theorem separateStep_relabel (δ : ℕ) (st : PhysicsEngine) (ci i : ℕ) :
    separateStep (relabel δ st) ci i = relabel δ (separateStep st ci i) := by
  unfold separateStep
  rw [show (relabel δ st).contacts = st.contacts from rfl]
  rcases hc : st.contacts[ci]? with _ | contact
  · rfl
  dsimp only
  rw [separatePointA_relabel, separatePointB_relabel]

theorem applyImpulseResting_relabel (δ : ℕ) (s : PhysicsEngine) (contact : Contact)
    (contactPoint impulse : Vector2) :
    applyImpulseResting (relabel δ s) contact contactPoint impulse =
      relabel δ (applyImpulseResting s contact contactPoint impulse) := by
  unfold applyImpulseResting
  rw [relabel_getElem δ s contact.a, relabel_getElem δ s contact.b]
  rcases ha : s.bodies[contact.a]? with _ | bodyA <;>
    rcases hb : s.bodies[contact.b]? with _ | bodyB
  · rfl
  · rfl
  · rfl
  dsimp only [Option.map_some']
  rw [show (relabel δ s).contactCache = cacheShift δ s.contactCache from rfl]
  rw [idShift_id δ bodyA, idShift_id δ bodyB]
  rw [generateKey_shift δ bodyA.id bodyB.id]
  rw [findEntry_shift]
  rcases hcache : findEntry (generateKey bodyA.id bodyB.id) s.contactCache with _ | cache
  · rfl
  dsimp only
  simp only [idShift_isStatic, idShift_invMass, idShift_invInertia, idShift_position]
  rw [setEntry_shift]
  rw [relabel_withCache]

theorem restingNormalImpulse_idShift (δ : ℕ) (bodyA bodyB : Rectangle)
    (cache : ContactCache) (contactPoint : Vector2) (collisionMass : ℚ) (normal : Vector2) :
    restingNormalImpulse (idShift δ bodyA) (idShift δ bodyB) cache contactPoint
      collisionMass normal = restingNormalImpulse bodyA bodyB cache contactPoint
      collisionMass normal := rfl

theorem restingFrictionImpulse_idShift (δ : ℕ) (bodyA bodyB : Rectangle)
    (cache : ContactCache) (contactPoint : Vector2) (tangentialCollisionMass : ℚ)
    (tangent : Vector2) :
    restingFrictionImpulse (idShift δ bodyA) (idShift δ bodyB) cache contactPoint
      tangentialCollisionMass tangent = restingFrictionImpulse bodyA bodyB cache contactPoint
      tangentialCollisionMass tangent := rfl

theorem restingForcesPoint_relabel (T : Trig) (δ : ℕ) (ci : ℕ) (cache : ContactCache)
    (st2 : PhysicsEngine) (i : ℕ) :
    restingForcesPoint T ci cache (relabel δ st2) i =
      relabel δ (restingForcesPoint T ci cache st2 i) := by
  unfold restingForcesPoint
  rw [show (relabel δ st2).contacts = st2.contacts from rfl]
  rcases hC : st2.contacts[ci]? with _ | contact
  · rfl
  dsimp only
  rw [relabel_getElem δ st2 contact.a, relabel_getElem δ st2 contact.b]
  rcases ha : st2.bodies[contact.a]? with _ | bodyA <;>
    rcases hb : st2.bodies[contact.b]? with _ | bodyB
  · rfl
  · rfl
  · rfl
  dsimp only [Option.map_some']
  simp only [idShift_position, idShift_velocity, idShift_angularVelocity, idShift_invMass,
    idShift_invInertia, idShift_staticFriction, idShift_dynamicFriction,
    restingNormalImpulse_idShift, restingFrictionImpulse_idShift]
  rw [applyImpulseToVelocities_real_only, applyImpulseToVelocities_real_only]
  rw [relabel_withContacts]
  rw [applyImpulseRealA_relabel, applyImpulseRealB_relabel]

theorem errorCorrectionPoint_relabel (T : Trig) (δ : ℕ) (ci : ℕ) (st2 : PhysicsEngine)
    (i : ℕ) :
    errorCorrectionPoint T ci (relabel δ st2) i =
      relabel δ (errorCorrectionPoint T ci st2 i) := by
  unfold errorCorrectionPoint
  rw [show (relabel δ st2).contacts = st2.contacts from rfl]
  rcases hC : st2.contacts[ci]? with _ | contact
  · rfl
  dsimp only
  rw [relabel_getElem δ st2 contact.a, relabel_getElem δ st2 contact.b]
  rcases ha : st2.bodies[contact.a]? with _ | bodyA <;>
    rcases hb : st2.bodies[contact.b]? with _ | bodyB
  · rfl
  · rfl
  · rfl
  dsimp only [Option.map_some']
  simp only [idShift_position, idShift_velocity, idShift_angularVelocity,
    idShift_deltaAngularVelocity, idShift_staticFriction, idShift_dynamicFriction]
  rw [applyImpulseToVelocities_resting_only, applyImpulseToVelocities_resting_only]
  rw [applyImpulseResting_relabel]

theorem normalCollisionPoint_relabel (T : Trig) (δ : ℕ) (ci : ℕ) (st2 : PhysicsEngine)
    (i : ℕ) :
    normalCollisionPoint T ci (relabel δ st2) i =
      relabel δ (normalCollisionPoint T ci st2 i) := by
  unfold normalCollisionPoint
  rw [show (relabel δ st2).contacts = st2.contacts from rfl]
  rcases hC : st2.contacts[ci]? with _ | contact
  · rfl
  dsimp only
  rw [relabel_getElem δ st2 contact.a, relabel_getElem δ st2 contact.b]
  rcases ha : st2.bodies[contact.a]? with _ | bodyA <;>
    rcases hb : st2.bodies[contact.b]? with _ | bodyB
  · rfl
  · rfl
  · rfl
  dsimp only [Option.map_some']
  simp only [idShift_position, idShift_velocity, idShift_angularVelocity,
    idShift_staticFriction, idShift_dynamicFriction]
  rw [applyImpulseToVelocities_real_only, applyImpulseToVelocities_real_only]
  rw [applyImpulseRealA_relabel, applyImpulseRealB_relabel]

end PhysicsEngine
namespace PhysicsEngine

/-! ### C4: relabelling commutes with every tick phase -/

theorem incTime_relabel (δ : ℕ) (s : PhysicsEngine) :
    incTime (relabel δ s) = relabel δ (incTime s) := rfl

theorem map_comm_idShift (δ : ℕ) (f : Rectangle → Rectangle)
    (hf : ∀ b, f (idShift δ b) = idShift δ (f b)) (l : List Rectangle) :
    (l.map (idShift δ)).map f = (l.map f).map (idShift δ) := by
  rw [List.map_map, List.map_map]
  exact List.map_congr_left fun b _ => hf b

theorem resetDeltaVelocities_relabel (δ : ℕ) (s : PhysicsEngine) :
    resetDeltaVelocities (relabel δ s) = relabel δ (resetDeltaVelocities s) := by
  unfold resetDeltaVelocities
  rw [show (relabel δ s).bodies = s.bodies.map (idShift δ) from rfl]
  rw [map_comm_idShift δ
    (fun body => { body with deltaVelocity := ⟨0, 0⟩, deltaAngularVelocity := 0 })
    (fun b => rfl)]
  rfl

theorem applyForces_relabel (δ : ℕ) (s : PhysicsEngine) :
    applyForces (relabel δ s) = relabel δ (applyForces s) := by
  unfold applyForces
  rw [show (relabel δ s).bodies = s.bodies.map (idShift δ) from rfl]
  rw [map_comm_idShift δ
    (fun body => if body.isStatic then body
      else
        { body with
          velocity := Vector2.add body.velocity gravity
          deltaVelocity := Vector2.add body.deltaVelocity gravity }) ?_]
  · rfl
  · intro b
    dsimp only
    rw [idShift_isStatic]
    by_cases hsb : b.isStatic = true
    · rw [if_pos hsb, if_pos hsb]
    · rw [if_neg hsb, if_neg hsb]
      rfl

theorem integrateMotion_relabel (δ : ℕ) (s : PhysicsEngine) :
    integrateMotion (relabel δ s) = relabel δ (integrateMotion s) := by
  unfold integrateMotion
  rw [show (relabel δ s).bodies = s.bodies.map (idShift δ) from rfl]
  rw [map_comm_idShift δ
    (fun body => if body.isStatic then body
      else
        { body with
          position := Vector2.add body.position body.velocity
          angle := body.angle + body.angularVelocity }) ?_]
  · rfl
  · intro b
    dsimp only
    rw [idShift_isStatic]
    by_cases hsb : b.isStatic = true
    · rw [if_pos hsb, if_pos hsb]
    · rw [if_neg hsb, if_neg hsb]
      rfl

theorem detectStep_relabel (T : Trig) (δ : ℕ) (st : PhysicsEngine) (ij : ℕ × ℕ) :
    detectStep T (relabel δ st) ij = relabel δ (detectStep T st ij) := by
  unfold detectStep
  rw [relabel_getElem δ st ij.1, relabel_getElem δ st ij.2]
  rcases ha : st.bodies[ij.1]? with _ | bodyA <;>
    rcases hb : st.bodies[ij.2]? with _ | bodyB
  · rfl
  · rfl
  · rfl
  dsimp only [Option.map_some']
  rw [checkSATCollision_idShift]
  rcases hs : checkSATCollision T bodyA bodyB with _ | g
  · rfl
  obtain ⟨cp, nrm, pen⟩ := g
  dsimp only
  rw [show (relabel δ st).contactCache = cacheShift δ st.contactCache from rfl]
  rw [idShift_id δ bodyA, idShift_id δ bodyB]
  rw [generateKey_shift δ bodyA.id bodyB.id]
  rw [findEntry_shift]
  by_cases hc1 : (findEntry (generateKey bodyA.id bodyB.id) st.contactCache).isSome = true
  · rw [if_pos hc1, if_pos hc1]
    rw [findEntry_shift]
    rcases he : findEntry (generateKey bodyA.id bodyB.id) st.contactCache with _ | e
    · rfl
    · rw [show (relabel δ st).currentTime = st.currentTime from rfl]
      dsimp only
      rw [setEntry_shift]
      rfl
  · rw [if_neg hc1, if_neg hc1]
    rw [show cacheShift δ st.contactCache ++
        [(keyShift δ (generateKey bodyA.id bodyB.id), ContactCache.fresh)] =
        cacheShift δ (st.contactCache ++ [(generateKey bodyA.id bodyB.id, ContactCache.fresh)])
      from (cacheShift_append δ st.contactCache
        [(generateKey bodyA.id bodyB.id, ContactCache.fresh)]).symm]
    rw [findEntry_shift]
    rcases he : findEntry (generateKey bodyA.id bodyB.id)
      (st.contactCache ++ [(generateKey bodyA.id bodyB.id, ContactCache.fresh)]) with _ | e
    · rfl
    · rw [show (relabel δ st).currentTime = st.currentTime from rfl]
      dsimp only
      rw [setEntry_shift]
      rfl

theorem detectCollisions_relabel (T : Trig) (δ : ℕ) (s : PhysicsEngine) :
    detectCollisions T (relabel δ s) = relabel δ (detectCollisions T s) := by
  unfold detectCollisions
  rw [show (relabel δ s).bodies.length = s.bodies.length from by
    rw [show (relabel δ s).bodies = s.bodies.map (idShift δ) from rfl, List.length_map]]
  rw [show ({ relabel δ s with contacts := ([] : List Contact) } : PhysicsEngine) =
    relabel δ { s with contacts := ([] : List Contact) } from relabel_withContacts δ s []]
  exact foldl_relabel δ (fun st ij => detectStep_relabel T δ st ij) _ _

theorem precomputeCollisionMasses_relabel (δ : ℕ) (s : PhysicsEngine) :
    precomputeCollisionMasses (relabel δ s) = relabel δ (precomputeCollisionMasses s) := by
  unfold precomputeCollisionMasses
  rw [show (relabel δ s).contacts = s.contacts from rfl]
  refine foldl_relabel δ ?_ _ _
  intro st ci
  rw [show (relabel δ st).contacts = st.contacts from rfl]
  rcases hc : st.contacts[ci]? with _ | contact
  · rfl
  dsimp only
  exact foldl_relabel δ (fun st2 i => calculateCollisionMass_relabel δ st2 ci i) _ _

theorem separateObjects_relabel (δ : ℕ) (s : PhysicsEngine) :
    separateObjects (relabel δ s) = relabel δ (separateObjects s) := by
  unfold separateObjects
  rw [show (relabel δ s).contacts = s.contacts from rfl]
  refine foldl_relabel δ ?_ _ _
  intro st ci
  rw [show (relabel δ st).contacts = st.contacts from rfl]
  rcases hc : st.contacts[ci]? with _ | contact
  · rfl
  dsimp only
  exact foldl_relabel δ (fun st2 i => separateStep_relabel δ st2 ci i) _ _

theorem applyRestingForces_relabel (T : Trig) (δ : ℕ) (s : PhysicsEngine) :
    applyRestingForces T (relabel δ s) = relabel δ (applyRestingForces T s) := by
  unfold applyRestingForces
  rw [show (relabel δ s).contacts = s.contacts from rfl]
  refine foldl_relabel δ ?_ _ _
  intro st ci
  rw [show (relabel δ st).contacts = st.contacts from rfl]
  rcases hc : st.contacts[ci]? with _ | contact
  · rfl
  dsimp only
  rw [relabel_getElem δ st contact.a, relabel_getElem δ st contact.b]
  rcases ha : st.bodies[contact.a]? with _ | bodyA <;>
    rcases hb : st.bodies[contact.b]? with _ | bodyB
  · rfl
  · rfl
  · rfl
  dsimp only [Option.map_some']
  rw [show (relabel δ st).contactCache = cacheShift δ st.contactCache from rfl]
  rw [idShift_id δ bodyA, idShift_id δ bodyB]
  rw [generateKey_shift δ bodyA.id bodyB.id]
  rw [findEntry_shift]
  rcases hcache : findEntry (generateKey bodyA.id bodyB.id) st.contactCache with _ | cache
  · rfl
  dsimp only
  exact foldl_relabel δ (fun st2 i => restingForcesPoint_relabel T δ ci cache st2 i) _ _

theorem measureAndCorrectError_relabel (T : Trig) (δ : ℕ) (s : PhysicsEngine) :
    measureAndCorrectError T (relabel δ s) = relabel δ (measureAndCorrectError T s) := by
  unfold measureAndCorrectError
  rw [show (relabel δ s).contacts = s.contacts from rfl]
  refine foldl_relabel δ ?_ _ _
  intro st ci
  rw [show (relabel δ st).contacts = st.contacts from rfl]
  rcases hc : st.contacts[ci]? with _ | contact
  · rfl
  dsimp only
  rw [relabel_getElem δ st contact.a, relabel_getElem δ st contact.b]
  rcases ha : st.bodies[contact.a]? with _ | bodyA <;>
    rcases hb : st.bodies[contact.b]? with _ | bodyB
  · rfl
  · rfl
  · rfl
  dsimp only [Option.map_some']
  rw [show (relabel δ st).contactCache = cacheShift δ st.contactCache from rfl]
  rw [idShift_id δ bodyA, idShift_id δ bodyB]
  rw [generateKey_shift δ bodyA.id bodyB.id]
  rw [findEntry_shift]
  rcases hcache : findEntry (generateKey bodyA.id bodyB.id) st.contactCache with _ | cache
  · rfl
  dsimp only
  exact foldl_relabel δ (fun st2 i => errorCorrectionPoint_relabel T δ ci st2 i) _ _

theorem applyNormalCollision_relabel (T : Trig) (δ : ℕ) (s : PhysicsEngine) :
    applyNormalCollision T (relabel δ s) = relabel δ (applyNormalCollision T s) := by
  unfold applyNormalCollision
  rw [show (relabel δ s).contacts = s.contacts from rfl]
  refine foldl_relabel δ ?_ _ _
  intro st ci
  rw [show (relabel δ st).contacts = st.contacts from rfl]
  rcases hc : st.contacts[ci]? with _ | contact
  · rfl
  dsimp only
  exact foldl_relabel δ (fun st2 i => normalCollisionPoint_relabel T δ ci st2 i) _ _

theorem updateMouseInteraction_relabel (δ : ℕ) (s : PhysicsEngine) :
    updateMouseInteraction (relabel δ s) = relabel δ (updateMouseInteraction s) := by
  unfold updateMouseInteraction
  rw [show (relabel δ s).grabbedBody = s.grabbedBody from rfl]
  rcases hg : s.grabbedBody with _ | gi
  · rfl
  dsimp only
  rw [show (relabel δ s).isMouseDown = s.isMouseDown from rfl]
  by_cases hmd : s.isMouseDown = true
  · rw [if_pos hmd, if_pos hmd]
    rw [relabel_getElem δ s gi]
    rcases hb : s.bodies[gi]? with _ | body
    · rfl
    dsimp only [Option.map_some']
    rw [show (relabel δ s).mousePosition = s.mousePosition from rfl,
      show (relabel δ s).grabOffset = s.grabOffset from rfl]
    simp only [idShift_position, idShift_velocity, idShift_angularVelocity]
    simp only [relabel_mk, idShift, List.map_set, PhysicsEngine.mk.injEq, Rectangle.mk.injEq]
  · rw [if_neg hmd, if_neg hmd]

theorem applyRestingDecay_relabel (δ : ℕ) (s : PhysicsEngine) :
    applyRestingDecay (relabel δ s) = relabel δ (applyRestingDecay s) := by
  rw [restingDecay_eq_id, restingDecay_eq_id]

theorem cacheShift_cleanup (δ : ℕ) (t : ℕ) (c : CacheStore) :
    (cacheShift δ c).filter
        (fun ke => !((t : ℤ) - (ke.2.lastUpdateTime : ℤ) > (cacheTimeout : ℤ))) =
      cacheShift δ (c.filter fun ke =>
        !((t : ℤ) - (ke.2.lastUpdateTime : ℤ) > (cacheTimeout : ℤ))) :=
  cacheShift_filter δ (fun e => !((t : ℤ) - (e.lastUpdateTime : ℤ) > (cacheTimeout : ℤ))) c

theorem cleanupContactCache_relabel (δ : ℕ) (s : PhysicsEngine) :
    cleanupContactCache (relabel δ s) = relabel δ (cleanupContactCache s) := by
  unfold cleanupContactCache
  rw [show (relabel δ s).contactCache = cacheShift δ s.contactCache from rfl]
  rw [show (relabel δ s).currentTime = s.currentTime from rfl]
  rw [cacheShift_cleanup δ s.currentTime s.contactCache]
  rfl

theorem update_relabel (T : Trig) (δ : ℕ) (s : PhysicsEngine) :
    update T (relabel δ s) = relabel δ (update T s) := by
  unfold update
  rw [show (relabel δ s).isPaused = s.isPaused from rfl]
  by_cases hp : s.isPaused = true
  · rw [if_pos hp, if_pos hp]
  · rw [if_neg hp, if_neg hp]
    rw [show incTime (relabel δ s) = relabel δ (incTime s) from rfl]
    rw [detectCollisions_relabel, resetDeltaVelocities_relabel, applyForces_relabel,
      integrateMotion_relabel, precomputeCollisionMasses_relabel, separateObjects_relabel,
      applyRestingForces_relabel, measureAndCorrectError_relabel, applyNormalCollision_relabel,
      updateMouseInteraction_relabel, applyRestingDecay_relabel, cleanupContactCache_relabel]

end PhysicsEngine
namespace PhysicsEngine

/-! ### C4: relabelling commutes with the external interface -/

theorem getBodyAtPointAux_idShift (T : Trig) (δ : ℕ) (point : Vector2) :
    ∀ l : List (ℕ × Rectangle),
      getBodyAtPointAux T point (l.map (Prod.map id (idShift δ))) =
        getBodyAtPointAux T point l := by
  intro l
  induction l with
  | nil => rfl
  | cons ib rest ih =>
    obtain ⟨i, b⟩ := ib
    dsimp only [List.map_cons, Prod.map, id, getBodyAtPointAux]
    rw [show (idShift δ b).getVertices T = b.getVertices T from rfl]
    by_cases hpt : isPointInRectangle point (b.getVertices T) = true
    · rw [if_pos hpt, if_pos hpt]
    · rw [if_neg hpt, if_neg hpt]
      exact ih

theorem getBodyAtPoint_relabel (T : Trig) (δ : ℕ) (s : PhysicsEngine) (p : Vector2) :
    getBodyAtPoint T (relabel δ s) p = getBodyAtPoint T s p := by
  unfold getBodyAtPoint
  rw [show (relabel δ s).bodies = s.bodies.map (idShift δ) from rfl]
  rw [List.enum_map, ← List.map_reverse]
  exact getBodyAtPointAux_idShift T δ p s.bodies.enum.reverse

theorem handleMouseDown_relabel (T : Trig) (δ : ℕ) (x y : ℚ) (s : PhysicsEngine) :
    handleMouseDown T x y (relabel δ s) = relabel δ (handleMouseDown T x y s) := by
  unfold handleMouseDown
  dsimp only
  rw [show ({ relabel δ s with isMouseDown := true, mousePosition := (⟨x, y⟩ : Vector2) } : PhysicsEngine) = relabel δ { s with isMouseDown := true, mousePosition := ⟨x, y⟩ } from rfl]
  rw [getBodyAtPoint_relabel]
  rcases hbi : getBodyAtPoint T { s with isMouseDown := true, mousePosition := ⟨x, y⟩ } ⟨x, y⟩ with _ | bi
  · rfl
  dsimp only
  rw [relabel_getElem δ s bi]
  rcases hbody : s.bodies[bi]? with _ | body
  · rfl
  dsimp only [Option.map_some']
  rw [idShift_isStatic]
  by_cases hst : body.isStatic = true
  · rw [if_pos hst, if_pos hst]
  · rw [if_neg hst, if_neg hst]
    rw [idShift_position]
    rfl

theorem applyEvent_relabel (T : Trig) (δ : ℕ) (s : PhysicsEngine) (ev : Event) :
    applyEvent T (relabel δ s) ev = relabel δ (applyEvent T s ev) := by
  cases ev with
  | step => exact update_relabel T δ s
  | mouseDown x y => exact handleMouseDown_relabel T δ x y s
  | mouseMove x y => rfl
  | mouseUp => rfl

theorem runScript_relabel (T : Trig) (δ : ℕ) (events : List Event) (s : PhysicsEngine) :
    runScript T events (relabel δ s) = relabel δ (runScript T events s) := by
  unfold runScript
  exact foldl_relabel δ (fun st ev => applyEvent_relabel T δ st ev) events s

theorem physView_relabel (δ : ℕ) (s : PhysicsEngine) :
    physView (relabel δ s) = physView s := by
  unfold physView
  rw [show (relabel δ s).bodies = s.bodies.map (idShift δ) from rfl]
  rw [List.map_map]
  rfl

theorem mkEngine_relabel (w h : ℚ) (n δ : ℕ) :
    mkEngine w h (n + δ) = relabel δ (mkEngine w h n) := by
  unfold mkEngine relabel idShift mkRectangle
  dsimp only
  simp only [List.map_cons, List.map_nil, PhysicsEngine.mk.injEq, Rectangle.mk.injEq,
    List.cons.injEq, cacheShift, and_true, true_and]
  omega

/-- **C4** — Determinism of the engine as observed on physical body
state.  A tick and every pointer event are pure functions of the engine
state in this embedding, so the only way ambient shared mutable state
enters is the process-global `Rectangle.nextId` counter (the seeded
random source feeds only the omitted cosmetic body color): two engine
instances constructed with different counter bases — as happens when
both live in one process — receive uniformly shifted body ids and cache
keys.  Running the same script from the same constructor arguments
yields bit-for-bit identical positions, angles, velocities and angular
velocities regardless of the counter base. -/
theorem engine_determinism (T : Trig) (events : List Event) (w h : ℚ) (n1 n2 : ℕ) :
    physView (runScript T events (mkEngine w h n1)) =
      physView (runScript T events (mkEngine w h n2)) := by
  have key : ∀ n : ℕ, physView (runScript T events (mkEngine w h n)) =
      physView (runScript T events (mkEngine w h 0)) := by
    intro n
    have h0 : mkEngine w h n = relabel n (mkEngine w h 0) := by
      have hm := mkEngine_relabel w h 0 n
      rw [Nat.zero_add] at hm
      exact hm
    rw [h0, runScript_relabel, physView_relabel]
  rw [key n1, key n2]

end PhysicsEngine
